import Mathlib

/-!
# STM32F1xx DMA controller: register file and transfer engine

Shallow embedding of `hw/dma/stm32f1xx_dma.c` and of the state declared in
`include/hw/dma/stm32f1xx_dma.h`.

Conventions of the embedding:

* `uint32_t` / `uint64_t` / `uint8_t` values are natural numbers; every
  place where the C code truncates or wraps is written with an explicit
  `%` (or `sub_wrap` for an unsigned subtraction).  A state is *well
  formed* (`STM32F1XXDMAState.WF`) when every 32-bit field is below `2^32`
  and `channel_count` is below `2^8`.
* The array `chan_dma[STM32F1XX_DMA_MAXCHANS]` is a function on `Fin 7`.
  An access `s->chan_dma[i]` with `i ≥ 7` is outside the array; the
  operations return `none` there.
* The address space `dma_as` is a flat byte-addressed memory
  (`Mem = Nat → Fin 256`); `ldl_le_phys` / `stl_le_phys` are the
  little-endian 32-bit load and store over it.
* In the SoC of the repository `dma_as` is the system memory, in which the
  register window of the controller itself is mapped.
  `handle_dma_request_sysmem` is the request handler over that memory view:
  a load or store inside the window is a register access.  It coincides with
  `handle_dma_request` when no access of the request falls in the window
  (`handle_dma_request_sysmem_eq_flat`).
* The locals `mmask` and `pmask` of `handle_dma_request` are declared
  without initialiser and are assigned only for the element sizes 0, 1
  and 2.  Their initial (indeterminate) contents are parameters of the
  embedded function.
-/

set_option linter.unusedVariables false

namespace Stm32f1xxDma

/-! ## Constants of `stm32f1xx_dma.c` -/

def DMA_ISR : Nat := 0x00000000
def DMA_IFCR : Nat := 0x00000004

def DMA_CCR : Nat := 0x00000000
def DMA_CNDTR : Nat := 0x00000004
def DMA_CPAR : Nat := 0x00000008
def DMA_CMAR : Nat := 0x0000000C

def DMA_CCR_EN : Nat := 0x1 <<< 0x0
def DMA_CCR_DIR : Nat := 0x1 <<< 0x4
def DMA_CCR_CIRC : Nat := 0x1 <<< 0x5
def DMA_CCR_PINC : Nat := 0x1 <<< 0x6
def DMA_CCR_MINC : Nat := 0x1 <<< 0x7
def DMA_CCR_PSIZE_SHIFT : Nat := 0x8
def DMA_CCR_PSIZE : Nat := 0x3 <<< DMA_CCR_PSIZE_SHIFT
def DMA_CCR_MSIZE_SHIFT : Nat := 0xA
def DMA_CCR_MSIZE : Nat := 0x3 <<< DMA_CCR_MSIZE_SHIFT

def DMA_DATASIZE_8 : Nat := 0x0
def DMA_DATASIZE_16 : Nat := 0x1
def DMA_DATASIZE_32 : Nat := 0x2

def STM32F1XX_DMA_MAXCHANS : Nat := 7

/-! ## State -/

/-- One channel: `STM32F1XXDMAChan`. -/
structure STM32F1XXDMAChan where
  ccr : Nat
  cndtr : Nat
  reload_cndtr : Nat
  cpar : Nat
  cmar : Nat
deriving DecidableEq, Repr

/-- Controller registers of `STM32F1XXDMAState` (the bus device, the memory
regions and the address space are kept outside: the address space is the
`Mem` argument of the request handler). -/
structure STM32F1XXDMAState where
  channel_count : Nat
  chan_dma : Fin 7 → STM32F1XXDMAChan
  isr : Nat
  ifcr : Nat

/-- Every 32-bit field of a channel holds a 32-bit value. -/
def STM32F1XXDMAChan.WF (c : STM32F1XXDMAChan) : Prop :=
  c.ccr < 2 ^ 32 ∧ c.cndtr < 2 ^ 32 ∧ c.reload_cndtr < 2 ^ 32 ∧
    c.cpar < 2 ^ 32 ∧ c.cmar < 2 ^ 32

/-- The fields of the state fit their C types. -/
def STM32F1XXDMAState.WF (s : STM32F1XXDMAState) : Prop :=
  s.channel_count < 2 ^ 8 ∧ s.isr < 2 ^ 32 ∧ s.ifcr < 2 ^ 32 ∧
    ∀ i : Fin 7, (s.chan_dma i).WF

/-- The array access `s->chan_dma[i]`: `none` when `i` is outside the
seven-entry array. -/
def chan_lookup (s : STM32F1XXDMAState) (i : Nat) : Option STM32F1XXDMAChan :=
  if h : i < 7 then some (s.chan_dma ⟨i, h⟩) else none

/-- The state with entry `i` of the channel array replaced. -/
def set_chan (s : STM32F1XXDMAState) (i : Fin 7) (c : STM32F1XXDMAChan) :
    STM32F1XXDMAState :=
  { s with chan_dma := Function.update s.chan_dma i c }

/-- Assignment to fields of `s->chan_dma[i]`: `none` when `i` is outside the
array. -/
def chan_store (s : STM32F1XXDMAState) (i : Nat) (c : STM32F1XXDMAChan) :
    Option STM32F1XXDMAState :=
  if h : i < 7 then some (set_chan s ⟨i, h⟩ c) else none

/-! ## Address space -/

/-- Flat byte-addressed memory behind `dma_as`. -/
abbrev Mem := Nat → Fin 256

/-- The byte `k` (0 = least significant) of a value. -/
def byte_of (v k : Nat) : Fin 256 :=
  ⟨(v / 256 ^ k) % 256, Nat.mod_lt _ (by decide)⟩

/-- Little-endian 32-bit load: `ldl_le_phys`. -/
def ldl_le_phys (mem : Mem) (addr : Nat) : Nat :=
  (mem addr).val + 256 * (mem (addr + 1)).val + 65536 * (mem (addr + 2)).val
    + 16777216 * (mem (addr + 3)).val

/-- Little-endian 32-bit store: `stl_le_phys`. -/
def stl_le_phys (mem : Mem) (addr : Nat) (val : Nat) : Mem :=
  fun a =>
    if a = addr then byte_of val 0
    else if a = addr + 1 then byte_of val 1
    else if a = addr + 2 then byte_of val 2
    else if a = addr + 3 then byte_of val 3
    else mem a

/-! ## Register file -/

/-- Subtraction `a - b` of unsigned `w`-bit integers, wrapping around modulo
`2^w` (for `a, b < 2^w`). -/
def sub_wrap (w a b : Nat) : Nat :=
  if b ≤ a then a - b else a + (2 ^ w - b)

/-- Channel index computed by the register decode:
`uint8_t chan_idx = (addr - 0x4*2) / 20` with `addr` a 64-bit `hwaddr`. -/
def decode_chan_idx (addr : Nat) : Nat :=
  (sub_wrap 64 addr (0x4 * 2) / 20) % 2 ^ 8

/-- Register offset computed by the register decode:
`uint8_t reg_offset = addr - 0x4*2 - 20 * chan_idx`. -/
def decode_reg_offset (addr : Nat) : Nat :=
  sub_wrap 64 (sub_wrap 64 addr (0x4 * 2)) (20 * decode_chan_idx addr) % 2 ^ 8

/-- Register read: `stm32f1xx_dma_read` (`size` is unused by the C code). -/
def stm32f1xx_dma_read (s : STM32F1XXDMAState) (addr : Nat) : Option Nat :=
  if DMA_ISR = addr then some s.isr
  else if DMA_IFCR = addr then some s.ifcr
  else
    let chan_idx := decode_chan_idx addr
    let reg_offset := decode_reg_offset addr
    if chan_idx ≥ s.channel_count then some 0
    else
      if reg_offset = DMA_CCR then (chan_lookup s chan_idx).map (·.ccr)
      else if reg_offset = DMA_CNDTR then (chan_lookup s chan_idx).map (·.cndtr)
      else if reg_offset = DMA_CPAR then (chan_lookup s chan_idx).map (·.cpar)
      else if reg_offset = DMA_CMAR then (chan_lookup s chan_idx).map (·.cmar)
      else some 0

/-- Register write: `stm32f1xx_dma_write` (`size` is unused by the C code). -/
def stm32f1xx_dma_write (s : STM32F1XXDMAState) (addr : Nat) (val64 : Nat) :
    Option STM32F1XXDMAState :=
  let val32 := val64 &&& 0xFFFFFFFF
  if DMA_ISR = addr then some { s with isr := val32 }
  else if DMA_IFCR = addr then some { s with ifcr := val32 }
  else
    let chan_idx := decode_chan_idx addr
    let reg_offset := decode_reg_offset addr
    if chan_idx ≥ s.channel_count then some s
    else
      if reg_offset = DMA_CCR then
        (chan_lookup s chan_idx).bind fun c => chan_store s chan_idx { c with ccr := val32 }
      else if reg_offset = DMA_CNDTR then
        (chan_lookup s chan_idx).bind fun c =>
          chan_store s chan_idx { c with cndtr := val32, reload_cndtr := val32 }
      else if reg_offset = DMA_CPAR then
        (chan_lookup s chan_idx).bind fun c => chan_store s chan_idx { c with cpar := val32 }
      else if reg_offset = DMA_CMAR then
        (chan_lookup s chan_idx).bind fun c => chan_store s chan_idx { c with cmar := val32 }
      else some s

/-! ## Transfer engine -/

/-- Address mask of one side (lines 185-187 and 189-191): set from the
element size; for a size other than 0, 1, 2 no assignment happens and the
local keeps its initial content `junk`. -/
def addr_mask (size junk : Nat) : Nat :=
  if size = DMA_DATASIZE_8 then 0xFFFFFFFF
  else if size = DMA_DATASIZE_16 then 0xFFFFFFFE
  else if size = DMA_DATASIZE_32 then 0xFFFFFFFC
  else junk % 2 ^ 32

/-- Clearing of the destination word by the destination size (lines 207-209). -/
def clear_dst (dst_size dst_data : Nat) : Nat :=
  if dst_size = DMA_DATASIZE_8 then dst_data &&& 0xFFFFFF00
  else if dst_size = DMA_DATASIZE_16 then dst_data &&& 0xFFFF0000
  else if dst_size = DMA_DATASIZE_32 then dst_data &&& 0x00000000
  else dst_data

/-- Merge of the source word by the source size (lines 211-213). -/
def merge_src (src_size dst_data data : Nat) : Nat :=
  if src_size = DMA_DATASIZE_8 then dst_data ||| (data &&& 0x000000FF)
  else if src_size = DMA_DATASIZE_16 then dst_data ||| (data &&& 0x0000FFFF)
  else if src_size = DMA_DATASIZE_32 then dst_data ||| (data &&& 0xFFFFFFFF)
  else dst_data

/-- The channel registers after the address increments and the count update
(lines 224-234). -/
def advance_chan (chan : STM32F1XXDMAChan) : STM32F1XXDMAChan :=
  let cmar := if chan.ccr &&& DMA_CCR_MINC ≠ 0 then (chan.cmar + 1) % 2 ^ 32 else chan.cmar
  let cpar := if chan.ccr &&& DMA_CCR_PINC ≠ 0 then (chan.cpar + 1) % 2 ^ 32 else chan.cpar
  let cndtr := sub_wrap 32 chan.cndtr 1
  let cndtr :=
    if cndtr = 0 then
      if chan.ccr &&& DMA_CCR_CIRC ≠ 0 then chan.reload_cndtr else cndtr
    else cndtr
  { chan with cmar := cmar, cpar := cpar, cndtr := cndtr }

/-- Memory after the element move of one accepted request (lines 181-222). -/
def transfer_mem (chan : STM32F1XXDMAChan) (mem : Mem) (mmask0 pmask0 : Nat) : Mem :=
  let dir := (chan.ccr &&& DMA_CCR_DIR) % 2 ^ 8
  let psize := ((chan.ccr &&& DMA_CCR_PSIZE) >>> DMA_CCR_PSIZE_SHIFT) % 2 ^ 8
  let msize := ((chan.ccr &&& DMA_CCR_MSIZE) >>> DMA_CCR_MSIZE_SHIFT) % 2 ^ 8
  let pmask := addr_mask psize pmask0
  let mmask := addr_mask msize mmask0
  if dir ≠ 0 then
    let data := ldl_le_phys mem (chan.cmar &&& mmask)
    let dst_data := ldl_le_phys mem (chan.cpar &&& pmask)
    let dst_data := clear_dst psize dst_data
    let dst_data := merge_src msize dst_data data
    stl_le_phys mem (chan.cpar &&& pmask) dst_data
  else
    let data := ldl_le_phys mem (chan.cpar &&& pmask)
    let dst_data := ldl_le_phys mem (chan.cmar &&& mmask)
    let dst_data := clear_dst msize dst_data
    let dst_data := merge_src psize dst_data data
    stl_le_phys mem (chan.cmar &&& mmask) dst_data

/-- Request handler: `handle_dma_request`.  `level` is the unused third
argument; `mmask0` and `pmask0` are the initial contents of the
uninitialised locals `mmask` and `pmask`. -/
def handle_dma_request (s : STM32F1XXDMAState) (mem : Mem) (channel level : Int)
    (mmask0 pmask0 : Nat) : Option (STM32F1XXDMAState × Mem) :=
  if channel < 0 ∨ channel ≥ (s.channel_count : Int) then some (s, mem)
  else
    match chan_lookup s channel.toNat with
    | none => none
    | some chan =>
      if 0 = chan.ccr &&& DMA_CCR_EN then some (s, mem)
      else if 0 = chan.cndtr then some (s, mem)
      else
        (chan_store s channel.toNat (advance_chan chan)).map fun s1 =>
          (s1, transfer_mem chan mem mmask0 pmask0)

/-- Device reset: `stm32f1xx_dma_reset`. -/
def stm32f1xx_dma_reset (s : STM32F1XXDMAState) : STM32F1XXDMAState :=
  { s with isr := 0, ifcr := 0, chan_dma := fun _ => ⟨0, 0, 0, 0, 0⟩ }

/-- A run of requests delivered in order to one channel; each request carries
its level and the initial contents of the two uninitialised locals. -/
def dma_requests (s : STM32F1XXDMAState) (mem : Mem) (channel : Int) :
    List (Int × Nat × Nat) → Option (STM32F1XXDMAState × Mem)
  | [] => some (s, mem)
  | (level, mmask0, pmask0) :: rest =>
    (handle_dma_request s mem channel level mmask0 pmask0).bind fun r =>
      dma_requests r.1 r.2 channel rest

/-! ## Construction -/

/-- What `stm32f1xx_dma_realize` leaves behind: the error stored through
`errp` (`none` when `*errp` is not written, which the caller takes as
success), whether `address_space_init` ran on `dma_as`, and the controller
registers. -/
structure RealizeResult where
  errp : Option String
  dma_as_bound : Bool
  state : STM32F1XXDMAState

/-- Device realize: `stm32f1xx_dma_realize`.  `dma_mr` is the object returned
by `object_property_get_link(OBJECT(dev), "dma-mr", &err)`, `none` for
`NULL`; `s` holds the registers at entry, with `channel_count` as stored by
the `channel-count` property. -/
def stm32f1xx_dma_realize (dma_mr : Option Nat) (s : STM32F1XXDMAState) : RealizeResult :=
  match dma_mr with
  | none => ⟨none, false, s⟩
  | some _ => ⟨none, true, stm32f1xx_dma_reset s⟩

/-- Channel counts the SoC gives its two controllers: `dma_channel_num` of
`stm32f103_soc.c`. -/
def dma_channel_num : List Nat := [7, 5]

/-! ## Snapshot description -/

/-- Fields of `STM32F1XXDMAChan`. -/
inductive ChanField where
  | ccr
  | cndtr
  | reload_cndtr
  | cpar
  | cmar
deriving DecidableEq, Repr

/-- An entry of the field list of `vmstate_stm32f1xx_dma`. -/
inductive VMStateEntry where
  | chan_dma_array (fields : List ChanField)
  | isr
  | ifcr
  | channel_count
deriving DecidableEq, Repr

/-- One scalar of the snapshot. -/
inductive SnapshotField where
  | chan (i : Fin 7) (f : ChanField)
  | isr
  | ifcr
  | channel_count
deriving DecidableEq, Repr

/-- Field list of `vmstate_stm32f1xx_dma_chan` (lines 249-256). -/
def vmstate_stm32f1xx_dma_chan : List ChanField :=
  [.ccr, .cndtr, .reload_cndtr, .cpar, .cmar]

/-- Field list of `vmstate_stm32f1xx_dma` (lines 263-269); the struct array
covers the `STM32F1XX_DMA_MAXCHANS` entries of `chan_dma`. -/
def vmstate_stm32f1xx_dma : List VMStateEntry :=
  [.chan_dma_array vmstate_stm32f1xx_dma_chan, .isr, .ifcr, .channel_count]

/-- Modelled from the spec: the snapshot transport of the host (the `VMSTATE_*`
macros and the save/load routines are not in the sources).  A struct-array
entry stands for its fields, element after element in index order; a scalar
entry stands for itself. -/
def expand_entry : VMStateEntry → List SnapshotField
  | .chan_dma_array fields => (List.finRange 7).flatMap fun i => fields.map (SnapshotField.chan i)
  | .isr => [.isr]
  | .ifcr => [.ifcr]
  | .channel_count => [.channel_count]

/-- The scalars of a snapshot in the order the description lists them. -/
def vmstate_field_order : List SnapshotField :=
  vmstate_stm32f1xx_dma.flatMap expand_entry

/-- The order the specification gives: `isr`, `ifcr`, `channel_count`, then
for each channel in index order `ccr, cndtr, reload_cndtr, cpar, cmar`. -/
def snapshot_order_spec : List SnapshotField :=
  [.isr, .ifcr, .channel_count] ++
    (List.finRange 7).flatMap fun i =>
      [.chan i .ccr, .chan i .cndtr, .chan i .reload_cndtr, .chan i .cpar, .chan i .cmar]

/-- Width in bits of a scalar: `VMSTATE_UINT32` or `VMSTATE_UINT8`. -/
def field_bits : SnapshotField → Nat
  | .channel_count => 8
  | _ => 32

/-- Value of a scalar in a controller state. -/
def get_field (s : STM32F1XXDMAState) : SnapshotField → Nat
  | .chan i .ccr => (s.chan_dma i).ccr
  | .chan i .cndtr => (s.chan_dma i).cndtr
  | .chan i .reload_cndtr => (s.chan_dma i).reload_cndtr
  | .chan i .cpar => (s.chan_dma i).cpar
  | .chan i .cmar => (s.chan_dma i).cmar
  | .isr => s.isr
  | .ifcr => s.ifcr
  | .channel_count => s.channel_count

/-- Assignment of a scalar in a controller state. -/
def set_field (s : STM32F1XXDMAState) (f : SnapshotField) (v : Nat) : STM32F1XXDMAState :=
  match f with
  | .chan i .ccr => set_chan s i { (s.chan_dma i) with ccr := v }
  | .chan i .cndtr => set_chan s i { (s.chan_dma i) with cndtr := v }
  | .chan i .reload_cndtr => set_chan s i { (s.chan_dma i) with reload_cndtr := v }
  | .chan i .cpar => set_chan s i { (s.chan_dma i) with cpar := v }
  | .chan i .cmar => set_chan s i { (s.chan_dma i) with cmar := v }
  | .isr => { s with isr := v }
  | .ifcr => { s with ifcr := v }
  | .channel_count => { s with channel_count := v }

/-- Modelled from the spec: saving a snapshot (host routine, not in the
sources) emits the value of every listed scalar, at its width, in list order. -/
def vmstate_save (s : STM32F1XXDMAState) : List Nat :=
  vmstate_field_order.map fun f => get_field s f % 2 ^ field_bits f

/-- Reading the scalars `fs` in order from a stream into a state; `none` when
the stream ends early. -/
def load_fields : List SnapshotField → STM32F1XXDMAState → List Nat → Option STM32F1XXDMAState
  | [], t, _ => some t
  | _ :: _, _, [] => none
  | f :: fs, t, v :: vs => load_fields fs (set_field t f v) vs

/-- Modelled from the spec: restoring a snapshot (host routine, not in the
sources) reads the listed scalars back in list order into the controller
`t`. -/
def vmstate_load (t : STM32F1XXDMAState) (stream : List Nat) : Option STM32F1XXDMAState :=
  load_fields vmstate_field_order t stream

/-! ## The pieces of an element move -/

/-- Direction flag as decoded at line 181: `uint8_t dir = chan->ccr & DMA_CCR_DIR`. -/
def ccr_dir (ccr : Nat) : Nat := (ccr &&& DMA_CCR_DIR) % 2 ^ 8

/-- Peripheral element size as decoded at line 182. -/
def ccr_psize (ccr : Nat) : Nat := ((ccr &&& DMA_CCR_PSIZE) >>> DMA_CCR_PSIZE_SHIFT) % 2 ^ 8

/-- Memory element size as decoded at line 183. -/
def ccr_msize (ccr : Nat) : Nat := ((ccr &&& DMA_CCR_MSIZE) >>> DMA_CCR_MSIZE_SHIFT) % 2 ^ 8

/-- Effective peripheral address of a request: `chan->cpar & pmask`. -/
def periph_addr (chan : STM32F1XXDMAChan) (pmask0 : Nat) : Nat :=
  chan.cpar &&& addr_mask (ccr_psize chan.ccr) pmask0

/-- Effective memory address of a request: `chan->cmar & mmask`. -/
def memory_addr (chan : STM32F1XXDMAChan) (mmask0 : Nat) : Nat :=
  chan.cmar &&& addr_mask (ccr_msize chan.ccr) mmask0

/-- Address the source word `data` is loaded from (lines 195 and 202). -/
def request_src_addr (chan : STM32F1XXDMAChan) (mmask0 pmask0 : Nat) : Nat :=
  if ccr_dir chan.ccr ≠ 0 then memory_addr chan mmask0 else periph_addr chan pmask0

/-- Address the destination word is loaded from and stored to (lines 196, 203,
217 and 221). -/
def request_dst_addr (chan : STM32F1XXDMAChan) (mmask0 pmask0 : Nat) : Nat :=
  if ccr_dir chan.ccr ≠ 0 then periph_addr chan pmask0 else memory_addr chan mmask0

/-- Source size `src_size` of a request (lines 197 and 204). -/
def request_src_size (chan : STM32F1XXDMAChan) : Nat :=
  if ccr_dir chan.ccr ≠ 0 then ccr_msize chan.ccr else ccr_psize chan.ccr

/-- Destination size `dst_size` of a request (lines 197 and 204). -/
def request_dst_size (chan : STM32F1XXDMAChan) : Nat :=
  if ccr_dir chan.ccr ≠ 0 then ccr_psize chan.ccr else ccr_msize chan.ccr

/-- The low-bits mask of an element size as the specification names it:
`0xFF` for byte, `0xFFFF` for halfword, `0xFFFFFFFF` for word. -/
def low_mask (size : Nat) : Nat :=
  if size = DMA_DATASIZE_8 then 0xFF
  else if size = DMA_DATASIZE_16 then 0xFFFF
  else 0xFFFFFFFF

/-- The narrow merge in the words of the specification:
`(D and not low(dst_size)) or (S and low(src_size))` on 32-bit words. -/
def narrow_merge_spec (dst_size src_size d s : Nat) : Nat :=
  (d &&& (0xFFFFFFFF ^^^ low_mask dst_size)) ||| (s &&& low_mask src_size)

/-! ## Two requests in sequence -/

/-- The three guards of `handle_dma_request` (lines 177-179) on their own:
`some none` when the request is rejected, `some (some (i, chan))` when it is
accepted on array entry `i` holding `chan`, `none` when the entry is outside
the array. -/
def request_target (s : STM32F1XXDMAState) (channel : Int) :
    Option (Option (Fin 7 × STM32F1XXDMAChan)) :=
  if channel < 0 ∨ channel ≥ (s.channel_count : Int) then some none
  else if h : channel.toNat < 7 then
    if 0 = (s.chan_dma ⟨channel.toNat, h⟩).ccr &&& DMA_CCR_EN then some none
    else if 0 = (s.chan_dma ⟨channel.toNat, h⟩).cndtr then some none
    else some (some (⟨channel.toNat, h⟩, s.chan_dma ⟨channel.toNat, h⟩))
  else none

/-- A request on `c1` followed by a request on `c2`; each request carries its
level and the initial contents of the two uninitialised locals. -/
def two_requests (s : STM32F1XXDMAState) (mem : Mem) (c1 : Int) (r1 : Int × Nat × Nat)
    (c2 : Int) (r2 : Int × Nat × Nat) : Option (STM32F1XXDMAState × Mem) :=
  (handle_dma_request s mem c1 r1.1 r1.2.1 r1.2.2).bind fun x =>
    handle_dma_request x.1 x.2 c2 r2.1 r2.2.1 r2.2.2

/-- The 4-byte windows starting at `a` and at `b` do not overlap. -/
def windows_disjoint (a b : Nat) : Prop := a + 4 ≤ b ∨ b + 4 ≤ a

/-- Two enabled byte-to-byte memory-to-peripheral channels sharing a location:
channel 0 copies the byte at `0x2001` to `0x1000`, channel 1 copies the byte
at `0x1000` to `0x3000`. -/
def shared_location_state : STM32F1XXDMAState :=
  ⟨7, fun i => if i = 0 then ⟨0x11, 1, 1, 0x1000, 0x2001⟩
    else if i = 1 then ⟨0x11, 1, 1, 0x3000, 0x1000⟩ else ⟨0, 0, 0, 0, 0⟩, 0, 0⟩

/-- Two enabled byte-to-byte memory-to-peripheral channels on separate
locations: channel 0 copies the byte at `0x2001` to `0x1000`, channel 1 copies
the byte at `0x4001` to `0x3000`. -/
def separate_locations_state : STM32F1XXDMAState :=
  ⟨7, fun i => if i = 0 then ⟨0x11, 1, 1, 0x1000, 0x2001⟩
    else if i = 1 then ⟨0x11, 1, 1, 0x3000, 0x4001⟩ else ⟨0, 0, 0, 0, 0⟩, 0, 0⟩

/-! ## Histories of the controller -/

/-- One operation on the controller: a register write, a request, or a reset. -/
inductive DmaOp where
  | write (addr val : Nat)
  | request (channel level : Int) (mmask0 pmask0 : Nat)
  | reset

/-- Effect of one operation on the controller registers and the memory. -/
def dma_step (x : STM32F1XXDMAState × Mem) : DmaOp → Option (STM32F1XXDMAState × Mem)
  | .write addr val => (stm32f1xx_dma_write x.1 addr val).map fun s => (s, x.2)
  | .request channel level mmask0 pmask0 =>
    handle_dma_request x.1 x.2 channel level mmask0 pmask0
  | .reset => some (stm32f1xx_dma_reset x.1, x.2)

/-- Effect of a sequence of operations, in order. -/
def dma_run (x : STM32F1XXDMAState × Mem) : List DmaOp → Option (STM32F1XXDMAState × Mem)
  | [] => some x
  | op :: ops => (dma_step x op).bind fun y => dma_run y ops

/-- Every channel slot has `cndtr ≤ reload_cndtr`. -/
def cndtr_le_reload (s : STM32F1XXDMAState) : Prop :=
  ∀ i : Fin 7, (s.chan_dma i).cndtr ≤ (s.chan_dma i).reload_cndtr

/-- Controller with channel 0 enabled, direction memory-to-peripheral, memory
size byte and the reserved peripheral size value 3 (`ccr = 0x311`),
`cndtr = 1`, `cpar = 0x1000`, `cmar = 0x2001`. -/
def reserved_size_state : STM32F1XXDMAState :=
  ⟨7, fun i => if i = 0 then ⟨0x311, 1, 1, 0x1000, 0x2001⟩ else ⟨0, 0, 0, 0, 0⟩, 0, 0⟩

/-! ## A concrete request with a source wider than the destination -/

/-- Controller with channel 0 enabled, direction memory-to-peripheral, memory
size word (`MSIZE = 2`), peripheral size byte (`PSIZE = 0`), `cndtr = 1`,
`cpar = 0x1000`, `cmar = 0x2000`: `ccr = 0x811`. -/
def wide_source_state : STM32F1XXDMAState :=
  ⟨7, fun i => if i = 0 then ⟨0x811, 1, 1, 0x1000, 0x2000⟩ else ⟨0, 0, 0, 0, 0⟩, 0, 0⟩

/-- Memory holding the word `0x11223344` at `0x2000` and zero elsewhere. -/
def wide_source_mem : Mem := fun a =>
  if a = 0x2000 then 0x44 else if a = 0x2001 then 0x33 else if a = 0x2002 then 0x22
  else if a = 0x2003 then 0x11 else 0

/-! ## Concrete inputs for the byte scenarios -/

/-- A seven-channel controller holding arbitrary register contents, as found
before a reset. -/
def scenario_state : STM32F1XXDMAState :=
  ⟨7, fun _ => ⟨0xFFFFFFFF, 9, 9, 1, 2⟩, 5, 6⟩

/-- A memory whose byte at address `a` is `a mod 256`. -/
def scenario_mem : Mem := fun a => ⟨a % 256, Nat.mod_lt _ (by decide)⟩

/-! ## The controller inside the system memory

`stm32f103_soc.c` links the system memory as `dma-mr` of each controller
(`object_property_add_const_link`, line 71) and maps the register window of
the controller into that same memory at `dma_addr[i]` (`sysbus_mmio_map`,
line 174).  A load or store of the transfer engine whose address falls in the
window is therefore a register access of the controller itself. -/

/-- Size of the register window: the `0x400` of `memory_region_init_io` in
`stm32f1xx_dma_init`. -/
def DMA_MMIO_SIZE : Nat := 0x400

/-- Base addresses of the two controllers: `dma_addr` of `stm32f103_soc.c`. -/
def dma_addr : List Nat := [0x40020000, 0x40020400]

/-- The 4 bytes starting at `addr` lie outside the register window mapped at
`base`. -/
def outside_window (base addr : Nat) : Prop :=
  addr + 4 ≤ base ∨ base + DMA_MMIO_SIZE ≤ addr

/-- Modelled from the spec: the 32-bit load of the Address Space Accessor (the
host's `ldl_le_phys` on `dma_as`, not under src/), for the memory view the SoC
supplies: the system memory with the register window of the controller mapped
at `base`.  A load at an address in the window is a register read at the
offset in the window (`stm32f1xx_dma_ops.read`), truncated to 32 bits; any
other load is a load from the flat memory. -/
def sysmem_ldl (base : Nat) (s : STM32F1XXDMAState) (mem : Mem) (addr : Nat) : Option Nat :=
  if base ≤ addr ∧ addr < base + DMA_MMIO_SIZE then
    (stm32f1xx_dma_read s (addr - base)).map (· % 2 ^ 32)
  else some (ldl_le_phys mem addr)

/-- Modelled from the spec: the 32-bit store of the Address Space Accessor (the
host's `stl_le_phys` on `dma_as`, not under src/), for the same memory view.
A store at an address in the window is a register write at the offset in the
window (`stm32f1xx_dma_ops.write`) and leaves the flat memory as it is; any
other store is a store to the flat memory and leaves the registers as they
are. -/
def sysmem_stl (base : Nat) (s : STM32F1XXDMAState) (mem : Mem) (addr val : Nat) :
    Option (STM32F1XXDMAState × Mem) :=
  if base ≤ addr ∧ addr < base + DMA_MMIO_SIZE then
    (stm32f1xx_dma_write s (addr - base) val).map fun s1 => (s1, mem)
  else some (s, stl_le_phys mem addr val)

/-- The element move of one accepted request (lines 181-222) over the system
memory: the two loads, the merge and the store, which may reach the registers
of the controller. -/
def transfer_sysmem (base : Nat) (s : STM32F1XXDMAState) (chan : STM32F1XXDMAChan) (mem : Mem)
    (mmask0 pmask0 : Nat) : Option (STM32F1XXDMAState × Mem) :=
  let dir := (chan.ccr &&& DMA_CCR_DIR) % 2 ^ 8
  let psize := ((chan.ccr &&& DMA_CCR_PSIZE) >>> DMA_CCR_PSIZE_SHIFT) % 2 ^ 8
  let msize := ((chan.ccr &&& DMA_CCR_MSIZE) >>> DMA_CCR_MSIZE_SHIFT) % 2 ^ 8
  let pmask := addr_mask psize pmask0
  let mmask := addr_mask msize mmask0
  if dir ≠ 0 then
    (sysmem_ldl base s mem (chan.cmar &&& mmask)).bind fun data =>
      (sysmem_ldl base s mem (chan.cpar &&& pmask)).bind fun dst_data =>
        let dst_data := clear_dst psize dst_data
        let dst_data := merge_src msize dst_data data
        sysmem_stl base s mem (chan.cpar &&& pmask) dst_data
  else
    (sysmem_ldl base s mem (chan.cpar &&& pmask)).bind fun data =>
      (sysmem_ldl base s mem (chan.cmar &&& mmask)).bind fun dst_data =>
        let dst_data := clear_dst msize dst_data
        let dst_data := merge_src psize dst_data data
        sysmem_stl base s mem (chan.cmar &&& mmask) dst_data

/-- Request handler `handle_dma_request` with `dma_as` the system memory in
which the register window of the controller is mapped at `base`.  The guards
and the locals `dir`, `psize`, `msize`, `pmask`, `mmask` are taken from the
registers at entry; the increments and the count update (lines 224-234) go
through the pointer `chan` and so act on the registers as the store left
them. -/
def handle_dma_request_sysmem (base : Nat) (s : STM32F1XXDMAState) (mem : Mem)
    (channel level : Int) (mmask0 pmask0 : Nat) : Option (STM32F1XXDMAState × Mem) :=
  if channel < 0 ∨ channel ≥ (s.channel_count : Int) then some (s, mem)
  else
    match chan_lookup s channel.toNat with
    | none => none
    | some chan =>
      if 0 = chan.ccr &&& DMA_CCR_EN then some (s, mem)
      else if 0 = chan.cndtr then some (s, mem)
      else
        (transfer_sysmem base s chan mem mmask0 pmask0).bind fun x =>
          (chan_lookup x.1 channel.toNat).bind fun chan1 =>
            (chan_store x.1 channel.toNat (advance_chan chan1)).map fun s1 => (s1, x.2)

/-- A request on `c1` followed by a request on `c2`, over the system memory. -/
def two_requests_sysmem (base : Nat) (s : STM32F1XXDMAState) (mem : Mem) (c1 : Int)
    (r1 : Int × Nat × Nat) (c2 : Int) (r2 : Int × Nat × Nat) :
    Option (STM32F1XXDMAState × Mem) :=
  (handle_dma_request_sysmem base s mem c1 r1.1 r1.2.1 r1.2.2).bind fun x =>
    handle_dma_request_sysmem base x.1 x.2 c2 r2.1 r2.2.1 r2.2.2

/-- Controller with channel 0 enabled, direction memory-to-peripheral, both
sizes word (`ccr = 0xA11`), `cndtr = 1`, `cmar = 0x2000` and
`cpar = 0x40020000`, the address of the `DMA_ISR` register of the first
controller. -/
def self_targeting_state : STM32F1XXDMAState :=
  ⟨7, fun i => if i = 0 then ⟨0xA11, 1, 1, 0x40020000, 0x2000⟩ else ⟨0, 0, 0, 0, 0⟩, 0, 0⟩

end Stm32f1xxDma

/-!
# STM32F1xx GPIO port

Shallow embedding of `hw/gpio/stm32f1xx_gpio.c` and of the state declared in
`include/hw/gpio/stm32f1xx_gpio.h`.

* The arrays `cnf`, `mode` and `port` (`GPIO_PIN_COUNT` = 16 entries each)
  are functions on `Fin 16`.  An access `s->port[i]` with `i ≥ 16` is outside
  the array; the operation then stops with `Fault.out_of_bounds i`.
* Every call of `qapi_event_send_gpio_pin_change` appends a `PinChange` to
  the list of events the operation returns.
* The local `value` of `readPortOutputData` is declared without initialiser;
  its initial (indeterminate) content is a parameter of the embedded
  function.
-/

namespace Stm32f1xxGpio

/-! ## Constants of `stm32f1xx_gpio.h` -/

def GPIO_CRL_ADDR : Nat := 0x00
def GPIO_CRH_ADDR : Nat := 0x04
def GPIO_IDR_ADDR : Nat := 0x08
def GPIO_ODR_ADDR : Nat := 0x0C
def GPIO_BSRR_ADDR : Nat := 0x10
def GPIO_BRR_ADDR : Nat := 0x14
def GPIO_LCKR_ADDR : Nat := 0x18

def GPIO_PIN_COUNT : Nat := 0x10

/-! ## State -/

/-- Registers of `STM32F1XXGPIOState` (the bus device and the memory region
are left out). -/
structure STM32F1XXGPIOState where
  port_id : Nat
  cnf : Fin 16 → Nat
  mode : Fin 16 → Nat
  port : Fin 16 → Nat
  idr : Nat
  lck : Nat
  lckk : Nat

/-- Arguments of one call of `qapi_event_send_gpio_pin_change`. -/
structure PinChange where
  port_id : Nat
  pin : Nat
  value : Nat
deriving DecidableEq, Repr

/-- Ways an operation can leave the defined behaviour of the C code: an array
access outside the 16 entries, or the iteration budget of the embedded loop
running out. -/
inductive Fault where
  | out_of_bounds (index : Nat)
  | loop_bound
deriving DecidableEq, Repr

/-! ## Control registers -/

/-- Array index `offset + ii` of the control-register loops: `offset` is 0 for
the low register and `GPIO_PIN_COUNT / 2` for the high one. -/
def ctrl_index (isLow : Nat) (ii : Fin 8) : Fin 16 :=
  if isLow ≠ 0 then ⟨ii.val, Nat.lt_trans ii.isLt (by decide)⟩
  else ⟨GPIO_PIN_COUNT / 2 + ii.val, by
    have h := ii.isLt
    unfold GPIO_PIN_COUNT
    omega⟩

/-- Read of CRL / CRH: `controlRegisterRead`. -/
def controlRegisterRead (s : STM32F1XXGPIOState) (isLow : Nat) : Nat :=
  (List.finRange 8).foldl
    (fun value ii =>
      let value := (value ||| ((s.cnf (ctrl_index isLow ii) &&& 0x3) <<< (ii.val * 4 + 0))) % 2 ^ 32
      (value ||| ((s.mode (ctrl_index isLow ii) &&& 0x3) <<< (ii.val * 4 + 2))) % 2 ^ 32)
    0

/-- Write of CRL / CRH: `controlRegisterWrite`. -/
def controlRegisterWrite (s : STM32F1XXGPIOState) (isLow : Nat) (regValue : Nat) :
    STM32F1XXGPIOState :=
  (List.finRange 8).foldl
    (fun s ii =>
      { s with
        cnf := Function.update s.cnf (ctrl_index isLow ii) ((regValue >>> (ii.val * 4 + 0)) &&& 0x3)
        mode := Function.update s.mode (ctrl_index isLow ii)
          ((regValue >>> (ii.val * 4 + 2)) &&& 0x3) })
    s

/-! ## Output data -/

/-- Read of ODR: `readPortOutputData`.  `value0` is the initial content of the
uninitialised local `value`. -/
def readPortOutputData (s : STM32F1XXGPIOState) (value0 : Nat) : Nat :=
  (List.finRange 16).foldl
    (fun value ii => (value ||| (if s.port ii ≠ 0 then 1 <<< ii.val else 0)) % 2 ^ 32)
    (value0 % 2 ^ 32)

/-- The `do ... while (val >>= 1)` loop of `writePortOutputData`, from pin
`ii` on, with at most `fuel` iterations. -/
def writePortOutputData_loop :
    Nat → STM32F1XXGPIOState → List PinChange → Nat → Nat →
      Except Fault (STM32F1XXGPIOState × List PinChange)
  | 0, _, _, _, _ => .error .loop_bound
  | fuel + 1, s, events, ii, val =>
    let v := (val &&& 1) % 2 ^ 8
    if h : ii < 16 then
      let events1 :=
        if v ≠ s.port ⟨ii, h⟩ then events ++ [⟨s.port_id, ii, v⟩] else events
      let s1 := { s with port := Function.update s.port ⟨ii, h⟩ v }
      let val1 := val >>> 1
      if val1 ≠ 0 then writePortOutputData_loop fuel s1 events1 (ii + 1) val1
      else .ok (s1, events1)
    else .error (.out_of_bounds ii)

/-- Write of ODR: `writePortOutputData`.  `val` is a `uint32_t`, so the loop
shifts it to zero within 32 iterations. -/
def writePortOutputData (s : STM32F1XXGPIOState) (val : Nat) :
    Except Fault (STM32F1XXGPIOState × List PinChange) :=
  writePortOutputData_loop 32 s [] 0 (val % 2 ^ 32)

/-- One iteration of the loop of `writeSetReset` on pin `ii`; the accumulator
holds the state, the events sent so far and the shifted `reset` and `set`. -/
def writeSetReset_step (acc : STM32F1XXGPIOState × List PinChange × Nat × Nat) (ii : Fin 16) :
    STM32F1XXGPIOState × List PinChange × Nat × Nat :=
  let s := acc.1
  let events := acc.2.1
  let reset := acc.2.2.1
  let set := acc.2.2.2
  let isReset := (reset &&& 1) % 2 ^ 8
  let isSet := (set &&& 1) % 2 ^ 8
  if isSet ≠ 0 then
    ({ s with port := Function.update s.port ii 1 },
      if 0 = s.port ii then events ++ [⟨s.port_id, ii.val, s.port ii⟩] else events,
      reset >>> 1, set >>> 1)
  else if isReset ≠ 0 then
    ({ s with port := Function.update s.port ii 0 },
      if 1 = s.port ii then events ++ [⟨s.port_id, ii.val, s.port ii⟩] else events,
      reset >>> 1, set >>> 1)
  else (s, events, reset >>> 1, set >>> 1)

/-- Write of BSRR / BRR: `writeSetReset` (`reset` and `set` are `uint16_t`). -/
def writeSetReset (s : STM32F1XXGPIOState) (reset set : Nat) :
    STM32F1XXGPIOState × List PinChange :=
  let r := (List.finRange 16).foldl writeSetReset_step (s, [], reset % 2 ^ 16, set % 2 ^ 16)
  (r.1, r.2.1)

/-! ## Register file -/

/-- Register read: `stm32f1xx_gpio_read` (`size` is unused); `value0` is the
initial content of the uninitialised local of `readPortOutputData`. -/
def stm32f1xx_gpio_read (s : STM32F1XXGPIOState) (offset : Nat) (value0 : Nat) : Nat :=
  if offset = GPIO_CRL_ADDR then controlRegisterRead s 1
  else if offset = GPIO_CRH_ADDR then controlRegisterRead s 0
  else if offset = GPIO_IDR_ADDR then s.idr &&& 0xFFFF
  else if offset = GPIO_ODR_ADDR then readPortOutputData s value0
  else if offset = GPIO_BSRR_ADDR then 0
  else if offset = GPIO_BRR_ADDR then 0
  else if offset = GPIO_LCKR_ADDR then (s.lckk &&& 1) ||| s.lck
  else 0

/-- Register write: `stm32f1xx_gpio_write` (`size` is unused). -/
def stm32f1xx_gpio_write (s : STM32F1XXGPIOState) (offset : Nat) (value : Nat) :
    Except Fault (STM32F1XXGPIOState × List PinChange) :=
  let value32 := value &&& 0xFFFFFFFF
  if offset = GPIO_CRL_ADDR then .ok (controlRegisterWrite s 1 value32, [])
  else if offset = GPIO_CRH_ADDR then .ok (controlRegisterWrite s 0 value32, [])
  else if offset = GPIO_IDR_ADDR then .ok (s, [])
  else if offset = GPIO_ODR_ADDR then writePortOutputData s value32
  else if offset = GPIO_BSRR_ADDR then
    .ok (writeSetReset s ((value32 >>> 16) &&& 0xFFFF) ((value32 >>> 0) &&& 0xFFFF))
  else if offset = GPIO_BRR_ADDR then .ok (writeSetReset s ((value32 >>> 0) &&& 0xFFFF) 0)
  else if offset = GPIO_LCKR_ADDR then
    .ok ({ s with lckk := if value32 &&& 0x10000 ≠ 0 then 1 else 0, lck := value32 &&& 0xFFFF }, [])
  else .ok (s, [])

/-! ## Observations and concrete inputs -/

/-- The outputs of pins 0 to 15, in pin order. -/
def port_list (s : STM32F1XXGPIOState) : List Nat := (List.finRange 16).map s.port

/-- The fault an operation stopped with, if any. -/
def fault_of {α : Type} : Except Fault α → Option Fault
  | .error f => some f
  | .ok _ => none

/-- Port A after reset values, except that the outputs of pins 3 and 9 are 1. -/
def pins_3_9_state : STM32F1XXGPIOState :=
  ⟨65, fun _ => 1, fun _ => 0, fun i => if i = 3 ∨ i = 9 then 1 else 0, 0, 0, 0⟩

/-- Port A with every output at 0. -/
def zero_pins_state : STM32F1XXGPIOState :=
  ⟨65, fun _ => 1, fun _ => 0, fun _ => 0, 0, 0, 0⟩

end Stm32f1xxGpio

/-!
# STM32F1xx reset and clock control (RCC)

Shallow embedding of `hw/timer/stm32f1xx_rcc.c` and of the state declared in
`include/hw/timer/stm32f1xx_rcc.h`.

* The unions `rcc_cr` and `rcc_cfgr` are held as their 32-bit member `value`.
  A member of the bit-field struct `fields` is read and written through its
  offset and width inside that word; the offset of a member is the sum of the
  widths of the members declared before it (allocation from bit 0 upwards,
  the positions the comments of the header give).
* The log call of the `default` case has no effect on the state.
-/

namespace Stm32f1xxRcc

/-! ## Constants of `stm32f1xx_rcc.h` -/

def RCC_CR : Nat := 0x00
def RCC_CFGR : Nat := 0x04
def RCC_CIR : Nat := 0x08
def RCC_APB2RSTR : Nat := 0x0C
def RCC_APB1RSTR : Nat := 0x10
def RCC_AHBENR : Nat := 0x14
def RCC_APB2ENR : Nat := 0x18
def RCC_APB1ENR : Nat := 0x1C
def RCC_BDCR : Nat := 0x20
def RCC_CSR : Nat := 0x24

/-! ## State -/

/-- Members of the bit-field struct `rcc_cr.fields`. -/
inductive CrField where
  | hsi_on | hsi_rdy | reserved0 | hse_on | hse_rdy | reserved1 | pll_on | pll_rdy | reserved2
deriving DecidableEq, Repr

/-- Members of the bit-field struct `rcc_cfgr.fields`. -/
inductive CfgrField where
  | sw | sws | reserved0
deriving DecidableEq, Repr

/-- Declaration of `rcc_cr.fields`: each member with its width, in order. -/
def rcc_cr_fields : List (CrField × Nat) :=
  [(.hsi_on, 1), (.hsi_rdy, 1), (.reserved0, 14), (.hse_on, 1), (.hse_rdy, 1),
   (.reserved1, 6), (.pll_on, 1), (.pll_rdy, 1), (.reserved2, 5)]

/-- Declaration of `rcc_cfgr.fields`: each member with its width, in order. -/
def rcc_cfgr_fields : List (CfgrField × Nat) :=
  [(.sw, 2), (.sws, 2), (.reserved0, 28)]

/-- Registers of `STM32F1XXRCCState` (the bus device and the memory region
are left out); `rcc_cr` and `rcc_cfgr` hold the member `value` of the
unions. -/
structure STM32F1XXRCCState where
  rcc_cr : Nat
  rcc_cfgr : Nat
  rcc_cir : Nat
  rcc_abp2rstr : Nat
  rcc_abp1rstr : Nat
  rcc_ahbenr : Nat
  rcc_abp2enr : Nat
  rcc_abp1enr : Nat
  rcc_bdcr : Nat
  rcc_csr : Nat
deriving DecidableEq, Repr

/-! ## Bit-field access -/

/-- Bit offset of member `f`: the widths of the members declared before it. -/
def field_offset {α : Type} [DecidableEq α] : List (α × Nat) → α → Nat
  | [], _ => 0
  | (g, w) :: rest, f => if g = f then 0 else w + field_offset rest f

/-- Width of member `f`. -/
def field_width {α : Type} [DecidableEq α] : List (α × Nat) → α → Nat
  | [], _ => 0
  | (g, w) :: rest, f => if g = f then w else field_width rest f

/-- Read of a bit-field of `width` bits at bit `off` of the word `value`. -/
def bitfield_read (value off width : Nat) : Nat :=
  (value >>> off) &&& (2 ^ width - 1)

/-- Assignment of `x` to a bit-field of `width` bits at bit `off` of the
32-bit word `value`: `x` is truncated to the width, the other bits stay. -/
def bitfield_write (value off width x : Nat) : Nat :=
  (value &&& (0xFFFFFFFF ^^^ ((2 ^ width - 1) <<< off))) ||| ((x &&& (2 ^ width - 1)) <<< off)

/-- Read of `s->rcc_cr.fields.f` in the word `cr`. -/
def cr_get (cr : Nat) (f : CrField) : Nat :=
  bitfield_read cr (field_offset rcc_cr_fields f) (field_width rcc_cr_fields f)

/-- Assignment `s->rcc_cr.fields.f = x` in the word `cr`. -/
def cr_set (cr : Nat) (f : CrField) (x : Nat) : Nat :=
  bitfield_write cr (field_offset rcc_cr_fields f) (field_width rcc_cr_fields f) x

/-- Read of `s->rcc_cfgr.fields.f` in the word `cfgr`. -/
def cfgr_get (cfgr : Nat) (f : CfgrField) : Nat :=
  bitfield_read cfgr (field_offset rcc_cfgr_fields f) (field_width rcc_cfgr_fields f)

/-- Assignment `s->rcc_cfgr.fields.f = x` in the word `cfgr`. -/
def cfgr_set (cfgr : Nat) (f : CfgrField) (x : Nat) : Nat :=
  bitfield_write cfgr (field_offset rcc_cfgr_fields f) (field_width rcc_cfgr_fields f) x

/-! ## Register file -/

/-- Device reset: `stm32f1xx_rcc_reset`. -/
def stm32f1xx_rcc_reset (s : STM32F1XXRCCState) : STM32F1XXRCCState :=
  ⟨0, 0, 0, 0, 0, 0, 0, 0, 0, 0⟩

/-- Register read: `stm32f1xx_rcc_read` (`size` is unused). -/
def stm32f1xx_rcc_read (s : STM32F1XXRCCState) (offset : Nat) : Nat :=
  if offset = RCC_CR then s.rcc_cr
  else if offset = RCC_CFGR then s.rcc_cfgr
  else if offset = RCC_CIR then s.rcc_cir
  else if offset = RCC_APB2RSTR then s.rcc_abp2rstr
  else if offset = RCC_APB1RSTR then s.rcc_abp1rstr
  else if offset = RCC_AHBENR then s.rcc_ahbenr
  else if offset = RCC_APB2ENR then s.rcc_abp2enr
  else if offset = RCC_APB1ENR then s.rcc_abp1enr
  else if offset = RCC_BDCR then s.rcc_bdcr
  else if offset = RCC_CSR then s.rcc_csr
  else 0

/-- Register write: `stm32f1xx_rcc_write` (`size` is unused). -/
def stm32f1xx_rcc_write (s : STM32F1XXRCCState) (offset : Nat) (val64 : Nat) :
    STM32F1XXRCCState :=
  let value := val64 &&& 0xFFFFFFFF
  if offset = RCC_CR then
    let cr := value
    let cr := cr_set cr .hsi_rdy (cr_get cr .hsi_on)
    let cr := cr_set cr .hse_rdy (cr_get cr .hse_on)
    let cr := cr_set cr .pll_rdy (cr_get cr .pll_on)
    { s with rcc_cr := cr }
  else if offset = RCC_CFGR then
    let cfgr := value
    let cfgr := cfgr_set cfgr .sws (cfgr_get cfgr .sw)
    { s with rcc_cfgr := cfgr }
  else if offset = RCC_CIR then { s with rcc_cir := value }
  else if offset = RCC_APB2RSTR then { s with rcc_abp2rstr := value }
  else if offset = RCC_APB1RSTR then { s with rcc_abp1rstr := value }
  else if offset = RCC_AHBENR then { s with rcc_ahbenr := value }
  else if offset = RCC_APB2ENR then { s with rcc_abp2enr := value }
  else if offset = RCC_APB1ENR then { s with rcc_abp1enr := value }
  else if offset = RCC_BDCR then { s with rcc_bdcr := value }
  else if offset = RCC_CSR then { s with rcc_csr := value }
  else s

/-- The registers written and read as plain words. -/
def plain_registers : List Nat :=
  [RCC_CIR, RCC_APB2RSTR, RCC_APB1RSTR, RCC_AHBENR, RCC_APB2ENR, RCC_APB1ENR, RCC_BDCR, RCC_CSR]

/-- The state after device reset. -/
def rcc_reset_state : STM32F1XXRCCState := ⟨0, 0, 0, 0, 0, 0, 0, 0, 0, 0⟩

end Stm32f1xxRcc

namespace Stm32f1xxDma

/-! ## Basic facts about the array access and the register decode -/

theorem chan_lookup_lt (s : STM32F1XXDMAState) (i : Nat) (h : i < 7) :
    chan_lookup s i = some (s.chan_dma ⟨i, h⟩) := by
  simp [chan_lookup, h]

theorem chan_store_lt (s : STM32F1XXDMAState) (i : Nat) (h : i < 7) (c : STM32F1XXDMAChan) :
    chan_store s i c = some (set_chan s ⟨i, h⟩ c) := by
  simp [chan_store, h]

@[simp] theorem set_chan_channel_count (s : STM32F1XXDMAState) (i : Fin 7)
    (c : STM32F1XXDMAChan) : (set_chan s i c).channel_count = s.channel_count := rfl

@[simp] theorem set_chan_isr (s : STM32F1XXDMAState) (i : Fin 7) (c : STM32F1XXDMAChan) :
    (set_chan s i c).isr = s.isr := rfl

@[simp] theorem set_chan_ifcr (s : STM32F1XXDMAState) (i : Fin 7) (c : STM32F1XXDMAChan) :
    (set_chan s i c).ifcr = s.ifcr := rfl

@[simp] theorem set_chan_same (s : STM32F1XXDMAState) (i : Fin 7) (c : STM32F1XXDMAChan) :
    (set_chan s i c).chan_dma i = c := by
  simp [set_chan]

theorem set_chan_other (s : STM32F1XXDMAState) (i j : Fin 7) (c : STM32F1XXDMAChan)
    (h : j ≠ i) : (set_chan s i c).chan_dma j = s.chan_dma j := by
  simp [set_chan, Function.update_noteq h]

theorem chan_lookup_some {s : STM32F1XXDMAState} {i : Nat} {ch : STM32F1XXDMAChan}
    (h : chan_lookup s i = some ch) : ∃ hi : i < 7, ch = s.chan_dma ⟨i, hi⟩ := by
  unfold chan_lookup at h
  split at h
  · rename_i hi
    exact ⟨hi, by simpa using h.symm⟩
  · simp at h

theorem decode_chan_idx_window (addr : Nat) (h8 : 8 ≤ addr) (h : addr < 0x400) :
    decode_chan_idx addr = (addr - 8) / 20 := by
  have hs : sub_wrap 64 addr (0x4 * 2) = addr - 8 := by
    unfold sub_wrap
    rw [if_pos (by omega)]
  unfold decode_chan_idx
  rw [hs]
  omega

theorem decode_reg_offset_window (addr : Nat) (h8 : 8 ≤ addr) (h : addr < 0x400) :
    decode_reg_offset addr = (addr - 8) % 20 := by
  have hs : sub_wrap 64 addr (0x4 * 2) = addr - 8 := by
    unfold sub_wrap
    rw [if_pos (by omega)]
  have hs2 : sub_wrap 64 (addr - 8) (20 * ((addr - 8) / 20)) = (addr - 8) % 20 := by
    unfold sub_wrap
    rw [if_pos (by omega)]
    omega
  unfold decode_reg_offset
  rw [decode_chan_idx_window addr h8 h, hs, hs2]
  omega

theorem decode_chan_idx_block (c sub : Nat) (hc : c < 7) (hsub : sub < 20) :
    decode_chan_idx (8 + 20 * c + sub) = c := by
  rw [decode_chan_idx_window _ (by omega) (by omega)]
  omega

theorem decode_reg_offset_block (c sub : Nat) (hc : c < 7) (hsub : sub < 20) :
    decode_reg_offset (8 + 20 * c + sub) = sub := by
  rw [decode_reg_offset_window _ (by omega) (by omega)]
  omega

theorem and_u32_of_lt (v : Nat) (h : v < 2 ^ 32) : v &&& 0xFFFFFFFF = v := by
  have := Nat.and_pow_two_sub_one_of_lt_two_pow (n := 32) h
  simpa using this

theorem write_block (s : STM32F1XXDMAState) (c sub v : Nat) (hc : c < s.channel_count)
    (hc7 : c < 7) (hsub : sub < 20) :
    stm32f1xx_dma_write s (8 + 20 * c + sub) v =
      if sub = 0 then
        some (set_chan s ⟨c, hc7⟩ { (s.chan_dma ⟨c, hc7⟩) with ccr := v &&& 0xFFFFFFFF })
      else if sub = 4 then
        some (set_chan s ⟨c, hc7⟩ { (s.chan_dma ⟨c, hc7⟩) with
          cndtr := v &&& 0xFFFFFFFF, reload_cndtr := v &&& 0xFFFFFFFF })
      else if sub = 8 then
        some (set_chan s ⟨c, hc7⟩ { (s.chan_dma ⟨c, hc7⟩) with cpar := v &&& 0xFFFFFFFF })
      else if sub = 12 then
        some (set_chan s ⟨c, hc7⟩ { (s.chan_dma ⟨c, hc7⟩) with cmar := v &&& 0xFFFFFFFF })
      else some s := by
  have hi := decode_chan_idx_block c sub hc7 hsub
  have ho := decode_reg_offset_block c sub hc7 hsub
  have h0 : ¬ (0 = 8 + 20 * c + sub) := by omega
  have h4 : ¬ (4 = 8 + 20 * c + sub) := by omega
  have hge : ¬ (c ≥ s.channel_count) := by omega
  unfold stm32f1xx_dma_write
  simp only [DMA_ISR, DMA_IFCR, if_neg h0, if_neg h4, hi, ho, if_neg hge,
    DMA_CCR, DMA_CNDTR, DMA_CPAR, DMA_CMAR, chan_lookup_lt s c hc7, Option.some_bind,
    chan_store_lt s c hc7]

theorem read_block (s : STM32F1XXDMAState) (c sub : Nat) (hc : c < s.channel_count)
    (hc7 : c < 7) (hsub : sub < 20) :
    stm32f1xx_dma_read s (8 + 20 * c + sub) =
      if sub = 0 then some (s.chan_dma ⟨c, hc7⟩).ccr
      else if sub = 4 then some (s.chan_dma ⟨c, hc7⟩).cndtr
      else if sub = 8 then some (s.chan_dma ⟨c, hc7⟩).cpar
      else if sub = 12 then some (s.chan_dma ⟨c, hc7⟩).cmar
      else some 0 := by
  have hi := decode_chan_idx_block c sub hc7 hsub
  have ho := decode_reg_offset_block c sub hc7 hsub
  have h0 : ¬ (0 = 8 + 20 * c + sub) := by omega
  have h4 : ¬ (4 = 8 + 20 * c + sub) := by omega
  have hge : ¬ (c ≥ s.channel_count) := by omega
  unfold stm32f1xx_dma_read
  simp only [DMA_ISR, DMA_IFCR, if_neg h0, if_neg h4, hi, ho, if_neg hge,
    DMA_CCR, DMA_CNDTR, DMA_CPAR, DMA_CMAR, chan_lookup_lt s c hc7, Option.map_some']

theorem chan_lookup_set_chan (s : STM32F1XXDMAState) (i : Nat) (hi : i < 7)
    (x : STM32F1XXDMAChan) : chan_lookup (set_chan s ⟨i, hi⟩ x) i = some x := by
  rw [chan_lookup_lt _ i hi, set_chan_same]

theorem advance_chan_ccr (ch : STM32F1XXDMAChan) : (advance_chan ch).ccr = ch.ccr := by
  unfold advance_chan
  simp only

theorem advance_chan_reload_cndtr (ch : STM32F1XXDMAChan) :
    (advance_chan ch).reload_cndtr = ch.reload_cndtr := by
  unfold advance_chan
  simp only

theorem advance_chan_cndtr (ch : STM32F1XXDMAChan) (hn : ch.cndtr ≠ 0)
    (h32 : ch.cndtr < 2 ^ 32) :
    (advance_chan ch).cndtr =
      if ch.cndtr = 1 then (if ch.ccr &&& DMA_CCR_CIRC ≠ 0 then ch.reload_cndtr else 0)
      else ch.cndtr - 1 := by
  have hdec : sub_wrap 32 ch.cndtr 1 = ch.cndtr - 1 := by
    unfold sub_wrap
    rw [if_pos (by omega)]
  unfold advance_chan
  simp only [hdec]
  by_cases h1 : ch.cndtr = 1
  · have hz : ch.cndtr - 1 = 0 := by omega
    rw [if_pos hz, if_pos h1]
    by_cases hc : ch.ccr &&& DMA_CCR_CIRC ≠ 0
    · rw [if_pos hc, if_pos hc]
    · rw [if_neg hc, if_neg hc]
      exact hz
  · have hz : ¬ (ch.cndtr - 1 = 0) := by omega
    rw [if_neg hz, if_neg h1]

theorem handle_dma_request_accepted (s : STM32F1XXDMAState) (mem : Mem) (c level : Int)
    (mmask0 pmask0 : Nat) (ch : STM32F1XXDMAChan) (h0 : 0 ≤ c)
    (hcc : c < (s.channel_count : Int)) (hl : chan_lookup s c.toNat = some ch)
    (hen : ch.ccr &&& DMA_CCR_EN ≠ 0) (hn : ch.cndtr ≠ 0) :
    ∃ hi : c.toNat < 7,
      handle_dma_request s mem c level mmask0 pmask0 =
        some (set_chan s ⟨c.toNat, hi⟩ (advance_chan ch), transfer_mem ch mem mmask0 pmask0) := by
  obtain ⟨hi, _⟩ := chan_lookup_some hl
  refine ⟨hi, ?_⟩
  have hg : ¬ (c < 0 ∨ c ≥ (s.channel_count : Int)) := by omega
  unfold handle_dma_request
  rw [if_neg hg, hl]
  dsimp only
  rw [if_neg (Ne.symm hen), if_neg (Ne.symm hn), chan_store_lt s _ hi]
  rfl

theorem dma_requests_nil (s : STM32F1XXDMAState) (mem : Mem) (c : Int) :
    dma_requests s mem c [] = some (s, mem) := rfl

theorem dma_requests_cons (s : STM32F1XXDMAState) (mem : Mem) (c : Int)
    (r : Int × Nat × Nat) (rest : List (Int × Nat × Nat)) :
    dma_requests s mem c (r :: rest) =
      (handle_dma_request s mem c r.1 r.2.1 r.2.2).bind fun x =>
        dma_requests x.1 x.2 c rest := rfl

theorem dma_requests_append (c : Int) (xs ys : List (Int × Nat × Nat)) :
    ∀ (s : STM32F1XXDMAState) (mem : Mem),
      dma_requests s mem c (xs ++ ys) =
        (dma_requests s mem c xs).bind fun x => dma_requests x.1 x.2 c ys := by
  induction xs with
  | nil => intro s mem; rfl
  | cons r rest ih =>
    intro s mem
    rw [List.cons_append, dma_requests_cons, dma_requests_cons]
    cases handle_dma_request s mem c r.1 r.2.1 r.2.2 with
    | none => rfl
    | some x => exact ih x.1 x.2

/-! ## Bit-level facts and the byte copy -/

/-- Masking with the bits `k .. k+n-1` of a value below `2^(k+n)` clears the low `k` bits. -/
theorem and_high_mask (d k n : Nat) (hd : d < 2 ^ (k + n)) :
    d &&& (2 ^ k * (2 ^ n - 1)) = 2 ^ k * (d / 2 ^ k) := by
  apply Nat.eq_of_testBit_eq
  intro i
  rw [Nat.testBit_and, Nat.testBit_mul_pow_two, Nat.testBit_mul_pow_two,
    Nat.testBit_two_pow_sub_one, ← Nat.shiftRight_eq_div_pow, Nat.testBit_shiftRight]
  by_cases hi : i ≥ k
  · have e : k + (i - k) = i := by omega
    rw [e]
    by_cases hin : i - k < n
    · simp [hi, hin]
    · have hlt : d < 2 ^ i :=
        lt_of_lt_of_le hd (Nat.pow_le_pow_right (by decide) (by omega))
      simp [hi, hin, Nat.testBit_lt_two_pow hlt]
  · simp [hi]

theorem and_mask_FFFFFF00 (d : Nat) (hd : d < 2 ^ 32) : d &&& 0xFFFFFF00 = 256 * (d / 256) := by
  have h := and_high_mask d 8 24 (by simpa using hd)
  simpa using h

theorem merge_byte (d x : Nat) (hd : d < 2 ^ 32) :
    (d &&& 0xFFFFFF00) ||| (x &&& 0xFF) = 256 * (d / 256) + x % 256 := by
  have h1 : x &&& 0xFF = x % 256 := by
    have := Nat.and_pow_two_sub_one_eq_mod x 8
    simpa using this
  have h2 : x % 256 < 2 ^ 8 := by omega
  rw [and_mask_FFFFFF00 d hd, h1]
  have := Nat.mul_add_lt_is_or h2 (d / 256)
  simpa using this.symm

theorem ldl_le_phys_lt (mem : Mem) (a : Nat) : ldl_le_phys mem a < 2 ^ 32 := by
  unfold ldl_le_phys
  have h0 := (mem a).isLt
  have h1 := (mem (a + 1)).isLt
  have h2 := (mem (a + 2)).isLt
  have h3 := (mem (a + 3)).isLt
  omega

/-- Storing at `a` the word at `a` with its low byte replaced by the low byte
of the word at `b` copies the byte at `b` to `a` and changes nothing else. -/
theorem stl_copy_byte (mem : Mem) (a b : Nat) :
    stl_le_phys mem a ((ldl_le_phys mem a &&& 0xFFFFFF00) ||| (ldl_le_phys mem b &&& 0xFF))
      = Function.update mem a (mem b) := by
  rw [merge_byte _ _ (ldl_le_phys_lt mem a)]
  have h0 := (mem a).isLt
  have h1 := (mem (a + 1)).isLt
  have h2 := (mem (a + 2)).isLt
  have h3 := (mem (a + 3)).isLt
  have g0 := (mem b).isLt
  have g1 := (mem (b + 1)).isLt
  have g2 := (mem (b + 2)).isLt
  have g3 := (mem (b + 3)).isLt
  funext x
  unfold stl_le_phys
  rw [Function.update_apply]
  by_cases hx0 : x = a
  · rw [if_pos hx0, if_pos hx0]
    apply Fin.ext
    simp only [byte_of, ldl_le_phys]
    omega
  · rw [if_neg hx0, if_neg hx0]
    by_cases hx1 : x = a + 1
    · rw [if_pos hx1, hx1]
      apply Fin.ext
      simp only [byte_of, ldl_le_phys]
      omega
    · rw [if_neg hx1]
      by_cases hx2 : x = a + 2
      · rw [if_pos hx2, hx2]
        apply Fin.ext
        simp only [byte_of, ldl_le_phys]
        omega
      · rw [if_neg hx2]
        by_cases hx3 : x = a + 3
        · rw [if_pos hx3, hx3]
          apply Fin.ext
          simp only [byte_of, ldl_le_phys]
          omega
        · rw [if_neg hx3]

/-- The element move of a memory-to-peripheral request with byte size on both
sides copies the byte at `cmar` to `cpar` and changes no other byte. -/
theorem transfer_mem_byte_m2p (ch : STM32F1XXDMAChan) (mem : Mem) (mmask0 pmask0 : Nat)
    (hdir : ch.ccr &&& DMA_CCR_DIR ≠ 0) (hps : ch.ccr &&& DMA_CCR_PSIZE = 0)
    (hms : ch.ccr &&& DMA_CCR_MSIZE = 0) (hp : ch.cpar < 2 ^ 32) (hm : ch.cmar < 2 ^ 32) :
    transfer_mem ch mem mmask0 pmask0 = Function.update mem ch.cpar (mem ch.cmar) := by
  have hle : ch.ccr &&& DMA_CCR_DIR ≤ 16 := Nat.and_le_right
  have hdir1 : (ch.ccr &&& DMA_CCR_DIR) % 2 ^ 8 ≠ 0 := by omega
  have hz : (0 >>> DMA_CCR_PSIZE_SHIFT) % 2 ^ 8 = 0 := by decide
  have hz2 : (0 >>> DMA_CCR_MSIZE_SHIFT) % 2 ^ 8 = 0 := by decide
  have hmask : ∀ j, addr_mask 0 j = 0xFFFFFFFF := fun _ => rfl
  have hclr : ∀ d, clear_dst 0 d = d &&& 0xFFFFFF00 := fun _ => rfl
  have hmrg : ∀ d x, merge_src 0 d x = d ||| (x &&& 0xFF) := fun _ _ => rfl
  unfold transfer_mem
  simp only [hps, hms, hz, hz2, hmask, hclr, hmrg, if_pos hdir1, and_u32_of_lt _ hp,
    and_u32_of_lt _ hm]
  exact stl_copy_byte mem ch.cpar ch.cmar

/-! ## Rejected requests -/

/-- C1: a request is a complete no-op (the controller state, hence every
channel field, `isr`, `ifcr`, and the whole memory are returned unchanged)
whenever the index is negative or not below `channel_count`, or the
channel's enable bit is clear, or the channel's `cndtr` is 0. -/
theorem handle_dma_request_rejected (s : STM32F1XXDMAState) (mem : Mem) (c level : Int)
    (mmask0 pmask0 : Nat)
    (h : c < 0 ∨ c ≥ (s.channel_count : Int) ∨
      ∃ ch, chan_lookup s c.toNat = some ch ∧ (ch.ccr &&& DMA_CCR_EN = 0 ∨ ch.cndtr = 0)) :
    handle_dma_request s mem c level mmask0 pmask0 = some (s, mem) := by
  unfold handle_dma_request
  rcases h with h | h | ⟨ch, hl, h⟩
  · rw [if_pos (Or.inl h)]
  · rw [if_pos (Or.inr h)]
  · split
    · rfl
    · rw [hl]
      rcases h with h | h
      · simp only [h, if_true]
      · simp only [h, if_true, ite_self]

/-- Witness of C1: channel 0 of a seven-channel controller, enabled, with
`cndtr = 0`. -/
theorem handle_dma_request_rejected_witness :
    handle_dma_request ⟨7, fun _ => ⟨1, 0, 4, 0x1000, 0x2000⟩, 0, 0⟩ (fun _ => 0) 0 1 0 0
      = some (⟨7, fun _ => ⟨1, 0, 4, 0x1000, 0x2000⟩, 0, 0⟩, fun _ => 0) :=
  handle_dma_request_rejected ⟨7, fun _ => ⟨1, 0, 4, 0x1000, 0x2000⟩, 0, 0⟩ (fun _ => 0) 0 1 0 0
    (Or.inr (Or.inr ⟨⟨1, 0, 4, 0x1000, 0x2000⟩, rfl, Or.inr rfl⟩))

/-! ## Runs of requests -/

/-- A request to a channel whose `cndtr` is 0 changes nothing. -/
theorem handle_dma_request_cndtr_zero (s : STM32F1XXDMAState) (mem : Mem) (c level : Int)
    (mmask0 pmask0 : Nat) (ch : STM32F1XXDMAChan) (hl : chan_lookup s c.toNat = some ch)
    (hz : ch.cndtr = 0) : handle_dma_request s mem c level mmask0 pmask0 = some (s, mem) := by
  unfold handle_dma_request
  split
  · rfl
  · rw [hl]
    dsimp only
    rw [if_pos hz.symm, ite_self]

/-- Requests to a channel whose `cndtr` is 0 change nothing, however many. -/
theorem dma_requests_inert (c : Int) (rs : List (Int × Nat × Nat)) (s : STM32F1XXDMAState)
    (mem : Mem) (ch : STM32F1XXDMAChan) (hl : chan_lookup s c.toNat = some ch)
    (hz : ch.cndtr = 0) : dma_requests s mem c rs = some (s, mem) := by
  induction rs with
  | nil => rfl
  | cons r rest ih =>
    rw [dma_requests_cons, handle_dma_request_cndtr_zero s mem c r.1 r.2.1 r.2.2 ch hl hz]
    exact ih

/-- Countdown of a non-circular enabled channel: `k ≤ cndtr` requests are all
accepted and leave `cndtr - k`, with `ccr` and `reload_cndtr` as before. -/
theorem dma_requests_countdown (c : Int) (rs : List (Int × Nat × Nat)) :
    ∀ (s : STM32F1XXDMAState) (mem : Mem) (ch : STM32F1XXDMAChan),
      0 ≤ c → c < (s.channel_count : Int) → chan_lookup s c.toNat = some ch →
      ch.ccr &&& DMA_CCR_EN ≠ 0 → ch.ccr &&& DMA_CCR_CIRC = 0 → ch.cndtr < 2 ^ 32 →
      rs.length ≤ ch.cndtr →
      ∃ s1 m1 ch1, dma_requests s mem c rs = some (s1, m1) ∧
        s1.channel_count = s.channel_count ∧
        chan_lookup s1 c.toNat = some ch1 ∧ ch1.ccr = ch.ccr ∧
        ch1.cndtr = ch.cndtr - rs.length := by
  induction rs with
  | nil =>
    intro s mem ch _ _ hl _ _ _ _
    exact ⟨s, mem, ch, rfl, rfl, hl, rfl, rfl⟩
  | cons r rest ih =>
    intro s mem ch h0 hcc hl hen hcirc h32 hlen
    have hlen1 : rest.length + 1 ≤ ch.cndtr := by simpa using hlen
    have hn : ch.cndtr ≠ 0 := by omega
    obtain ⟨hi, hacc⟩ := handle_dma_request_accepted s mem c r.1 r.2.1 r.2.2 ch h0 hcc hl hen hn
    have hcn : (advance_chan ch).cndtr = ch.cndtr - 1 := by
      rw [advance_chan_cndtr ch hn h32]
      by_cases h1 : ch.cndtr = 1
      · rw [if_pos h1, if_neg (not_not.mpr hcirc)]
        omega
      · rw [if_neg h1]
    have hccr : (advance_chan ch).ccr = ch.ccr := advance_chan_ccr ch
    obtain ⟨s1, m1, ch1, hrun, hcount, hl1, hccr1, hcn1⟩ :=
      ih (set_chan s ⟨c.toNat, hi⟩ (advance_chan ch)) (transfer_mem ch mem r.2.1 r.2.2)
        (advance_chan ch) h0 hcc (chan_lookup_set_chan s _ hi _)
        (by rw [hccr]; exact hen) (by rw [hccr]; exact hcirc) (by rw [hcn]; omega)
        (by rw [hcn]; omega)
    refine ⟨s1, m1, ch1, ?_, hcount, hl1, hccr1.trans hccr, ?_⟩
    · rw [dma_requests_cons, hacc]
      exact hrun
    · rw [hcn1, hcn, List.length_cons]
      omega

/-! ## Register file -/

/-- C5: for a channel index `c < channel_count ≤ 7`, a register at
sub-offset 0, 4, 8 or 12 and a 32-bit value `v`, a write of `v` at offset
`8 + 20 * c + sub` followed by a read at the same offset returns `v`. -/
theorem write_read_roundtrip (s : STM32F1XXDMAState) (c sub v : Nat)
    (hc : c < s.channel_count) (hcc : s.channel_count ≤ 7)
    (hsub : sub = 0 ∨ sub = 4 ∨ sub = 8 ∨ sub = 12) (hv : v < 2 ^ 32) :
    ∃ s1, stm32f1xx_dma_write s (8 + 20 * c + sub) v = some s1 ∧
      stm32f1xx_dma_read s1 (8 + 20 * c + sub) = some v := by
  have hc7 : c < 7 := by omega
  have hv32 := and_u32_of_lt v hv
  rw [write_block s c sub v hc hc7 (by omega)]
  rcases hsub with h | h | h | h <;> subst h <;>
    refine ⟨_, rfl, (read_block (set_chan s ⟨c, hc7⟩ _) c _ hc hc7 (by omega)).trans ?_⟩ <;>
    simp only [set_chan_same, hv32] <;> rfl

/-- Witness of C5: CMAR of channel 6 of a seven-channel controller. -/
theorem write_read_roundtrip_witness :
    ∃ s1, stm32f1xx_dma_write ⟨7, fun _ => ⟨0, 0, 0, 0, 0⟩, 0, 0⟩ (8 + 20 * 6 + 12) 0xFFFFFFFF
        = some s1 ∧
      stm32f1xx_dma_read s1 (8 + 20 * 6 + 12) = some 0xFFFFFFFF :=
  write_read_roundtrip ⟨7, fun _ => ⟨0, 0, 0, 0, 0⟩, 0, 0⟩ 6 12 0xFFFFFFFF (by decide) (by decide)
    (by decide) (by decide)

/-- C6: for an offset of the register window (`8 ≤ offset < 0x400`) whose
channel index `(offset - 8) / 20` is not below `channel_count`, a read
returns 0 and a write returns the controller state unchanged. -/
theorem inactive_channel_access (s : STM32F1XXDMAState) (offset v : Nat)
    (h8 : 8 ≤ offset) (hwin : offset < 0x400) (hidx : (offset - 8) / 20 ≥ s.channel_count) :
    stm32f1xx_dma_read s offset = some 0 ∧ stm32f1xx_dma_write s offset v = some s := by
  have hi := decode_chan_idx_window offset h8 hwin
  have h0 : ¬ (0 = offset) := by omega
  have h4 : ¬ (4 = offset) := by omega
  unfold stm32f1xx_dma_read stm32f1xx_dma_write
  simp only [DMA_ISR, DMA_IFCR, if_neg h0, if_neg h4, hi, if_pos hidx, and_self]

/-- Witness of C6: the CCR offset of channel 5 on a five-channel controller. -/
theorem inactive_channel_access_witness :
    stm32f1xx_dma_read ⟨5, fun _ => ⟨1, 2, 3, 4, 5⟩, 6, 7⟩ 108 = some 0 ∧
      stm32f1xx_dma_write ⟨5, fun _ => ⟨1, 2, 3, 4, 5⟩, 6, 7⟩ 108 0xDEADBEEF
        = some ⟨5, fun _ => ⟨1, 2, 3, 4, 5⟩, 6, 7⟩ :=
  inactive_channel_access ⟨5, fun _ => ⟨1, 2, 3, 4, 5⟩, 6, 7⟩ 108 0xDEADBEEF (by decide)
    (by decide) (by decide)

/-- C7: for a valid channel `c` and a 32-bit value `v`, a write of `v` to
CNDTR of channel `c` (offset `8 + 20 * c + 4`) sets both `cndtr` and
`reload_cndtr` of channel `c` to `v`. -/
theorem write_cndtr_sets_reload (s : STM32F1XXDMAState) (c v : Nat)
    (hc : c < s.channel_count) (hcc : s.channel_count ≤ 7) (hv : v < 2 ^ 32) :
    ∃ s1 ch, stm32f1xx_dma_write s (8 + 20 * c + 4) v = some s1 ∧
      chan_lookup s1 c = some ch ∧ ch.cndtr = v ∧ ch.reload_cndtr = v := by
  have hc7 : c < 7 := by omega
  have hv32 := and_u32_of_lt v hv
  rw [write_block s c 4 v hc hc7 (by omega)]
  refine ⟨_, _, rfl, chan_lookup_lt _ c hc7, ?_, ?_⟩ <;>
    simp only [set_chan_same, hv32]

/-- Witness of C7: CNDTR of channel 2 written with 4. -/
theorem write_cndtr_sets_reload_witness :
    ∃ s1 ch, stm32f1xx_dma_write ⟨7, fun _ => ⟨1, 2, 3, 4, 5⟩, 0, 0⟩ (8 + 20 * 2 + 4) 4 = some s1 ∧
      chan_lookup s1 2 = some ch ∧ ch.cndtr = 4 ∧ ch.reload_cndtr = 4 :=
  write_cndtr_sets_reload ⟨7, fun _ => ⟨1, 2, 3, 4, 5⟩, 0, 0⟩ 2 4 (by decide) (by decide)
    (by decide)

/-! ## Reset -/

/-- C10: reset yields `isr = 0`, `ifcr = 0` and all five fields of all seven
channel slots equal to 0 (whatever `channel_count` is), and leaves
`channel_count` unchanged. -/
theorem reset_clears_all (s : STM32F1XXDMAState) :
    (stm32f1xx_dma_reset s).isr = 0 ∧ (stm32f1xx_dma_reset s).ifcr = 0 ∧
      (∀ i : Fin 7, ((stm32f1xx_dma_reset s).chan_dma i).ccr = 0 ∧
        ((stm32f1xx_dma_reset s).chan_dma i).cndtr = 0 ∧
        ((stm32f1xx_dma_reset s).chan_dma i).reload_cndtr = 0 ∧
        ((stm32f1xx_dma_reset s).chan_dma i).cpar = 0 ∧
        ((stm32f1xx_dma_reset s).chan_dma i).cmar = 0) ∧
      (stm32f1xx_dma_reset s).channel_count = s.channel_count :=
  ⟨rfl, rfl, fun _ => ⟨rfl, rfl, rfl, rfl, rfl⟩, rfl⟩

/-! ## Helpers for the byte scenarios -/

/-- One request of the byte scenario: channel 0, memory-to-peripheral, byte
size on both sides, `cpar = 0x1000`. -/
theorem byte_scenario_step (s : STM32F1XXDMAState) (mem : Mem) (level : Int)
    (mmask0 pmask0 ccr n rl cmar : Nat) (hcc : 0 < s.channel_count)
    (hl : chan_lookup s 0 = some ⟨ccr, n, rl, 0x1000, cmar⟩)
    (hen : ccr &&& DMA_CCR_EN ≠ 0) (hdir : ccr &&& DMA_CCR_DIR ≠ 0)
    (hps : ccr &&& DMA_CCR_PSIZE = 0) (hms : ccr &&& DMA_CCR_MSIZE = 0)
    (hn : n ≠ 0) (hm : cmar < 2 ^ 32) :
    ∃ s1, handle_dma_request s mem 0 level mmask0 pmask0
        = some (s1, Function.update mem 0x1000 (mem cmar)) ∧
      s1.channel_count = s.channel_count ∧
      chan_lookup s1 0 = some (advance_chan ⟨ccr, n, rl, 0x1000, cmar⟩) := by
  have hcc1 : (0 : Int) < (s.channel_count : Int) := by omega
  obtain ⟨hi, hacc⟩ := handle_dma_request_accepted s mem 0 level mmask0 pmask0
    ⟨ccr, n, rl, 0x1000, cmar⟩ (le_refl 0) hcc1 hl hen hn
  have htr := transfer_mem_byte_m2p ⟨ccr, n, rl, 0x1000, cmar⟩ mem mmask0 pmask0 hdir hps hms
    (show (0x1000 : Nat) < 2 ^ 32 by decide) hm
  rw [htr] at hacc
  exact ⟨_, hacc, rfl, chan_lookup_set_chan s _ hi _⟩

/-- Reads of CNDTR and CMAR of channel 0. -/
theorem read_chan0 (s : STM32F1XXDMAState) (ch : STM32F1XXDMAChan)
    (hcc : 0 < s.channel_count) (hl : chan_lookup s 0 = some ch) :
    stm32f1xx_dma_read s 12 = some ch.cndtr ∧ stm32f1xx_dma_read s 20 = some ch.cmar := by
  obtain ⟨hi, hch⟩ := chan_lookup_some hl
  subst hch
  exact ⟨read_block s 0 4 hcc hi (by decide), read_block s 0 12 hcc hi (by decide)⟩

/-- Writes of a 32-bit value to the four registers of channel 0. -/
theorem write_chan0 (s : STM32F1XXDMAState) (ch : STM32F1XXDMAChan) (v : Nat)
    (hcc : 0 < s.channel_count) (hl : chan_lookup s 0 = some ch) (hv : v < 2 ^ 32) :
    (∃ s1, stm32f1xx_dma_write s 8 v = some s1 ∧ s1.channel_count = s.channel_count ∧
      chan_lookup s1 0 = some { ch with ccr := v }) ∧
    (∃ s1, stm32f1xx_dma_write s 12 v = some s1 ∧ s1.channel_count = s.channel_count ∧
      chan_lookup s1 0 = some { ch with cndtr := v, reload_cndtr := v }) ∧
    (∃ s1, stm32f1xx_dma_write s 16 v = some s1 ∧ s1.channel_count = s.channel_count ∧
      chan_lookup s1 0 = some { ch with cpar := v }) ∧
    (∃ s1, stm32f1xx_dma_write s 20 v = some s1 ∧ s1.channel_count = s.channel_count ∧
      chan_lookup s1 0 = some { ch with cmar := v }) := by
  obtain ⟨hi, hch⟩ := chan_lookup_some hl
  subst hch
  have w0 := write_block s 0 0 v hcc hi (by decide)
  have w4 := write_block s 0 4 v hcc hi (by decide)
  have w8 := write_block s 0 8 v hcc hi (by decide)
  have w12 := write_block s 0 12 v hcc hi (by decide)
  rw [and_u32_of_lt v hv] at w0 w4 w8 w12
  exact ⟨⟨_, w0, rfl, chan_lookup_set_chan s 0 hi _⟩, ⟨_, w4, rfl, chan_lookup_set_chan s 0 hi _⟩,
    ⟨_, w8, rfl, chan_lookup_set_chan s 0 hi _⟩, ⟨_, w12, rfl, chan_lookup_set_chan s 0 hi _⟩⟩

/-- Configuration of channel 0 after reset: CPAR, CMAR, CNDTR, then CCR. -/
theorem configure_chan0 (s : STM32F1XXDMAState) (hcc : 0 < s.channel_count) (ccr : Nat)
    (hccr : ccr < 2 ^ 32) :
    ∃ s1 s2 s3 s4,
      stm32f1xx_dma_write (stm32f1xx_dma_reset s) 16 0x1000 = some s1 ∧
      stm32f1xx_dma_write s1 20 0x2000 = some s2 ∧
      stm32f1xx_dma_write s2 12 4 = some s3 ∧
      stm32f1xx_dma_write s3 8 ccr = some s4 ∧
      s4.channel_count = s.channel_count ∧
      chan_lookup s4 0 = some ⟨ccr, 4, 4, 0x1000, 0x2000⟩ := by
  have hl0 : chan_lookup (stm32f1xx_dma_reset s) 0 = some ⟨0, 0, 0, 0, 0⟩ := rfl
  obtain ⟨s1, e1, c1, l1⟩ := (write_chan0 (stm32f1xx_dma_reset s) _ 0x1000 hcc hl0 (by decide)).2.2.1
  obtain ⟨s2, e2, c2, l2⟩ := (write_chan0 s1 _ 0x2000 (by rw [c1]; exact hcc) l1 (by decide)).2.2.2
  obtain ⟨s3, e3, c3, l3⟩ := (write_chan0 s2 _ 4 (by rw [c2, c1]; exact hcc) l2 (by decide)).2.1
  obtain ⟨s4, e4, c4, l4⟩ := (write_chan0 s3 _ ccr (by rw [c3, c2, c1]; exact hcc) l3 hccr).1
  exact ⟨s1, s2, s3, s4, e1, e2, e3, e4, by rw [c4, c3, c2, c1]; rfl, l4⟩

/-! ## Count register: circular reload and non-circular countdown -/

/-- C4: for an enabled channel with the circular bit clear and `cndtr = n ≥ 1`,
with requests only (no register write in between): after `k ≤ n` requests
`cndtr` is `n - k`; after `n` requests it is 0, and from then on every
further request (one, or any run of them) leaves controller state and memory
unchanged. -/
theorem noncircular_countdown (s : STM32F1XXDMAState) (mem : Mem) (c : Int)
    (ch : STM32F1XXDMAChan) (n : Nat) (h0 : 0 ≤ c) (hcc : c < (s.channel_count : Int))
    (hl : chan_lookup s c.toNat = some ch) (hen : ch.ccr &&& DMA_CCR_EN ≠ 0)
    (hcirc : ch.ccr &&& DMA_CCR_CIRC = 0) (hn : ch.cndtr = n) (h1 : 1 ≤ n)
    (h32 : n < 2 ^ 32) :
    (∀ rs : List (Int × Nat × Nat), rs.length ≤ n →
      ∃ s1 m1 ch1, dma_requests s mem c rs = some (s1, m1) ∧
        chan_lookup s1 c.toNat = some ch1 ∧ ch1.cndtr = n - rs.length) ∧
    (∀ rs : List (Int × Nat × Nat), rs.length = n →
      ∃ s1 m1 ch1, dma_requests s mem c rs = some (s1, m1) ∧
        chan_lookup s1 c.toNat = some ch1 ∧ ch1.cndtr = 0 ∧
        (∀ (level : Int) (mmask0 pmask0 : Nat),
          handle_dma_request s1 m1 c level mmask0 pmask0 = some (s1, m1)) ∧
        ∀ more : List (Int × Nat × Nat), dma_requests s mem c (rs ++ more) = some (s1, m1)) := by
  subst hn
  constructor
  · intro rs hlen
    obtain ⟨s1, m1, ch1, hrun, _, hl1, _, hcn⟩ :=
      dma_requests_countdown c rs s mem ch h0 hcc hl hen hcirc h32 hlen
    exact ⟨s1, m1, ch1, hrun, hl1, hcn⟩
  · intro rs hlen
    obtain ⟨s1, m1, ch1, hrun, _, hl1, _, hcn⟩ :=
      dma_requests_countdown c rs s mem ch h0 hcc hl hen hcirc h32 (le_of_eq hlen)
    have hz : ch1.cndtr = 0 := by
      rw [hcn, hlen]
      exact Nat.sub_self _
    refine ⟨s1, m1, ch1, hrun, hl1, hz, ?_, ?_⟩
    · intro level mmask0 pmask0
      exact handle_dma_request_cndtr_zero s1 m1 c level mmask0 pmask0 ch1 hl1 hz
    · intro more
      rw [dma_requests_append, hrun]
      exact dma_requests_inert c more s1 m1 ch1 hl1 hz

/-- Witness of C4: channel 0 with `cndtr = 2`, two requests, then any further
request is a no-op. -/
theorem noncircular_countdown_witness :
    ∃ s1 m1 ch1,
      dma_requests ⟨7, fun _ => ⟨0x91, 2, 2, 0x1000, 0x2000⟩, 0, 0⟩ (fun _ => 0) 0
        [(1, 0, 0), (0, 0, 0)] = some (s1, m1) ∧
      chan_lookup s1 (0 : Int).toNat = some ch1 ∧ ch1.cndtr = 0 ∧
      (∀ (level : Int) (mmask0 pmask0 : Nat),
        handle_dma_request s1 m1 0 level mmask0 pmask0 = some (s1, m1)) ∧
      ∀ more : List (Int × Nat × Nat),
        dma_requests ⟨7, fun _ => ⟨0x91, 2, 2, 0x1000, 0x2000⟩, 0, 0⟩ (fun _ => 0) 0
          ([(1, 0, 0), (0, 0, 0)] ++ more) = some (s1, m1) :=
  (noncircular_countdown ⟨7, fun _ => ⟨0x91, 2, 2, 0x1000, 0x2000⟩, 0, 0⟩ (fun _ => 0) 0
    ⟨0x91, 2, 2, 0x1000, 0x2000⟩ 2 (by decide) (by decide) rfl (by decide) (by decide) rfl
    (by decide) (by decide)).2 [(1, 0, 0), (0, 0, 0)] rfl

/-! ## Byte lanes of the destination word -/

/-- C2, evaluated on a request with a word-sized source and a byte-sized
destination: the destination word at `0x1000` is all zero before the request;
the request is accepted and afterwards the bytes at `0x1001`, `0x1002`,
`0x1003` (bits 8-31 of the destination word, outside the byte destination)
hold `0x33`, `0x22`, `0x11` taken from the source word. -/
theorem wide_source_overwrites_lanes :
    ldl_le_phys wide_source_mem 0x1000 = 0 ∧
    (handle_dma_request wide_source_state wide_source_mem 0 0 0 0).map
        (fun r => (ldl_le_phys r.2 0x1000 >>> 8, r.2 0x1000, r.2 0x1001, r.2 0x1002, r.2 0x1003))
      = some (0x112233, 0x44, 0x33, 0x22, 0x11) := by
  constructor
  · decide
  · decide

/-! ## The four-request byte scenario -/

/-- C8: after reset, channel 0 is configured by register writes
(CPAR = 0x1000, CMAR = 0x2000, CNDTR = 4, CCR = enable, memory-to-peripheral,
memory increment, byte sizes, not circular).  After 4 requests CMAR reads
0x2004, CNDTR reads 0, the byte at 0x1000 is the byte that was at 0x2003 just
before the 4th request, and the bytes at 0x1001, 0x1002, 0x1003 are those of
the initial memory. -/
theorem byte_scenario_four_requests (s : STM32F1XXDMAState) (mem : Mem)
    (hcc : 0 < s.channel_count) (r1 r2 r3 r4 : Int × Nat × Nat) :
    ∃ s1 s2 s3 s4 t3 m3 t4 m4,
      stm32f1xx_dma_write (stm32f1xx_dma_reset s) 16 0x1000 = some s1 ∧
      stm32f1xx_dma_write s1 20 0x2000 = some s2 ∧
      stm32f1xx_dma_write s2 12 4 = some s3 ∧
      stm32f1xx_dma_write s3 8 (DMA_CCR_EN ||| DMA_CCR_DIR ||| DMA_CCR_MINC) = some s4 ∧
      dma_requests s4 mem 0 [r1, r2, r3] = some (t3, m3) ∧
      handle_dma_request t3 m3 0 r4.1 r4.2.1 r4.2.2 = some (t4, m4) ∧
      stm32f1xx_dma_read t4 20 = some 0x2004 ∧
      stm32f1xx_dma_read t4 12 = some 0 ∧
      m4 0x1000 = m3 0x2003 ∧
      m4 0x1001 = mem 0x1001 ∧ m4 0x1002 = mem 0x1002 ∧ m4 0x1003 = mem 0x1003 := by
  obtain ⟨s1, s2, s3, s4, e1, e2, e3, e4, c4, l4⟩ :=
    configure_chan0 s hcc (DMA_CCR_EN ||| DMA_CCR_DIR ||| DMA_CCR_MINC) (by decide)
  have hc4 : 0 < s4.channel_count := by rw [c4]; exact hcc
  obtain ⟨t1, q1, d1, k1⟩ := byte_scenario_step s4 mem r1.1 r1.2.1 r1.2.2 _
    4 4 0x2000 hc4 l4
    (by decide) (by decide) (by decide) (by decide) (by decide) (by decide)
  have a1 : advance_chan ⟨DMA_CCR_EN ||| DMA_CCR_DIR ||| DMA_CCR_MINC, 4, 4, 0x1000, 0x2000⟩
      = ⟨DMA_CCR_EN ||| DMA_CCR_DIR ||| DMA_CCR_MINC, 3, 4, 0x1000, 0x2001⟩ := by decide
  rw [a1] at k1
  generalize hm1 : Function.update mem 0x1000 (mem 0x2000) = m1 at q1
  have hd1 : 0 < t1.channel_count := by rw [d1]; exact hc4
  obtain ⟨t2, q2, d2, k2⟩ := byte_scenario_step t1 m1 r2.1 r2.2.1 r2.2.2 _
    3 4 0x2001 hd1 k1
    (by decide) (by decide) (by decide) (by decide) (by decide) (by decide)
  have a2 : advance_chan ⟨DMA_CCR_EN ||| DMA_CCR_DIR ||| DMA_CCR_MINC, 3, 4, 0x1000, 0x2001⟩
      = ⟨DMA_CCR_EN ||| DMA_CCR_DIR ||| DMA_CCR_MINC, 2, 4, 0x1000, 0x2002⟩ := by decide
  rw [a2] at k2
  generalize hm2 : Function.update m1 0x1000 (m1 0x2001) = m2 at q2
  have hd2 : 0 < t2.channel_count := by rw [d2]; exact hd1
  obtain ⟨t3, q3, d3, k3⟩ := byte_scenario_step t2 m2 r3.1 r3.2.1 r3.2.2 _
    2 4 0x2002 hd2 k2
    (by decide) (by decide) (by decide) (by decide) (by decide) (by decide)
  have a3 : advance_chan ⟨DMA_CCR_EN ||| DMA_CCR_DIR ||| DMA_CCR_MINC, 2, 4, 0x1000, 0x2002⟩
      = ⟨DMA_CCR_EN ||| DMA_CCR_DIR ||| DMA_CCR_MINC, 1, 4, 0x1000, 0x2003⟩ := by decide
  rw [a3] at k3
  generalize hm3 : Function.update m2 0x1000 (m2 0x2002) = m3 at q3
  have hd3 : 0 < t3.channel_count := by rw [d3]; exact hd2
  obtain ⟨t4, q4, d4, k4⟩ := byte_scenario_step t3 m3 r4.1 r4.2.1 r4.2.2 _
    1 4 0x2003 hd3 k3
    (by decide) (by decide) (by decide) (by decide) (by decide) (by decide)
  have a4 : advance_chan ⟨DMA_CCR_EN ||| DMA_CCR_DIR ||| DMA_CCR_MINC, 1, 4, 0x1000, 0x2003⟩
      = ⟨DMA_CCR_EN ||| DMA_CCR_DIR ||| DMA_CCR_MINC, 0, 4, 0x1000, 0x2004⟩ := by decide
  rw [a4] at k4
  generalize hm4 : Function.update m3 0x1000 (m3 0x2003) = m4 at q4
  have hd4 : 0 < t4.channel_count := by rw [d4]; exact hd3
  obtain ⟨hrn, hrm⟩ := read_chan0 t4 _ hd4 k4
  have hrun : dma_requests s4 mem 0 [r1, r2, r3] = some (t3, m3) := by
    rw [dma_requests_cons, q1, Option.some_bind, dma_requests_cons, q2, Option.some_bind,
      dma_requests_cons, q3, Option.some_bind, dma_requests_nil]
  refine ⟨s1, s2, s3, s4, t3, m3, t4, m4, e1, e2, e3, e4, hrun, q4, hrm, hrn, ?_, ?_, ?_, ?_⟩
  · rw [← hm4, Function.update_same]
  · rw [← hm4, Function.update_noteq (by decide), ← hm3, Function.update_noteq (by decide),
      ← hm2, Function.update_noteq (by decide), ← hm1, Function.update_noteq (by decide)]
  · rw [← hm4, Function.update_noteq (by decide), ← hm3, Function.update_noteq (by decide),
      ← hm2, Function.update_noteq (by decide), ← hm1, Function.update_noteq (by decide)]
  · rw [← hm4, Function.update_noteq (by decide), ← hm3, Function.update_noteq (by decide),
      ← hm2, Function.update_noteq (by decide), ← hm1, Function.update_noteq (by decide)]

/-- Witness of C8: the scenario run from `scenario_state` over `scenario_mem`. -/
theorem byte_scenario_four_requests_witness :
    ∃ s1 s2 s3 s4 t3 m3 t4 m4,
      stm32f1xx_dma_write (stm32f1xx_dma_reset scenario_state) 16 0x1000 = some s1 ∧
      stm32f1xx_dma_write s1 20 0x2000 = some s2 ∧
      stm32f1xx_dma_write s2 12 4 = some s3 ∧
      stm32f1xx_dma_write s3 8 (DMA_CCR_EN ||| DMA_CCR_DIR ||| DMA_CCR_MINC) = some s4 ∧
      dma_requests s4 scenario_mem 0 [(1, 0, 0), (1, 0, 0), (1, 0, 0)] = some (t3, m3) ∧
      handle_dma_request t3 m3 0 1 0 0 = some (t4, m4) ∧
      stm32f1xx_dma_read t4 20 = some 0x2004 ∧
      stm32f1xx_dma_read t4 12 = some 0 ∧
      m4 0x1000 = m3 0x2003 ∧
      m4 0x1001 = scenario_mem 0x1001 ∧ m4 0x1002 = scenario_mem 0x1002 ∧
      m4 0x1003 = scenario_mem 0x1003 :=
  byte_scenario_four_requests scenario_state scenario_mem (by decide)
    (1, 0, 0) (1, 0, 0) (1, 0, 0) (1, 0, 0)

/-! ## The circular byte scenario -/

/-- C9: the byte scenario with the circular bit set in CCR.  CMAR reads
0x2001, 0x2002, 0x2003, 0x2004 after requests 1 to 4 (it is never set back to
0x2000); after the 4th request CNDTR reads 4 again; the 5th request is
accepted, copies the byte at 0x2004 to 0x1000 (no other byte changes) and
leaves CMAR = 0x2005 and CNDTR = 3. -/
theorem circular_scenario_fifth_request (s : STM32F1XXDMAState) (mem : Mem)
    (hcc : 0 < s.channel_count) (r1 r2 r3 r4 r5 : Int × Nat × Nat) :
    ∃ s1 s2 s3 s4 t1 m1 t2 m2 t3 m3 t4 m4 t5 m5,
      stm32f1xx_dma_write (stm32f1xx_dma_reset s) 16 0x1000 = some s1 ∧
      stm32f1xx_dma_write s1 20 0x2000 = some s2 ∧
      stm32f1xx_dma_write s2 12 4 = some s3 ∧
      stm32f1xx_dma_write s3 8 (DMA_CCR_EN ||| DMA_CCR_DIR ||| DMA_CCR_CIRC ||| DMA_CCR_MINC)
        = some s4 ∧
      handle_dma_request s4 mem 0 r1.1 r1.2.1 r1.2.2 = some (t1, m1) ∧
      handle_dma_request t1 m1 0 r2.1 r2.2.1 r2.2.2 = some (t2, m2) ∧
      handle_dma_request t2 m2 0 r3.1 r3.2.1 r3.2.2 = some (t3, m3) ∧
      handle_dma_request t3 m3 0 r4.1 r4.2.1 r4.2.2 = some (t4, m4) ∧
      handle_dma_request t4 m4 0 r5.1 r5.2.1 r5.2.2 = some (t5, m5) ∧
      stm32f1xx_dma_read t1 20 = some 0x2001 ∧
      stm32f1xx_dma_read t2 20 = some 0x2002 ∧
      stm32f1xx_dma_read t3 20 = some 0x2003 ∧
      stm32f1xx_dma_read t4 20 = some 0x2004 ∧
      stm32f1xx_dma_read t4 12 = some 4 ∧
      m5 = Function.update m4 0x1000 (m4 0x2004) ∧
      stm32f1xx_dma_read t5 20 = some 0x2005 ∧
      stm32f1xx_dma_read t5 12 = some 3 := by
  obtain ⟨s1, s2, s3, s4, e1, e2, e3, e4, c4, l4⟩ :=
    configure_chan0 s hcc (DMA_CCR_EN ||| DMA_CCR_DIR ||| DMA_CCR_CIRC ||| DMA_CCR_MINC)
      (by decide)
  have hc4 : 0 < s4.channel_count := by rw [c4]; exact hcc
  obtain ⟨t1, q1, d1, k1⟩ := byte_scenario_step s4 mem r1.1 r1.2.1 r1.2.2 _
    4 4 0x2000 hc4 l4
    (by decide) (by decide) (by decide) (by decide) (by decide) (by decide)
  have a1 : advance_chan ⟨DMA_CCR_EN ||| DMA_CCR_DIR ||| DMA_CCR_CIRC ||| DMA_CCR_MINC, 4, 4, 0x1000, 0x2000⟩
      = ⟨DMA_CCR_EN ||| DMA_CCR_DIR ||| DMA_CCR_CIRC ||| DMA_CCR_MINC, 3, 4, 0x1000, 0x2001⟩ := by decide
  rw [a1] at k1
  generalize hm1 : Function.update mem 0x1000 (mem 0x2000) = m1 at q1
  have hd1 : 0 < t1.channel_count := by rw [d1]; exact hc4
  obtain ⟨t2, q2, d2, k2⟩ := byte_scenario_step t1 m1 r2.1 r2.2.1 r2.2.2 _
    3 4 0x2001 hd1 k1
    (by decide) (by decide) (by decide) (by decide) (by decide) (by decide)
  have a2 : advance_chan ⟨DMA_CCR_EN ||| DMA_CCR_DIR ||| DMA_CCR_CIRC ||| DMA_CCR_MINC, 3, 4, 0x1000, 0x2001⟩
      = ⟨DMA_CCR_EN ||| DMA_CCR_DIR ||| DMA_CCR_CIRC ||| DMA_CCR_MINC, 2, 4, 0x1000, 0x2002⟩ := by decide
  rw [a2] at k2
  generalize hm2 : Function.update m1 0x1000 (m1 0x2001) = m2 at q2
  have hd2 : 0 < t2.channel_count := by rw [d2]; exact hd1
  obtain ⟨t3, q3, d3, k3⟩ := byte_scenario_step t2 m2 r3.1 r3.2.1 r3.2.2 _
    2 4 0x2002 hd2 k2
    (by decide) (by decide) (by decide) (by decide) (by decide) (by decide)
  have a3 : advance_chan ⟨DMA_CCR_EN ||| DMA_CCR_DIR ||| DMA_CCR_CIRC ||| DMA_CCR_MINC, 2, 4, 0x1000, 0x2002⟩
      = ⟨DMA_CCR_EN ||| DMA_CCR_DIR ||| DMA_CCR_CIRC ||| DMA_CCR_MINC, 1, 4, 0x1000, 0x2003⟩ := by decide
  rw [a3] at k3
  generalize hm3 : Function.update m2 0x1000 (m2 0x2002) = m3 at q3
  have hd3 : 0 < t3.channel_count := by rw [d3]; exact hd2
  obtain ⟨t4, q4, d4, k4⟩ := byte_scenario_step t3 m3 r4.1 r4.2.1 r4.2.2 _
    1 4 0x2003 hd3 k3
    (by decide) (by decide) (by decide) (by decide) (by decide) (by decide)
  have a4 : advance_chan ⟨DMA_CCR_EN ||| DMA_CCR_DIR ||| DMA_CCR_CIRC ||| DMA_CCR_MINC, 1, 4, 0x1000, 0x2003⟩
      = ⟨DMA_CCR_EN ||| DMA_CCR_DIR ||| DMA_CCR_CIRC ||| DMA_CCR_MINC, 4, 4, 0x1000, 0x2004⟩ := by decide
  rw [a4] at k4
  generalize hm4 : Function.update m3 0x1000 (m3 0x2003) = m4 at q4
  have hd4 : 0 < t4.channel_count := by rw [d4]; exact hd3
  obtain ⟨t5, q5, d5, k5⟩ := byte_scenario_step t4 m4 r5.1 r5.2.1 r5.2.2 _
    4 4 0x2004 hd4 k4
    (by decide) (by decide) (by decide) (by decide) (by decide) (by decide)
  have a5 : advance_chan ⟨DMA_CCR_EN ||| DMA_CCR_DIR ||| DMA_CCR_CIRC ||| DMA_CCR_MINC, 4, 4, 0x1000, 0x2004⟩
      = ⟨DMA_CCR_EN ||| DMA_CCR_DIR ||| DMA_CCR_CIRC ||| DMA_CCR_MINC, 3, 4, 0x1000, 0x2005⟩ := by decide
  rw [a5] at k5
  generalize hm5 : Function.update m4 0x1000 (m4 0x2004) = m5 at q5
  have hd5 : 0 < t5.channel_count := by rw [d5]; exact hd4
  exact ⟨s1, s2, s3, s4, t1, m1, t2, m2, t3, m3, t4, m4, t5, m5, e1, e2, e3, e4,
    q1, q2, q3, q4, q5, (read_chan0 t1 _ hd1 k1).2, (read_chan0 t2 _ hd2 k2).2,
    (read_chan0 t3 _ hd3 k3).2, (read_chan0 t4 _ hd4 k4).2, (read_chan0 t4 _ hd4 k4).1,
    hm5.symm, (read_chan0 t5 _ hd5 k5).2, (read_chan0 t5 _ hd5 k5).1⟩

/-- Witness of C9: the circular scenario run from `scenario_state` over
`scenario_mem`. -/
theorem circular_scenario_fifth_request_witness :
    ∃ s1 s2 s3 s4 t1 m1 t2 m2 t3 m3 t4 m4 t5 m5,
      stm32f1xx_dma_write (stm32f1xx_dma_reset scenario_state) 16 0x1000 = some s1 ∧
      stm32f1xx_dma_write s1 20 0x2000 = some s2 ∧
      stm32f1xx_dma_write s2 12 4 = some s3 ∧
      stm32f1xx_dma_write s3 8 (DMA_CCR_EN ||| DMA_CCR_DIR ||| DMA_CCR_CIRC ||| DMA_CCR_MINC)
        = some s4 ∧
      handle_dma_request s4 scenario_mem 0 1 0 0 = some (t1, m1) ∧
      handle_dma_request t1 m1 0 1 0 0 = some (t2, m2) ∧
      handle_dma_request t2 m2 0 1 0 0 = some (t3, m3) ∧
      handle_dma_request t3 m3 0 1 0 0 = some (t4, m4) ∧
      handle_dma_request t4 m4 0 1 0 0 = some (t5, m5) ∧
      stm32f1xx_dma_read t1 20 = some 0x2001 ∧
      stm32f1xx_dma_read t2 20 = some 0x2002 ∧
      stm32f1xx_dma_read t3 20 = some 0x2003 ∧
      stm32f1xx_dma_read t4 20 = some 0x2004 ∧
      stm32f1xx_dma_read t4 12 = some 4 ∧
      m5 = Function.update m4 0x1000 (m4 0x2004) ∧
      stm32f1xx_dma_read t5 20 = some 0x2005 ∧
      stm32f1xx_dma_read t5 12 = some 3 :=
  circular_scenario_fifth_request scenario_state scenario_mem (by decide)
    (1, 0, 0) (1, 0, 0) (1, 0, 0) (1, 0, 0) (1, 0, 0)

/-! ## Global registers, unknown offsets and the frame of a write -/

theorem write_isr (s : STM32F1XXDMAState) (v : Nat) :
    stm32f1xx_dma_write s 0 v = some { s with isr := v &&& 0xFFFFFFFF } := by
  unfold stm32f1xx_dma_write
  rw [if_pos (show DMA_ISR = 0 from rfl)]

theorem write_ifcr (s : STM32F1XXDMAState) (v : Nat) :
    stm32f1xx_dma_write s 4 v = some { s with ifcr := v &&& 0xFFFFFFFF } := by
  unfold stm32f1xx_dma_write
  rw [if_neg (show ¬ DMA_ISR = 4 by decide), if_pos (show DMA_IFCR = 4 from rfl)]

theorem read_isr (s : STM32F1XXDMAState) : stm32f1xx_dma_read s 0 = some s.isr := by
  unfold stm32f1xx_dma_read
  rw [if_pos (show DMA_ISR = 0 from rfl)]

theorem read_ifcr (s : STM32F1XXDMAState) : stm32f1xx_dma_read s 4 = some s.ifcr := by
  unfold stm32f1xx_dma_read
  rw [if_neg (show ¬ DMA_ISR = 4 by decide), if_pos (show DMA_IFCR = 4 from rfl)]

/-- C11: ISR and IFCR are plain storage.  For a 32-bit `v`, a write of `v` at
offset 0 followed by a read at offset 0 returns `v` and leaves `ifcr` as it
was; a write of `v` at offset 4 followed by a read at offset 4 returns `v`
and leaves `isr` as it was (no `isr` bit is cleared). -/
theorem isr_ifcr_passthrough (s : STM32F1XXDMAState) (v : Nat) (hv : v < 2 ^ 32) :
    (∃ s1, stm32f1xx_dma_write s 0 v = some s1 ∧ stm32f1xx_dma_read s1 0 = some v ∧
      s1.ifcr = s.ifcr) ∧
    (∃ s1, stm32f1xx_dma_write s 4 v = some s1 ∧ stm32f1xx_dma_read s1 4 = some v ∧
      s1.isr = s.isr) := by
  have hv32 := and_u32_of_lt v hv
  constructor
  · refine ⟨_, write_isr s v, ?_, rfl⟩
    rw [read_isr]
    exact congrArg some hv32
  · refine ⟨_, write_ifcr s v, ?_, rfl⟩
    rw [read_ifcr]
    exact congrArg some hv32

/-- Witness of C11: the value `0xFFFFFFFF` written over non-zero `isr` and
`ifcr`. -/
theorem isr_ifcr_passthrough_witness :
    (∃ s1, stm32f1xx_dma_write scenario_state 0 0xFFFFFFFF = some s1 ∧
      stm32f1xx_dma_read s1 0 = some 0xFFFFFFFF ∧ s1.ifcr = scenario_state.ifcr) ∧
    (∃ s1, stm32f1xx_dma_write scenario_state 4 0xFFFFFFFF = some s1 ∧
      stm32f1xx_dma_read s1 4 = some 0xFFFFFFFF ∧ s1.isr = scenario_state.isr) :=
  isr_ifcr_passthrough scenario_state 0xFFFFFFFF (by decide)

/-- C12: for a valid channel `c` and an offset of its 20-byte block that is
none of the four registers (sub-offset other than 0, 4, 8, 12; for instance
16), a read returns 0 and a write returns the controller state unchanged. -/
theorem unknown_sub_offset (s : STM32F1XXDMAState) (c sub v : Nat)
    (hc : c < s.channel_count) (hcc : s.channel_count ≤ 7) (hsub : sub < 20)
    (h0 : sub ≠ 0) (h4 : sub ≠ 4) (h8 : sub ≠ 8) (h12 : sub ≠ 12) :
    stm32f1xx_dma_read s (8 + 20 * c + sub) = some 0 ∧
      stm32f1xx_dma_write s (8 + 20 * c + sub) v = some s := by
  have hc7 : c < 7 := by omega
  constructor
  · rw [read_block s c sub hc hc7 hsub, if_neg h0, if_neg h4, if_neg h8, if_neg h12]
  · rw [write_block s c sub v hc hc7 hsub, if_neg h0, if_neg h4, if_neg h8, if_neg h12]

/-- Witness of C12: sub-offset 16 of channel 3. -/
theorem unknown_sub_offset_witness :
    stm32f1xx_dma_read scenario_state (8 + 20 * 3 + 16) = some 0 ∧
      stm32f1xx_dma_write scenario_state (8 + 20 * 3 + 16) 0xDEADBEEF = some scenario_state :=
  unknown_sub_offset scenario_state 3 16 0xDEADBEEF (by decide) (by decide) (by decide)
    (by decide) (by decide) (by decide) (by decide)

/-- C17: a register write stores and does nothing else.  A write to a
register of a valid channel `c` (sub-offset 0 = CCR, 4 = CNDTR, 8 = CPAR,
12 = CMAR) leaves `isr`, `ifcr`, `channel_count` and every other channel
unchanged, and leaves every field of channel `c` unchanged except the one
written (for CNDTR: except `cndtr` and `reload_cndtr`).  A write to ISR
changes only `isr`, a write to IFCR only `ifcr`. -/
theorem write_frame (s : STM32F1XXDMAState) (c sub v : Nat)
    (hc : c < s.channel_count) (hcc : s.channel_count ≤ 7)
    (hsub : sub = 0 ∨ sub = 4 ∨ sub = 8 ∨ sub = 12) :
    (∃ s1 ch ch1, stm32f1xx_dma_write s (8 + 20 * c + sub) v = some s1 ∧
      chan_lookup s c = some ch ∧ chan_lookup s1 c = some ch1 ∧
      s1.isr = s.isr ∧ s1.ifcr = s.ifcr ∧ s1.channel_count = s.channel_count ∧
      (∀ j : Fin 7, j.val ≠ c → s1.chan_dma j = s.chan_dma j) ∧
      (sub ≠ 0 → ch1.ccr = ch.ccr) ∧
      (sub ≠ 4 → ch1.cndtr = ch.cndtr ∧ ch1.reload_cndtr = ch.reload_cndtr) ∧
      (sub ≠ 8 → ch1.cpar = ch.cpar) ∧
      (sub ≠ 12 → ch1.cmar = ch.cmar)) ∧
    (∃ s1, stm32f1xx_dma_write s 0 v = some s1 ∧ s1.ifcr = s.ifcr ∧
      s1.channel_count = s.channel_count ∧ s1.chan_dma = s.chan_dma) ∧
    (∃ s1, stm32f1xx_dma_write s 4 v = some s1 ∧ s1.isr = s.isr ∧
      s1.channel_count = s.channel_count ∧ s1.chan_dma = s.chan_dma) := by
  have hc7 : c < 7 := by omega
  have hother : ∀ (x : STM32F1XXDMAChan) (j : Fin 7), j.val ≠ c →
      (set_chan s ⟨c, hc7⟩ x).chan_dma j = s.chan_dma j := by
    intro x j hj
    exact set_chan_other s ⟨c, hc7⟩ j x (fun h => hj (by rw [h]))
  refine ⟨?_, ⟨_, write_isr s v, rfl, rfl, rfl⟩, ⟨_, write_ifcr s v, rfl, rfl, rfl⟩⟩
  rw [write_block s c sub v hc hc7 (by omega)]
  rcases hsub with h | h | h | h <;> subst h
  · exact ⟨_, _, _, rfl, chan_lookup_lt s c hc7, chan_lookup_set_chan s c hc7 _, rfl, rfl, rfl,
      hother _, fun h => absurd rfl h, fun _ => ⟨rfl, rfl⟩, fun _ => rfl, fun _ => rfl⟩
  · exact ⟨_, _, _, rfl, chan_lookup_lt s c hc7, chan_lookup_set_chan s c hc7 _, rfl, rfl, rfl,
      hother _, fun _ => rfl, fun h => absurd rfl h, fun _ => rfl, fun _ => rfl⟩
  · exact ⟨_, _, _, rfl, chan_lookup_lt s c hc7, chan_lookup_set_chan s c hc7 _, rfl, rfl, rfl,
      hother _, fun _ => rfl, fun _ => ⟨rfl, rfl⟩, fun h => absurd rfl h, fun _ => rfl⟩
  · exact ⟨_, _, _, rfl, chan_lookup_lt s c hc7, chan_lookup_set_chan s c hc7 _, rfl, rfl, rfl,
      hother _, fun _ => rfl, fun _ => ⟨rfl, rfl⟩, fun _ => rfl, fun h => absurd rfl h⟩

/-- Witness of C17: a write to CPAR of channel 2. -/
theorem write_frame_witness :
    ∃ s1 ch ch1, stm32f1xx_dma_write scenario_state (8 + 20 * 2 + 8) 0x1000 = some s1 ∧
      chan_lookup scenario_state 2 = some ch ∧ chan_lookup s1 2 = some ch1 ∧
      s1.isr = scenario_state.isr ∧ s1.ifcr = scenario_state.ifcr ∧
      s1.channel_count = scenario_state.channel_count ∧
      (∀ j : Fin 7, j.val ≠ 2 → s1.chan_dma j = scenario_state.chan_dma j) ∧
      ((8 : Nat) ≠ 0 → ch1.ccr = ch.ccr) ∧
      ((8 : Nat) ≠ 4 → ch1.cndtr = ch.cndtr ∧ ch1.reload_cndtr = ch.reload_cndtr) ∧
      ((8 : Nat) ≠ 8 → ch1.cpar = ch.cpar) ∧
      ((8 : Nat) ≠ 12 → ch1.cmar = ch.cmar) :=
  (write_frame scenario_state 2 8 0x1000 (by decide) (by decide) (by decide)).1

/-! ## Anatomy of an accepted request -/

/-- The element move written with the source and destination of the request. -/
theorem transfer_mem_eq (chan : STM32F1XXDMAChan) (mem : Mem) (mmask0 pmask0 : Nat) :
    transfer_mem chan mem mmask0 pmask0 =
      stl_le_phys mem (request_dst_addr chan mmask0 pmask0)
        (merge_src (request_src_size chan)
          (clear_dst (request_dst_size chan)
            (ldl_le_phys mem (request_dst_addr chan mmask0 pmask0)))
          (ldl_le_phys mem (request_src_addr chan mmask0 pmask0))) := by
  unfold transfer_mem request_dst_addr request_src_addr request_src_size request_dst_size
    periph_addr memory_addr ccr_dir ccr_psize ccr_msize
  by_cases hd : (chan.ccr &&& DMA_CCR_DIR) % 2 ^ 8 ≠ 0
  · simp only [if_pos hd]
  · simp only [if_neg hd]

theorem ccr_dir_ne_zero_iff (ccr : Nat) : ccr_dir ccr ≠ 0 ↔ ccr &&& DMA_CCR_DIR ≠ 0 := by
  have hle : ccr &&& DMA_CCR_DIR ≤ 16 := Nat.and_le_right
  unfold ccr_dir
  omega

theorem ldl_stl_same (mem : Mem) (a v : Nat) (hv : v < 2 ^ 32) :
    ldl_le_phys (stl_le_phys mem a v) a = v := by
  unfold ldl_le_phys stl_le_phys
  rw [if_pos rfl, if_neg (by omega), if_pos rfl, if_neg (by omega), if_neg (by omega),
    if_pos rfl, if_neg (by omega), if_neg (by omega), if_neg (by omega), if_pos rfl]
  simp only [byte_of]
  omega

theorem merge_eq_spec (ds ss d x : Nat)
    (hds : ds = DMA_DATASIZE_8 ∨ ds = DMA_DATASIZE_16 ∨ ds = DMA_DATASIZE_32)
    (hss : ss = DMA_DATASIZE_8 ∨ ss = DMA_DATASIZE_16 ∨ ss = DMA_DATASIZE_32) :
    merge_src ss (clear_dst ds d) x = narrow_merge_spec ds ss d x := by
  rcases hds with h | h | h <;> rcases hss with g | g | g <;> subst h <;> subst g <;> rfl

theorem and_mask_FFFFFFFE (a : Nat) (ha : a < 2 ^ 32) : a &&& 0xFFFFFFFE = a - a % 2 := by
  have h := and_high_mask a 1 31 (by simpa using ha)
  norm_num at h
  rw [h]
  omega

theorem and_mask_FFFFFFFC (a : Nat) (ha : a < 2 ^ 32) : a &&& 0xFFFFFFFC = a - a % 4 := by
  have h := and_high_mask a 2 30 (by simpa using ha)
  norm_num at h
  rw [h]
  omega

theorem narrow_merge_spec_lt (ds ss d x : Nat) (hd : d < 2 ^ 32) (hx : x < 2 ^ 32) :
    narrow_merge_spec ds ss d x < 2 ^ 32 :=
  Nat.or_lt_two_pow (lt_of_le_of_lt Nat.and_le_left hd) (lt_of_le_of_lt Nat.and_le_left hx)

/-- C18: for an accepted request whose peripheral and memory element sizes
are byte, halfword or word, the memory after the request is the memory before
with the 32-bit value `(D and not low(dst_size)) or (S and low(src_size))`
stored at the destination address, where `S` and `D` are the words loaded at
the source and destination addresses; a load at the destination afterwards
returns exactly that value. -/
theorem stored_value_formula (s : STM32F1XXDMAState) (mem : Mem) (c level : Int)
    (mmask0 pmask0 : Nat) (ch : STM32F1XXDMAChan) (h0 : 0 ≤ c)
    (hcc : c < (s.channel_count : Int)) (hl : chan_lookup s c.toNat = some ch)
    (hen : ch.ccr &&& DMA_CCR_EN ≠ 0) (hn : ch.cndtr ≠ 0)
    (hps : ccr_psize ch.ccr = DMA_DATASIZE_8 ∨ ccr_psize ch.ccr = DMA_DATASIZE_16 ∨
      ccr_psize ch.ccr = DMA_DATASIZE_32)
    (hms : ccr_msize ch.ccr = DMA_DATASIZE_8 ∨ ccr_msize ch.ccr = DMA_DATASIZE_16 ∨
      ccr_msize ch.ccr = DMA_DATASIZE_32) :
    ∃ s1 m1, handle_dma_request s mem c level mmask0 pmask0 = some (s1, m1) ∧
      m1 = stl_le_phys mem (request_dst_addr ch mmask0 pmask0)
        (narrow_merge_spec (request_dst_size ch) (request_src_size ch)
          (ldl_le_phys mem (request_dst_addr ch mmask0 pmask0))
          (ldl_le_phys mem (request_src_addr ch mmask0 pmask0))) ∧
      ldl_le_phys m1 (request_dst_addr ch mmask0 pmask0) =
        narrow_merge_spec (request_dst_size ch) (request_src_size ch)
          (ldl_le_phys mem (request_dst_addr ch mmask0 pmask0))
          (ldl_le_phys mem (request_src_addr ch mmask0 pmask0)) := by
  obtain ⟨hi, hacc⟩ := handle_dma_request_accepted s mem c level mmask0 pmask0 ch h0 hcc hl hen hn
  have hds : request_dst_size ch = DMA_DATASIZE_8 ∨ request_dst_size ch = DMA_DATASIZE_16 ∨
      request_dst_size ch = DMA_DATASIZE_32 := by
    unfold request_dst_size
    split
    · exact hps
    · exact hms
  have hss : request_src_size ch = DMA_DATASIZE_8 ∨ request_src_size ch = DMA_DATASIZE_16 ∨
      request_src_size ch = DMA_DATASIZE_32 := by
    unfold request_src_size
    split
    · exact hms
    · exact hps
  have hmem := transfer_mem_eq ch mem mmask0 pmask0
  rw [merge_eq_spec _ _ _ _ hds hss] at hmem
  refine ⟨_, _, hacc, hmem, ?_⟩
  rw [hmem]
  exact ldl_stl_same mem _ _
    (narrow_merge_spec_lt _ _ _ _ (ldl_le_phys_lt mem _) (ldl_le_phys_lt mem _))

/-- Witness of C18: the request of `wide_source_state` (word source, byte
destination). -/
theorem stored_value_formula_witness :
    ∃ s1 m1, handle_dma_request wide_source_state wide_source_mem 0 1 0 0 = some (s1, m1) ∧
      m1 = stl_le_phys wide_source_mem (request_dst_addr ⟨0x811, 1, 1, 0x1000, 0x2000⟩ 0 0)
        (narrow_merge_spec (request_dst_size ⟨0x811, 1, 1, 0x1000, 0x2000⟩)
          (request_src_size ⟨0x811, 1, 1, 0x1000, 0x2000⟩)
          (ldl_le_phys wide_source_mem (request_dst_addr ⟨0x811, 1, 1, 0x1000, 0x2000⟩ 0 0))
          (ldl_le_phys wide_source_mem (request_src_addr ⟨0x811, 1, 1, 0x1000, 0x2000⟩ 0 0))) ∧
      ldl_le_phys m1 (request_dst_addr ⟨0x811, 1, 1, 0x1000, 0x2000⟩ 0 0) =
        narrow_merge_spec (request_dst_size ⟨0x811, 1, 1, 0x1000, 0x2000⟩)
          (request_src_size ⟨0x811, 1, 1, 0x1000, 0x2000⟩)
          (ldl_le_phys wide_source_mem (request_dst_addr ⟨0x811, 1, 1, 0x1000, 0x2000⟩ 0 0))
          (ldl_le_phys wide_source_mem (request_src_addr ⟨0x811, 1, 1, 0x1000, 0x2000⟩ 0 0)) :=
  stored_value_formula wide_source_state wide_source_mem 0 1 0 0 ⟨0x811, 1, 1, 0x1000, 0x2000⟩
    (by decide) (by decide) rfl (by decide) (by decide) (by decide) (by decide)

theorem addr_mask_8 (junk : Nat) : addr_mask DMA_DATASIZE_8 junk = 0xFFFFFFFF := rfl

theorem addr_mask_16 (junk : Nat) : addr_mask DMA_DATASIZE_16 junk = 0xFFFFFFFE := rfl

theorem addr_mask_32 (junk : Nat) : addr_mask DMA_DATASIZE_32 junk = 0xFFFFFFFC := rfl

/-- C19: for an accepted request on a channel with registers `ch` (the values
before the request).  The effective peripheral address is `cpar` for byte
size, `cpar` with bit 0 cleared for halfword and with bits 0-1 cleared for
word, and likewise the effective memory address from `cmar` and the memory
size.  With the direction bit set the word is loaded from the effective
memory address and merged and stored at the effective peripheral address;
with the bit clear it is loaded from the effective peripheral address and
stored at the effective memory address. -/
theorem effective_addresses (s : STM32F1XXDMAState) (mem : Mem) (c level : Int)
    (mmask0 pmask0 : Nat) (ch : STM32F1XXDMAChan) (h0 : 0 ≤ c)
    (hcc : c < (s.channel_count : Int)) (hl : chan_lookup s c.toNat = some ch)
    (hen : ch.ccr &&& DMA_CCR_EN ≠ 0) (hn : ch.cndtr ≠ 0)
    (hp : ch.cpar < 2 ^ 32) (hm : ch.cmar < 2 ^ 32) :
    (ccr_psize ch.ccr = DMA_DATASIZE_8 → periph_addr ch pmask0 = ch.cpar) ∧
    (ccr_psize ch.ccr = DMA_DATASIZE_16 → periph_addr ch pmask0 = ch.cpar - ch.cpar % 2) ∧
    (ccr_psize ch.ccr = DMA_DATASIZE_32 → periph_addr ch pmask0 = ch.cpar - ch.cpar % 4) ∧
    (ccr_msize ch.ccr = DMA_DATASIZE_8 → memory_addr ch mmask0 = ch.cmar) ∧
    (ccr_msize ch.ccr = DMA_DATASIZE_16 → memory_addr ch mmask0 = ch.cmar - ch.cmar % 2) ∧
    (ccr_msize ch.ccr = DMA_DATASIZE_32 → memory_addr ch mmask0 = ch.cmar - ch.cmar % 4) ∧
    (ch.ccr &&& DMA_CCR_DIR ≠ 0 →
      ∃ s1, handle_dma_request s mem c level mmask0 pmask0 =
        some (s1, stl_le_phys mem (periph_addr ch pmask0)
          (merge_src (ccr_msize ch.ccr)
            (clear_dst (ccr_psize ch.ccr) (ldl_le_phys mem (periph_addr ch pmask0)))
            (ldl_le_phys mem (memory_addr ch mmask0))))) ∧
    (ch.ccr &&& DMA_CCR_DIR = 0 →
      ∃ s1, handle_dma_request s mem c level mmask0 pmask0 =
        some (s1, stl_le_phys mem (memory_addr ch mmask0)
          (merge_src (ccr_psize ch.ccr)
            (clear_dst (ccr_msize ch.ccr) (ldl_le_phys mem (memory_addr ch mmask0)))
            (ldl_le_phys mem (periph_addr ch pmask0))))) := by
  obtain ⟨hi, hacc⟩ := handle_dma_request_accepted s mem c level mmask0 pmask0 ch h0 hcc hl hen hn
  have hmem := transfer_mem_eq ch mem mmask0 pmask0
  refine ⟨?_, ?_, ?_, ?_, ?_, ?_, ?_, ?_⟩
  · intro h
    unfold periph_addr
    rw [h, addr_mask_8, and_u32_of_lt _ hp]
  · intro h
    unfold periph_addr
    rw [h, addr_mask_16, and_mask_FFFFFFFE _ hp]
  · intro h
    unfold periph_addr
    rw [h, addr_mask_32, and_mask_FFFFFFFC _ hp]
  · intro h
    unfold memory_addr
    rw [h, addr_mask_8, and_u32_of_lt _ hm]
  · intro h
    unfold memory_addr
    rw [h, addr_mask_16, and_mask_FFFFFFFE _ hm]
  · intro h
    unfold memory_addr
    rw [h, addr_mask_32, and_mask_FFFFFFFC _ hm]
  · intro hd
    have hd1 : ccr_dir ch.ccr ≠ 0 := (ccr_dir_ne_zero_iff ch.ccr).mpr hd
    unfold request_dst_addr request_src_addr request_src_size request_dst_size at hmem
    simp only [if_pos hd1] at hmem
    rw [hmem] at hacc
    exact ⟨_, hacc⟩
  · intro hd
    have hd1 : ¬ ccr_dir ch.ccr ≠ 0 := fun h => (ccr_dir_ne_zero_iff ch.ccr).mp h hd
    unfold request_dst_addr request_src_addr request_src_size request_dst_size at hmem
    simp only [if_neg hd1] at hmem
    rw [hmem] at hacc
    exact ⟨_, hacc⟩

/-- Witness of C19: a halfword-to-word request from the peripheral side
(`cpar = 0x1003`) to the memory side (`cmar = 0x2007`). -/
theorem effective_addresses_witness :
    periph_addr ⟨0x901, 1, 1, 0x1003, 0x2007⟩ 0 = 0x1003 - 0x1003 % 2 ∧
    memory_addr ⟨0x901, 1, 1, 0x1003, 0x2007⟩ 0 = 0x2007 - 0x2007 % 4 ∧
    ∃ s1, handle_dma_request ⟨7, fun _ => ⟨0x901, 1, 1, 0x1003, 0x2007⟩, 0, 0⟩ scenario_mem 0 1 0 0
      = some (s1, stl_le_phys scenario_mem (memory_addr ⟨0x901, 1, 1, 0x1003, 0x2007⟩ 0)
          (merge_src (ccr_psize 0x901)
            (clear_dst (ccr_msize 0x901)
              (ldl_le_phys scenario_mem (memory_addr ⟨0x901, 1, 1, 0x1003, 0x2007⟩ 0)))
            (ldl_le_phys scenario_mem (periph_addr ⟨0x901, 1, 1, 0x1003, 0x2007⟩ 0)))) :=
  have h := effective_addresses ⟨7, fun _ => ⟨0x901, 1, 1, 0x1003, 0x2007⟩, 0, 0⟩ scenario_mem 0 1
    0 0 ⟨0x901, 1, 1, 0x1003, 0x2007⟩ (by decide) (by decide) rfl (by decide) (by decide)
    (by decide) (by decide)
  ⟨h.2.1 (by decide), h.2.2.2.2.2.1 (by decide), h.2.2.2.2.2.2.2 (by decide)⟩

theorem handle_dma_request_eq_target (s : STM32F1XXDMAState) (mem : Mem) (c level : Int)
    (mmask0 pmask0 : Nat) :
    handle_dma_request s mem c level mmask0 pmask0 =
      (request_target s c).map fun o =>
        match o with
        | none => (s, mem)
        | some (i, ch) => (set_chan s i (advance_chan ch), transfer_mem ch mem mmask0 pmask0) := by
  unfold handle_dma_request request_target
  by_cases hg : c < 0 ∨ c ≥ (s.channel_count : Int)
  · rw [if_pos hg, if_pos hg]
    rfl
  · rw [if_neg hg, if_neg hg]
    by_cases hi : c.toNat < 7
    · rw [chan_lookup_lt s _ hi, dif_pos hi]
      dsimp only
      by_cases hen : 0 = (s.chan_dma ⟨c.toNat, hi⟩).ccr &&& DMA_CCR_EN
      · rw [if_pos hen, if_pos hen]
        rfl
      · rw [if_neg hen, if_neg hen]
        by_cases hn : 0 = (s.chan_dma ⟨c.toNat, hi⟩).cndtr
        · rw [if_pos hn, if_pos hn]
          rfl
        · rw [if_neg hn, if_neg hn, chan_store_lt s _ hi]
          rfl
    · have hnone : chan_lookup s c.toNat = none := by
        unfold chan_lookup
        rw [dif_neg hi]
      rw [hnone, dif_neg hi]
      rfl

theorem request_target_accepted {s : STM32F1XXDMAState} {c : Int} {i : Fin 7}
    {ch : STM32F1XXDMAChan} (h : request_target s c = some (some (i, ch))) :
    0 ≤ c ∧ i.val = c.toNat ∧ ch = s.chan_dma i := by
  unfold request_target at h
  by_cases hg : c < 0 ∨ c ≥ (s.channel_count : Int)
  · rw [if_pos hg] at h
    cases h
  · rw [if_neg hg] at h
    by_cases hi : c.toNat < 7
    · rw [dif_pos hi] at h
      by_cases hen : 0 = (s.chan_dma ⟨c.toNat, hi⟩).ccr &&& DMA_CCR_EN
      · rw [if_pos hen] at h
        cases h
      · rw [if_neg hen] at h
        by_cases hn : 0 = (s.chan_dma ⟨c.toNat, hi⟩).cndtr
        · rw [if_pos hn] at h
          cases h
        · rw [if_neg hn] at h
          cases h
          exact ⟨by omega, rfl, rfl⟩
    · rw [dif_neg hi] at h
      cases h

/-- A register update of one array entry does not change how a request to a
different channel is classified. -/
theorem request_target_set_chan (s : STM32F1XXDMAState) (c : Int) (i : Fin 7)
    (x : STM32F1XXDMAChan) (h : c < 0 ∨ i.val ≠ c.toNat) :
    request_target (set_chan s i x) c = request_target s c := by
  unfold request_target
  rw [set_chan_channel_count]
  by_cases hg : c < 0 ∨ c ≥ (s.channel_count : Int)
  · rw [if_pos hg, if_pos hg]
  · rw [if_neg hg, if_neg hg]
    have hne : i.val ≠ c.toNat := by
      rcases h with h | h
      · exact absurd (Or.inl h) hg
      · exact h
    by_cases hi : c.toNat < 7
    · rw [dif_pos hi, dif_pos hi,
        set_chan_other s i ⟨c.toNat, hi⟩ x (fun e => hne (by rw [← e]))]
    · rw [dif_neg hi, dif_neg hi]

theorem stl_other (mem : Mem) (d v x : Nat) (hx : x < d ∨ d + 4 ≤ x) :
    stl_le_phys mem d v x = mem x := by
  unfold stl_le_phys
  rw [if_neg (by omega), if_neg (by omega), if_neg (by omega), if_neg (by omega)]

theorem ldl_stl_disjoint (mem : Mem) (d v a : Nat) (h : windows_disjoint d a) :
    ldl_le_phys (stl_le_phys mem d v) a = ldl_le_phys mem a := by
  unfold windows_disjoint at h
  unfold ldl_le_phys
  rw [stl_other mem d v a (by omega), stl_other mem d v (a + 1) (by omega),
    stl_other mem d v (a + 2) (by omega), stl_other mem d v (a + 3) (by omega)]

theorem stl_stl_comm (mem : Mem) (d1 v1 d2 v2 : Nat) (h : windows_disjoint d1 d2) :
    stl_le_phys (stl_le_phys mem d1 v1) d2 v2 = stl_le_phys (stl_le_phys mem d2 v2) d1 v1 := by
  unfold windows_disjoint at h
  funext x
  by_cases hx1 : x < d1 ∨ d1 + 4 ≤ x
  · rw [stl_other (stl_le_phys mem d2 v2) d1 v1 x hx1]
    by_cases hx2 : x < d2 ∨ d2 + 4 ≤ x
    · rw [stl_other _ d2 v2 x hx2, stl_other _ d2 v2 x hx2, stl_other _ d1 v1 x hx1]
    · unfold stl_le_phys
      split_ifs <;> first | rfl | omega
  · have hx2 : x < d2 ∨ d2 + 4 ≤ x := by omega
    rw [stl_other (stl_le_phys mem d1 v1) d2 v2 x hx2]
    unfold stl_le_phys
    split_ifs <;> first | rfl | omega

theorem windows_disjoint_symm {a b : Nat} (h : windows_disjoint a b) : windows_disjoint b a :=
  Or.symm h

/-- Element moves of two requests commute when the destination window of each
is disjoint from the source and destination windows of the other. -/
theorem transfer_mem_comm (ch1 ch2 : STM32F1XXDMAChan) (mem : Mem) (mm1 pm1 mm2 pm2 : Nat)
    (hdd : windows_disjoint (request_dst_addr ch1 mm1 pm1) (request_dst_addr ch2 mm2 pm2))
    (hds : windows_disjoint (request_dst_addr ch1 mm1 pm1) (request_src_addr ch2 mm2 pm2))
    (hsd : windows_disjoint (request_dst_addr ch2 mm2 pm2) (request_src_addr ch1 mm1 pm1)) :
    transfer_mem ch2 (transfer_mem ch1 mem mm1 pm1) mm2 pm2 =
      transfer_mem ch1 (transfer_mem ch2 mem mm2 pm2) mm1 pm1 := by
  rw [transfer_mem_eq ch2 (transfer_mem ch1 mem mm1 pm1),
    transfer_mem_eq ch1 (transfer_mem ch2 mem mm2 pm2),
    transfer_mem_eq ch1 mem, transfer_mem_eq ch2 mem,
    ldl_stl_disjoint mem _ _ _ hdd, ldl_stl_disjoint mem _ _ _ hds,
    ldl_stl_disjoint mem _ _ _ (windows_disjoint_symm hdd), ldl_stl_disjoint mem _ _ _ hsd,
    stl_stl_comm mem _ _ _ _ hdd]

theorem request_target_other {s : STM32F1XXDMAState} {c1 c2 : Int} {i2 : Fin 7}
    {ch2 : STM32F1XXDMAChan} (hne : c1 ≠ c2)
    (h2 : request_target s c2 = some (some (i2, ch2))) (x : STM32F1XXDMAChan) :
    request_target (set_chan s i2 x) c1 = request_target s c1 := by
  obtain ⟨h0, hi, _⟩ := request_target_accepted h2
  apply request_target_set_chan
  by_cases hc : c1 < 0
  · exact Or.inl hc
  · right
    rw [hi]
    omega

theorem set_chan_comm (s : STM32F1XXDMAState) (i j : Fin 7) (a b : STM32F1XXDMAChan)
    (h : i ≠ j) : set_chan (set_chan s i a) j b = set_chan (set_chan s j b) i a := by
  unfold set_chan
  simp only [Function.update_comm h]

/-- Over the flat memory, where no store reaches the registers: for two
different channel indices the two orders of the requests give the same
controller registers (and fail in the same cases); they give the same memory
as well whenever, both requests being accepted, the 4-byte destination window
of each is disjoint from the source and destination windows of the other. -/
theorem requests_commute_flat (s : STM32F1XXDMAState) (mem : Mem) (c1 c2 : Int)
    (r1 r2 : Int × Nat × Nat) (hne : c1 ≠ c2) :
    (two_requests s mem c1 r1 c2 r2).map Prod.fst
        = (two_requests s mem c2 r2 c1 r1).map Prod.fst ∧
    ((∀ i1 ch1 i2 ch2, request_target s c1 = some (some (i1, ch1)) →
        request_target s c2 = some (some (i2, ch2)) →
        windows_disjoint (request_dst_addr ch1 r1.2.1 r1.2.2) (request_dst_addr ch2 r2.2.1 r2.2.2) ∧
        windows_disjoint (request_dst_addr ch1 r1.2.1 r1.2.2) (request_src_addr ch2 r2.2.1 r2.2.2) ∧
        windows_disjoint (request_dst_addr ch2 r2.2.1 r2.2.2) (request_src_addr ch1 r1.2.1 r1.2.2)) →
      two_requests s mem c1 r1 c2 r2 = two_requests s mem c2 r2 c1 r1) := by
  unfold two_requests
  simp only [handle_dma_request_eq_target]
  rcases h1 : request_target s c1 with _ | (_ | ⟨i1, ch1⟩) <;>
    rcases h2 : request_target s c2 with _ | (_ | ⟨i2, ch2⟩)
  · exact ⟨rfl, fun _ => rfl⟩
  · simp only [Option.map_none', Option.map_some', Option.none_bind, Option.some_bind, h1,
      implies_true, and_self]
  · simp only [Option.map_none', Option.map_some', Option.none_bind, Option.some_bind,
      request_target_other hne h2, h1, implies_true, and_self]
  · simp only [Option.map_none', Option.map_some', Option.none_bind, Option.some_bind, h2,
      implies_true, and_self]
  · simp only [Option.map_none', Option.map_some', Option.none_bind, Option.some_bind, h1, h2,
      implies_true, and_self]
  · simp only [Option.map_none', Option.map_some', Option.none_bind, Option.some_bind,
      request_target_other hne h2, h1, h2, implies_true, and_self]
  · simp only [Option.map_none', Option.map_some', Option.none_bind, Option.some_bind,
      request_target_other hne.symm h1, h2, implies_true, and_self]
  · simp only [Option.map_none', Option.map_some', Option.none_bind, Option.some_bind,
      request_target_other hne.symm h1, h1, h2, implies_true, and_self]
  · obtain ⟨h10, hi1, _⟩ := request_target_accepted h1
    obtain ⟨h20, hi2, _⟩ := request_target_accepted h2
    have hij : i1 ≠ i2 := by
      intro e
      apply hne
      have : c1.toNat = c2.toNat := by rw [← hi1, ← hi2, e]
      omega
    simp only [Option.map_none', Option.map_some', Option.none_bind, Option.some_bind,
      request_target_other hne.symm h1, request_target_other hne h2, h1, h2]
    refine ⟨congrArg some (set_chan_comm s i1 i2 _ _ hij), ?_⟩
    intro hdis
    obtain ⟨hdd, hds, hsd⟩ := hdis i1 ch1 i2 ch2 rfl rfl
    rw [set_chan_comm s i1 i2 _ _ hij, transfer_mem_comm ch1 ch2 mem _ _ _ _ hdd hds hsd]

/-- C13 (counterexample): in `shared_location_state` channel 1 reads the
location channel 0 writes.  Request 0 then request 1 leaves the byte 1 at
`0x3000`; request 1 then request 0 leaves the byte 0 there. -/
theorem requests_do_not_commute :
    (two_requests shared_location_state scenario_mem 0 (1, 0, 0) 1 (1, 0, 0)).map
        (fun r => r.2 0x3000) = some 1 ∧
    (two_requests shared_location_state scenario_mem 1 (1, 0, 0) 0 (1, 0, 0)).map
        (fun r => r.2 0x3000) = some 0 ∧
    two_requests shared_location_state scenario_mem 0 (1, 0, 0) 1 (1, 0, 0)
      ≠ two_requests shared_location_state scenario_mem 1 (1, 0, 0) 0 (1, 0, 0) := by
  have h1 : (two_requests shared_location_state scenario_mem 0 (1, 0, 0) 1 (1, 0, 0)).map
      (fun r => r.2 0x3000) = some 1 := by decide
  have h2 : (two_requests shared_location_state scenario_mem 1 (1, 0, 0) 0 (1, 0, 0)).map
      (fun r => r.2 0x3000) = some 0 := by decide
  refine ⟨h1, h2, ?_⟩
  intro e
  rw [e, h2] at h1
  cases h1

/-! ## Snapshot: field order and restore -/

theorem get_set_same (t : STM32F1XXDMAState) (f : SnapshotField) (v : Nat) :
    get_field (set_field t f v) f = v := by
  cases f with
  | chan i cf => cases cf <;> simp only [set_field, get_field, set_chan_same]
  | isr => rfl
  | ifcr => rfl
  | channel_count => rfl

theorem get_set_other (t : STM32F1XXDMAState) (f g : SnapshotField) (v : Nat) (h : g ≠ f) :
    get_field (set_field t f v) g = get_field t g := by
  cases f with
  | chan i cf =>
    cases g with
    | chan j cg =>
      by_cases hij : j = i
      · subst hij
        cases cf <;> cases cg <;>
          first
          | exact absurd rfl h
          | simp only [set_field, get_field, set_chan_same]
      · cases cf <;> cases cg <;>
          simp only [set_field, get_field, set_chan_other _ _ _ _ hij]
    | isr => cases cf <;> rfl
    | ifcr => cases cf <;> rfl
    | channel_count => cases cf <;> rfl
  | isr =>
    cases g with
    | chan j cg => cases cg <;> rfl
    | isr => exact absurd rfl h
    | ifcr => rfl
    | channel_count => rfl
  | ifcr =>
    cases g with
    | chan j cg => cases cg <;> rfl
    | isr => rfl
    | ifcr => exact absurd rfl h
    | channel_count => rfl
  | channel_count =>
    cases g with
    | chan j cg => cases cg <;> rfl
    | isr => rfl
    | ifcr => rfl
    | channel_count => exact absurd rfl h

theorem load_fields_get (s : STM32F1XXDMAState) (fs : List SnapshotField) :
    ∀ t : STM32F1XXDMAState, ∃ t1,
      load_fields fs t (fs.map (get_field s)) = some t1 ∧
      ∀ g, get_field t1 g = if g ∈ fs then get_field s g else get_field t g := by
  induction fs with
  | nil =>
    intro t
    exact ⟨t, rfl, fun g => by simp⟩
  | cons f fs ih =>
    intro t
    obtain ⟨t1, hload, hget⟩ := ih (set_field t f (get_field s f))
    refine ⟨t1, ?_, ?_⟩
    · rw [List.map_cons]
      exact hload
    · intro g
      rw [hget g]
      by_cases hg : g ∈ fs
      · rw [if_pos hg, if_pos (List.mem_cons_of_mem f hg)]
      · rw [if_neg hg]
        by_cases hgf : g = f
        · subst hgf
          rw [if_pos (List.mem_cons_self _ _), get_set_same]
        · rw [get_set_other _ _ _ _ hgf, if_neg]
          intro hmem
          rcases List.mem_cons.mp hmem with h | h
          · exact hgf h
          · exact hg h

theorem state_eq_of_fields (a b : STM32F1XXDMAState)
    (h : ∀ g, get_field a g = get_field b g) : a = b := by
  cases a with
  | mk ca da ia fa =>
    cases b with
    | mk cb db ib fb =>
      have hc : ca = cb := h .channel_count
      have hi : ia = ib := h .isr
      have hf : fa = fb := h .ifcr
      have hd : da = db := by
        funext i
        have h1 := h (.chan i .ccr)
        have h2 := h (.chan i .cndtr)
        have h3 := h (.chan i .reload_cndtr)
        have h4 := h (.chan i .cpar)
        have h5 := h (.chan i .cmar)
        simp only [get_field] at h1 h2 h3 h4 h5
        cases hx : da i
        cases hy : db i
        rw [hx, hy] at h1 h2 h3 h4 h5
        simp only at h1 h2 h3 h4 h5
        subst h1 h2 h3 h4 h5
        rfl
      subst hc hi hf hd
      rfl

theorem mem_vmstate_field_order (g : SnapshotField) : g ∈ vmstate_field_order := by
  cases g with
  | chan i f => cases f <;> fin_cases i <;> decide
  | isr => decide
  | ifcr => decide
  | channel_count => decide

theorem get_field_lt (s : STM32F1XXDMAState) (hs : s.WF) (f : SnapshotField) :
    get_field s f < 2 ^ field_bits f := by
  obtain ⟨hc, hi, hf, hd⟩ := hs
  cases f with
  | chan i cf =>
    obtain ⟨h1, h2, h3, h4, h5⟩ := hd i
    cases cf
    · exact h1
    · exact h2
    · exact h3
    · exact h4
    · exact h5
  | isr => exact hi
  | ifcr => exact hf
  | channel_count => exact hc

theorem vmstate_roundtrip (s t : STM32F1XXDMAState) (hs : s.WF) :
    vmstate_load t (vmstate_save s) = some s := by
  have hsave : vmstate_save s = vmstate_field_order.map (get_field s) := by
    unfold vmstate_save
    apply List.map_congr_left
    intro f _
    exact Nat.mod_eq_of_lt (get_field_lt s hs f)
  obtain ⟨t1, hload, hget⟩ := load_fields_get s vmstate_field_order t
  unfold vmstate_load
  rw [hsave, hload]
  congr 1
  apply state_eq_of_fields
  intro g
  rw [hget g, if_pos (mem_vmstate_field_order g)]

/-- C14 (amended): the snapshot description lists, for each of the seven
channel slots in index order, `ccr, cndtr, reload_cndtr, cpar, cmar`, and
after them `isr`, `ifcr`, `channel_count`; restoring the snapshot of a
controller whose fields fit their widths into any controller reproduces
exactly that controller. -/
theorem snapshot_channels_first :
    vmstate_field_order =
      ((List.finRange 7).flatMap fun i =>
        [SnapshotField.chan i .ccr, .chan i .cndtr, .chan i .reload_cndtr, .chan i .cpar,
          .chan i .cmar]) ++ [.isr, .ifcr, .channel_count] ∧
    ∀ s t : STM32F1XXDMAState, s.WF → vmstate_load t (vmstate_save s) = some s := by
  constructor
  · decide
  · intro s t hs
    exact vmstate_roundtrip s t hs

/-- Witness of C14 (amended): the snapshot of `scenario_state` restored over
`wide_source_state`. -/
theorem snapshot_channels_first_witness :
    vmstate_load wide_source_state (vmstate_save scenario_state) = some scenario_state :=
  snapshot_channels_first.2 scenario_state wide_source_state
    ⟨by decide, by decide, by decide,
      fun _ => ⟨show (0xFFFFFFFF : Nat) < 2 ^ 32 by decide, show (9 : Nat) < 2 ^ 32 by decide,
        show (9 : Nat) < 2 ^ 32 by decide, show (1 : Nat) < 2 ^ 32 by decide,
        show (2 : Nat) < 2 ^ 32 by decide⟩⟩

/-- C14 (counterexample): the order of the description is not the order
`isr, ifcr, channel_count, channels`: the first scalar of the description is
`ccr` of channel 0, and for a controller with `isr = 5` and `ccr = 0xFFFFFFFF`
in channel 0 the snapshot starts with `0xFFFFFFFF`, not with 5. -/
theorem snapshot_order_differs :
    vmstate_field_order ≠ snapshot_order_spec ∧
    vmstate_field_order.head? = some (SnapshotField.chan 0 .ccr) ∧
    snapshot_order_spec.head? = some SnapshotField.isr ∧
    (vmstate_save scenario_state).head? = some 0xFFFFFFFF ∧
    (snapshot_order_spec.map (get_field scenario_state)).head? = some 5 := by
  refine ⟨by decide, by decide, by decide, by decide, by decide⟩

/-! ## Construction -/

/-- C15, evaluated with no memory region linked: `stm32f1xx_dma_realize`
returns without writing `errp` (the caller sees a successful construction),
without initialising the address space and without resetting the registers. -/
theorem realize_without_memory_region (s : STM32F1XXDMAState) :
    (stm32f1xx_dma_realize none s).errp = none ∧
    (stm32f1xx_dma_realize none s).dma_as_bound = false ∧
    (stm32f1xx_dma_realize none s).state = s :=
  ⟨rfl, rfl, rfl⟩

/-- C16 (amended): with a memory region linked, realize reports no error,
initialises the address space and leaves `channel_count` as the
`channel-count` property stored it, whatever the value: no range check is
made.  The two channel counts the SoC uses, 7 and 5, lie between 1 and
`STM32F1XX_DMA_MAXCHANS`. -/
theorem realize_keeps_channel_count (mr : Nat) (s : STM32F1XXDMAState) :
    (stm32f1xx_dma_realize (some mr) s).errp = none ∧
    (stm32f1xx_dma_realize (some mr) s).dma_as_bound = true ∧
    (stm32f1xx_dma_realize (some mr) s).state.channel_count = s.channel_count ∧
    dma_channel_num.all (fun n => decide (1 ≤ n ∧ n ≤ STM32F1XX_DMA_MAXCHANS)) = true :=
  ⟨rfl, rfl, rfl, by decide⟩

/-- C16 (counterexample): with the property set to 0, and with the property
set to 200, realize with a linked memory region reports no error and the
controller has `channel_count` 0, respectively 200. -/
theorem realize_accepts_any_channel_count :
    (stm32f1xx_dma_realize (some 0) ⟨0, fun _ => ⟨0, 0, 0, 0, 0⟩, 0, 0⟩).errp = none ∧
    (stm32f1xx_dma_realize (some 0) ⟨0, fun _ => ⟨0, 0, 0, 0, 0⟩, 0, 0⟩).state.channel_count = 0 ∧
    (stm32f1xx_dma_realize (some 0) ⟨200, fun _ => ⟨0, 0, 0, 0, 0⟩, 0, 0⟩).errp = none ∧
    (stm32f1xx_dma_realize (some 0) ⟨200, fun _ => ⟨0, 0, 0, 0, 0⟩, 0, 0⟩).state.channel_count
      = 200 ∧
    ¬ (1 ≤ (0 : Nat) ∧ (0 : Nat) ≤ 7) ∧ ¬ (1 ≤ (200 : Nat) ∧ (200 : Nat) ≤ 7) := by
  refine ⟨rfl, rfl, rfl, rfl, by decide, by decide⟩

/-! ## Frame of a request -/

theorem merge_src_clear_dst_lt (ss ds d x : Nat) (hd : d < 2 ^ 32) (hx : x < 2 ^ 32) :
    merge_src ss (clear_dst ds d) x < 2 ^ 32 := by
  have hc : clear_dst ds d < 2 ^ 32 := by
    unfold clear_dst
    split_ifs
    · exact lt_of_le_of_lt Nat.and_le_left hd
    · exact lt_of_le_of_lt Nat.and_le_left hd
    · exact lt_of_le_of_lt Nat.and_le_left hd
    · exact hd
  unfold merge_src
  split_ifs
  · exact Nat.or_lt_two_pow hc (lt_of_le_of_lt Nat.and_le_left hx)
  · exact Nat.or_lt_two_pow hc (lt_of_le_of_lt Nat.and_le_left hx)
  · exact Nat.or_lt_two_pow hc (lt_of_le_of_lt Nat.and_le_left hx)
  · exact hc

/-- C21: an accepted request performs one 32-bit store at the masked
destination address: the memory afterwards is the memory before with the
merged word (the destination word cleared by the destination size, the source
word merged in by the source size) stored there.  A load at the destination
address afterwards returns that word, every byte outside the 4 bytes starting
at that address is unchanged, and the source word is unchanged when its
window does not overlap the destination window. -/
theorem one_store_per_request (s : STM32F1XXDMAState) (mem : Mem) (c level : Int)
    (mmask0 pmask0 : Nat) (ch : STM32F1XXDMAChan) (h0 : 0 ≤ c)
    (hcc : c < (s.channel_count : Int)) (hl : chan_lookup s c.toNat = some ch)
    (hen : ch.ccr &&& DMA_CCR_EN ≠ 0) (hn : ch.cndtr ≠ 0) :
    ∃ s1 m1, handle_dma_request s mem c level mmask0 pmask0 = some (s1, m1) ∧
      m1 = stl_le_phys mem (request_dst_addr ch mmask0 pmask0)
        (merge_src (request_src_size ch)
          (clear_dst (request_dst_size ch)
            (ldl_le_phys mem (request_dst_addr ch mmask0 pmask0)))
          (ldl_le_phys mem (request_src_addr ch mmask0 pmask0))) ∧
      ldl_le_phys m1 (request_dst_addr ch mmask0 pmask0) =
        merge_src (request_src_size ch)
          (clear_dst (request_dst_size ch)
            (ldl_le_phys mem (request_dst_addr ch mmask0 pmask0)))
          (ldl_le_phys mem (request_src_addr ch mmask0 pmask0)) ∧
      (∀ x, x < request_dst_addr ch mmask0 pmask0 ∨ request_dst_addr ch mmask0 pmask0 + 4 ≤ x →
        m1 x = mem x) ∧
      (windows_disjoint (request_dst_addr ch mmask0 pmask0) (request_src_addr ch mmask0 pmask0) →
        ldl_le_phys m1 (request_src_addr ch mmask0 pmask0)
          = ldl_le_phys mem (request_src_addr ch mmask0 pmask0)) := by
  obtain ⟨hi, hacc⟩ := handle_dma_request_accepted s mem c level mmask0 pmask0 ch h0 hcc hl hen hn
  rw [transfer_mem_eq] at hacc
  exact ⟨_, _, hacc, rfl,
    ldl_stl_same mem _ _ (merge_src_clear_dst_lt _ _ _ _ (ldl_le_phys_lt _ _) (ldl_le_phys_lt _ _)),
    fun x hx => stl_other mem _ _ x hx, fun hd => ldl_stl_disjoint mem _ _ _ hd⟩

/-- Witness of C21: the request of `wide_source_state`, which stores the word
`0x11223344` found at `0x2000` at the address `0x1000`. -/
theorem one_store_per_request_witness :
    ∃ s1 m1, handle_dma_request wide_source_state wide_source_mem 0 1 0 0 = some (s1, m1) ∧
      m1 = stl_le_phys wide_source_mem (request_dst_addr ⟨0x811, 1, 1, 0x1000, 0x2000⟩ 0 0)
        (merge_src (request_src_size ⟨0x811, 1, 1, 0x1000, 0x2000⟩)
          (clear_dst (request_dst_size ⟨0x811, 1, 1, 0x1000, 0x2000⟩)
            (ldl_le_phys wide_source_mem (request_dst_addr ⟨0x811, 1, 1, 0x1000, 0x2000⟩ 0 0)))
          (ldl_le_phys wide_source_mem (request_src_addr ⟨0x811, 1, 1, 0x1000, 0x2000⟩ 0 0))) ∧
      ldl_le_phys m1 (request_dst_addr ⟨0x811, 1, 1, 0x1000, 0x2000⟩ 0 0) =
        merge_src (request_src_size ⟨0x811, 1, 1, 0x1000, 0x2000⟩)
          (clear_dst (request_dst_size ⟨0x811, 1, 1, 0x1000, 0x2000⟩)
            (ldl_le_phys wide_source_mem (request_dst_addr ⟨0x811, 1, 1, 0x1000, 0x2000⟩ 0 0)))
          (ldl_le_phys wide_source_mem (request_src_addr ⟨0x811, 1, 1, 0x1000, 0x2000⟩ 0 0)) ∧
      (∀ x, x < request_dst_addr ⟨0x811, 1, 1, 0x1000, 0x2000⟩ 0 0 ∨
          request_dst_addr ⟨0x811, 1, 1, 0x1000, 0x2000⟩ 0 0 + 4 ≤ x →
        m1 x = wide_source_mem x) ∧
      (windows_disjoint (request_dst_addr ⟨0x811, 1, 1, 0x1000, 0x2000⟩ 0 0)
          (request_src_addr ⟨0x811, 1, 1, 0x1000, 0x2000⟩ 0 0) →
        ldl_le_phys m1 (request_src_addr ⟨0x811, 1, 1, 0x1000, 0x2000⟩ 0 0)
          = ldl_le_phys wide_source_mem (request_src_addr ⟨0x811, 1, 1, 0x1000, 0x2000⟩ 0 0)) :=
  one_store_per_request wide_source_state wide_source_mem 0 1 0 0 ⟨0x811, 1, 1, 0x1000, 0x2000⟩
    (by decide) (by decide) rfl (by decide) (by decide)

theorem request_target_ne_none (s : STM32F1XXDMAState) (c : Int) (hcc : s.channel_count ≤ 7) :
    request_target s c ≠ none := by
  unfold request_target
  by_cases hg : c < 0 ∨ c ≥ (s.channel_count : Int)
  · rw [if_pos hg]
    exact fun h => by cases h
  · rw [if_neg hg]
    have hi : c.toNat < 7 := by omega
    rw [dif_pos hi]
    split
    · exact fun h => by cases h
    · split
      · exact fun h => by cases h
      · exact fun h => by cases h

/-- Over the flat memory, where no store reaches the registers: on a
controller with `channel_count ≤ 7` every request, accepted or not, returns a
state with `isr`, `ifcr` and `channel_count` unchanged, every channel other
than `c` unchanged, and `ccr` and `reload_cndtr` of every channel unchanged. -/
theorem request_frame_flat (s : STM32F1XXDMAState) (mem : Mem) (c level : Int)
    (mmask0 pmask0 : Nat) (hcc : s.channel_count ≤ 7) :
    ∃ s1 m1, handle_dma_request s mem c level mmask0 pmask0 = some (s1, m1) ∧
      s1.isr = s.isr ∧ s1.ifcr = s.ifcr ∧ s1.channel_count = s.channel_count ∧
      (∀ j : Fin 7, (j.val : Int) ≠ c → s1.chan_dma j = s.chan_dma j) ∧
      (∀ j : Fin 7, (s1.chan_dma j).ccr = (s.chan_dma j).ccr ∧
        (s1.chan_dma j).reload_cndtr = (s.chan_dma j).reload_cndtr) := by
  rw [handle_dma_request_eq_target]
  rcases h : request_target s c with _ | (_ | ⟨i, ch⟩)
  · exact absurd h (request_target_ne_none s c hcc)
  · exact ⟨s, mem, rfl, rfl, rfl, rfl, fun _ _ => rfl, fun _ => ⟨rfl, rfl⟩⟩
  · obtain ⟨hc0, hi, hch⟩ := request_target_accepted h
    refine ⟨_, _, rfl, rfl, rfl, rfl, ?_, ?_⟩
    · intro j hj
      apply set_chan_other
      intro e
      apply hj
      rw [e, hi]
      omega
    · intro j
      by_cases e : j = i
      · subst e
        rw [set_chan_same, advance_chan_ccr, advance_chan_reload_cndtr, hch]
        exact ⟨rfl, rfl⟩
      · rw [set_chan_other s i j _ e]
        exact ⟨rfl, rfl⟩

/-! ## Requests over the system memory -/

/-- The element move over the system memory written with the source and
destination of the request. -/
theorem transfer_sysmem_eq (base : Nat) (s : STM32F1XXDMAState) (chan : STM32F1XXDMAChan)
    (mem : Mem) (mmask0 pmask0 : Nat) :
    transfer_sysmem base s chan mem mmask0 pmask0 =
      (sysmem_ldl base s mem (request_src_addr chan mmask0 pmask0)).bind fun data =>
        (sysmem_ldl base s mem (request_dst_addr chan mmask0 pmask0)).bind fun dst_data =>
          sysmem_stl base s mem (request_dst_addr chan mmask0 pmask0)
            (merge_src (request_src_size chan)
              (clear_dst (request_dst_size chan) dst_data) data) := by
  unfold transfer_sysmem request_dst_addr request_src_addr request_src_size request_dst_size
    periph_addr memory_addr ccr_dir ccr_psize ccr_msize
  by_cases hd : (chan.ccr &&& DMA_CCR_DIR) % 2 ^ 8 ≠ 0
  · simp only [if_pos hd]
  · simp only [if_neg hd]

theorem not_in_window_of_outside {base addr : Nat} (h : outside_window base addr) :
    ¬ (base ≤ addr ∧ addr < base + DMA_MMIO_SIZE) := by
  unfold outside_window at h
  omega

theorem sysmem_ldl_outside (base : Nat) (s : STM32F1XXDMAState) (mem : Mem) (addr : Nat)
    (h : outside_window base addr) :
    sysmem_ldl base s mem addr = some (ldl_le_phys mem addr) := by
  unfold sysmem_ldl
  rw [if_neg (not_in_window_of_outside h)]

theorem sysmem_stl_outside (base : Nat) (s : STM32F1XXDMAState) (mem : Mem) (addr val : Nat)
    (h : outside_window base addr) :
    sysmem_stl base s mem addr val = some (s, stl_le_phys mem addr val) := by
  unfold sysmem_stl
  rw [if_neg (not_in_window_of_outside h)]

theorem stm32f1xx_dma_read_total (s : STM32F1XXDMAState) (hcc : s.channel_count ≤ 7)
    (addr : Nat) : ∃ r, stm32f1xx_dma_read s addr = some r := by
  unfold stm32f1xx_dma_read
  by_cases h0 : DMA_ISR = addr
  · rw [if_pos h0]
    exact ⟨_, rfl⟩
  · rw [if_neg h0]
    by_cases h4 : DMA_IFCR = addr
    · rw [if_pos h4]
      exact ⟨_, rfl⟩
    · rw [if_neg h4]
      dsimp only
      by_cases hg : decode_chan_idx addr ≥ s.channel_count
      · rw [if_pos hg]
        exact ⟨_, rfl⟩
      · rw [if_neg hg, chan_lookup_lt s _ (by omega)]
        split_ifs <;> exact ⟨_, rfl⟩

theorem sysmem_ldl_total (base : Nat) (s : STM32F1XXDMAState) (mem : Mem) (addr : Nat)
    (hcc : s.channel_count ≤ 7) : ∃ d, sysmem_ldl base s mem addr = some d := by
  unfold sysmem_ldl
  by_cases hw : base ≤ addr ∧ addr < base + DMA_MMIO_SIZE
  · obtain ⟨r, hr⟩ := stm32f1xx_dma_read_total s hcc (addr - base)
    rw [if_pos hw, hr]
    exact ⟨_, rfl⟩
  · rw [if_neg hw]
    exact ⟨_, rfl⟩

/-- The request handler over the system memory, with the three guards
separated from the element move. -/
theorem handle_dma_request_sysmem_eq_target (base : Nat) (s : STM32F1XXDMAState) (mem : Mem)
    (c level : Int) (mmask0 pmask0 : Nat) :
    handle_dma_request_sysmem base s mem c level mmask0 pmask0 =
      (request_target s c).bind fun o =>
        match o with
        | none => some (s, mem)
        | some (i, ch) =>
          (transfer_sysmem base s ch mem mmask0 pmask0).map fun x =>
            (set_chan x.1 i (advance_chan (x.1.chan_dma i)), x.2) := by
  unfold handle_dma_request_sysmem request_target
  by_cases hg : c < 0 ∨ c ≥ (s.channel_count : Int)
  · rw [if_pos hg, if_pos hg]
    rfl
  · rw [if_neg hg, if_neg hg]
    by_cases hi : c.toNat < 7
    · rw [chan_lookup_lt s _ hi, dif_pos hi]
      dsimp only
      by_cases hen : 0 = (s.chan_dma ⟨c.toNat, hi⟩).ccr &&& DMA_CCR_EN
      · rw [if_pos hen, if_pos hen]
        rfl
      · rw [if_neg hen, if_neg hen]
        by_cases hn : 0 = (s.chan_dma ⟨c.toNat, hi⟩).cndtr
        · rw [if_pos hn, if_pos hn]
          rfl
        · rw [if_neg hn, if_neg hn]
          simp only [Option.some_bind, chan_lookup_lt _ _ hi, chan_store_lt _ _ hi,
            Option.map_some']
          cases transfer_sysmem base s (s.chan_dma ⟨c.toNat, hi⟩) mem mmask0 pmask0 <;> rfl
    · have hnone : chan_lookup s c.toNat = none := by
        unfold chan_lookup
        rw [dif_neg hi]
      rw [hnone, dif_neg hi]
      rfl

/-- When neither the source nor the destination of an accepted request falls
in the register window, the handler over the system memory is the handler
over the flat memory. -/
theorem handle_dma_request_sysmem_eq_flat (base : Nat) (s : STM32F1XXDMAState) (mem : Mem)
    (c level : Int) (mmask0 pmask0 : Nat)
    (hw : ∀ i ch, request_target s c = some (some (i, ch)) →
      outside_window base (request_dst_addr ch mmask0 pmask0) ∧
      outside_window base (request_src_addr ch mmask0 pmask0)) :
    handle_dma_request_sysmem base s mem c level mmask0 pmask0 =
      handle_dma_request s mem c level mmask0 pmask0 := by
  rw [handle_dma_request_sysmem_eq_target, handle_dma_request_eq_target]
  rcases h : request_target s c with _ | (_ | ⟨i, ch⟩)
  · rfl
  · rfl
  · obtain ⟨hd, hs⟩ := hw i ch h
    obtain ⟨_, _, hch⟩ := request_target_accepted h
    simp only [Option.some_bind, Option.map_some']
    rw [transfer_sysmem_eq, sysmem_ldl_outside base s mem _ hs,
      sysmem_ldl_outside base s mem _ hd]
    simp only [Option.some_bind]
    rw [sysmem_stl_outside base s mem _ _ hd, transfer_mem_eq, hch]
    rfl

theorem handle_dma_request_target_other (s : STM32F1XXDMAState) (mem : Mem) (c1 c2 level : Int)
    (mmask0 pmask0 : Nat) (x : STM32F1XXDMAState × Mem) (hne : c1 ≠ c2)
    (h : handle_dma_request s mem c1 level mmask0 pmask0 = some x) :
    request_target x.1 c2 = request_target s c2 := by
  rw [handle_dma_request_eq_target] at h
  rcases h1 : request_target s c1 with _ | (_ | ⟨i1, ch1⟩)
  · rw [h1] at h
    cases h
  · rw [h1] at h
    cases h
    rfl
  · rw [h1] at h
    cases h
    exact request_target_other hne.symm h1 _

/-- Two requests over the system memory are two requests over the flat memory
when no access of an accepted request falls in the register window. -/
theorem two_requests_sysmem_eq_flat (base : Nat) (s : STM32F1XXDMAState) (mem : Mem)
    (c1 c2 : Int) (r1 r2 : Int × Nat × Nat) (hne : c1 ≠ c2)
    (hw1 : ∀ i ch, request_target s c1 = some (some (i, ch)) →
      outside_window base (request_dst_addr ch r1.2.1 r1.2.2) ∧
      outside_window base (request_src_addr ch r1.2.1 r1.2.2))
    (hw2 : ∀ i ch, request_target s c2 = some (some (i, ch)) →
      outside_window base (request_dst_addr ch r2.2.1 r2.2.2) ∧
      outside_window base (request_src_addr ch r2.2.1 r2.2.2)) :
    two_requests_sysmem base s mem c1 r1 c2 r2 = two_requests s mem c1 r1 c2 r2 := by
  unfold two_requests_sysmem two_requests
  rw [handle_dma_request_sysmem_eq_flat base s mem c1 _ _ _ hw1]
  rcases h : handle_dma_request s mem c1 r1.1 r1.2.1 r1.2.2 with _ | x
  · rfl
  · simp only [Option.some_bind]
    apply handle_dma_request_sysmem_eq_flat
    intro i ch ht
    rw [handle_dma_request_target_other s mem c1 c2 _ _ _ x hne h] at ht
    exact hw2 i ch ht

/-- C22 (amended): on a controller with `channel_count ≤ 7`, a request whose
store does not fall in the register window of the controller (the 4 bytes at
the destination address of an accepted request lie outside it) returns a
state with `isr`, `ifcr` and `channel_count` unchanged, every channel other
than `c` unchanged, and `ccr` and `reload_cndtr` of every channel (channel
`c` included) unchanged. -/
theorem request_frame_outside_window (base : Nat) (s : STM32F1XXDMAState) (mem : Mem)
    (c level : Int) (mmask0 pmask0 : Nat) (hcc : s.channel_count ≤ 7)
    (hout : ∀ i ch, request_target s c = some (some (i, ch)) →
      outside_window base (request_dst_addr ch mmask0 pmask0)) :
    ∃ s1 m1, handle_dma_request_sysmem base s mem c level mmask0 pmask0 = some (s1, m1) ∧
      s1.isr = s.isr ∧ s1.ifcr = s.ifcr ∧ s1.channel_count = s.channel_count ∧
      (∀ j : Fin 7, (j.val : Int) ≠ c → s1.chan_dma j = s.chan_dma j) ∧
      (∀ j : Fin 7, (s1.chan_dma j).ccr = (s.chan_dma j).ccr ∧
        (s1.chan_dma j).reload_cndtr = (s.chan_dma j).reload_cndtr) := by
  rw [handle_dma_request_sysmem_eq_target]
  rcases h : request_target s c with _ | (_ | ⟨i, ch⟩)
  · exact absurd h (request_target_ne_none s c hcc)
  · exact ⟨s, mem, rfl, rfl, rfl, rfl, fun _ _ => rfl, fun _ => ⟨rfl, rfl⟩⟩
  · obtain ⟨hc0, hi, hch⟩ := request_target_accepted h
    have hd := hout i ch h
    obtain ⟨d, hsrc⟩ := sysmem_ldl_total base s mem (request_src_addr ch mmask0 pmask0) hcc
    simp only [Option.some_bind]
    rw [transfer_sysmem_eq, hsrc, sysmem_ldl_outside base s mem _ hd]
    simp only [Option.some_bind]
    rw [sysmem_stl_outside base s mem _ _ hd]
    refine ⟨_, _, rfl, rfl, rfl, rfl, ?_, ?_⟩
    · intro j hj
      apply set_chan_other
      intro e
      apply hj
      rw [e, hi]
      omega
    · intro j
      by_cases e : j = i
      · subst e
        rw [set_chan_same, advance_chan_ccr, advance_chan_reload_cndtr]
        exact ⟨rfl, rfl⟩
      · rw [set_chan_other s i j _ e]
        exact ⟨rfl, rfl⟩

/-- Witness of C22 (amended): the request on channel 0 of `wide_source_state`,
which stores at `0x1000`, with the controller mapped at `0x40020000`. -/
theorem request_frame_outside_window_witness :
    ∃ s1 m1, handle_dma_request_sysmem 0x40020000 wide_source_state wide_source_mem 0 1 0 0
        = some (s1, m1) ∧
      s1.isr = wide_source_state.isr ∧ s1.ifcr = wide_source_state.ifcr ∧
      s1.channel_count = wide_source_state.channel_count ∧
      (∀ j : Fin 7, (j.val : Int) ≠ 0 → s1.chan_dma j = wide_source_state.chan_dma j) ∧
      (∀ j : Fin 7, (s1.chan_dma j).ccr = (wide_source_state.chan_dma j).ccr ∧
        (s1.chan_dma j).reload_cndtr = (wide_source_state.chan_dma j).reload_cndtr) :=
  request_frame_outside_window 0x40020000 wide_source_state wide_source_mem 0 1 0 0 (by decide)
    (by
      intro i ch e
      have t : request_target wide_source_state 0
          = some (some (0, ⟨0x811, 1, 1, 0x1000, 0x2000⟩)) := by decide
      rw [t] at e
      cases e
      unfold outside_window
      decide)

/-- C22 (counterexample): channel 0 of `self_targeting_state` has the
`DMA_ISR` register of its own controller, mapped at `0x40020000`, as
destination.  The request stores the word `0x11223344` found at `0x2000`
into `isr`, which was 0. -/
theorem request_store_reaches_registers :
    (handle_dma_request_sysmem 0x40020000 self_targeting_state wide_source_mem 0 1 0 0).map
        (fun r => r.1.isr) = some 0x11223344 ∧
    self_targeting_state.isr = 0 ∧
    self_targeting_state.channel_count = 7 ∧
    0x40020000 ∈ dma_addr := by
  refine ⟨by decide, by decide, by decide, by decide⟩

/-- C13 (amended): when no load or store of an accepted request falls in the
register window of the controller, the two orders of two requests to
different channels give the same controller registers (and fail in the same
cases); they give the same memory as well whenever, both requests being
accepted, the 4-byte destination window of each is disjoint from the source
and destination windows of the other. -/
theorem requests_commute_outside_window (base : Nat) (s : STM32F1XXDMAState) (mem : Mem)
    (c1 c2 : Int) (r1 r2 : Int × Nat × Nat) (hne : c1 ≠ c2)
    (hw1 : ∀ i ch, request_target s c1 = some (some (i, ch)) →
      outside_window base (request_dst_addr ch r1.2.1 r1.2.2) ∧
      outside_window base (request_src_addr ch r1.2.1 r1.2.2))
    (hw2 : ∀ i ch, request_target s c2 = some (some (i, ch)) →
      outside_window base (request_dst_addr ch r2.2.1 r2.2.2) ∧
      outside_window base (request_src_addr ch r2.2.1 r2.2.2)) :
    (two_requests_sysmem base s mem c1 r1 c2 r2).map Prod.fst
        = (two_requests_sysmem base s mem c2 r2 c1 r1).map Prod.fst ∧
    ((∀ i1 ch1 i2 ch2, request_target s c1 = some (some (i1, ch1)) →
        request_target s c2 = some (some (i2, ch2)) →
        windows_disjoint (request_dst_addr ch1 r1.2.1 r1.2.2) (request_dst_addr ch2 r2.2.1 r2.2.2) ∧
        windows_disjoint (request_dst_addr ch1 r1.2.1 r1.2.2) (request_src_addr ch2 r2.2.1 r2.2.2) ∧
        windows_disjoint (request_dst_addr ch2 r2.2.1 r2.2.2) (request_src_addr ch1 r1.2.1 r1.2.2)) →
      two_requests_sysmem base s mem c1 r1 c2 r2 = two_requests_sysmem base s mem c2 r2 c1 r1) := by
  rw [two_requests_sysmem_eq_flat base s mem c1 c2 r1 r2 hne hw1 hw2,
    two_requests_sysmem_eq_flat base s mem c2 c1 r2 r1 hne.symm hw2 hw1]
  exact requests_commute_flat s mem c1 c2 r1 r2 hne

/-- Witness of C13 (amended): channels 0 and 1 of `separate_locations_state`,
whose windows are pairwise disjoint and far from the register window at
`0x40020000`. -/
theorem requests_commute_outside_window_witness :
    (two_requests_sysmem 0x40020000 separate_locations_state scenario_mem 0 (1, 0, 0) 1
        (1, 0, 0)).map Prod.fst
      = (two_requests_sysmem 0x40020000 separate_locations_state scenario_mem 1 (1, 0, 0) 0
        (1, 0, 0)).map Prod.fst ∧
    two_requests_sysmem 0x40020000 separate_locations_state scenario_mem 0 (1, 0, 0) 1 (1, 0, 0)
      = two_requests_sysmem 0x40020000 separate_locations_state scenario_mem 1 (1, 0, 0) 0
        (1, 0, 0) :=
  have t1 : request_target separate_locations_state 0
      = some (some (0, ⟨0x11, 1, 1, 0x1000, 0x2001⟩)) := by decide
  have t2 : request_target separate_locations_state 1
      = some (some (1, ⟨0x11, 1, 1, 0x3000, 0x4001⟩)) := by decide
  have h := requests_commute_outside_window 0x40020000 separate_locations_state scenario_mem
    0 1 (1, 0, 0) (1, 0, 0) (by decide)
    (by
      intro i ch e
      rw [t1] at e
      cases e
      unfold outside_window
      decide)
    (by
      intro i ch e
      rw [t2] at e
      cases e
      unfold outside_window
      decide)
  ⟨h.1, h.2 (by
    intro i1 ch1 i2 ch2 e1 e2
    rw [t1] at e1
    rw [t2] at e2
    cases e1
    cases e2
    unfold windows_disjoint
    decide)⟩

/-- C24: the level argument does not matter: two requests that differ only in
the level give the same result. -/
theorem level_irrelevant (s : STM32F1XXDMAState) (mem : Mem) (c l1 l2 : Int)
    (mmask0 pmask0 : Nat) :
    handle_dma_request s mem c l1 mmask0 pmask0 = handle_dma_request s mem c l2 mmask0 pmask0 := by
  rw [handle_dma_request_eq_target s mem c l1, handle_dma_request_eq_target s mem c l2]

/-! ## Element sizes -/

/-- C23, evaluated on the reserved size value: `ccr = 0x311` decodes to the
peripheral size 3, which is none of byte (0), halfword (1), word (2); the
mask of that side is then whatever the unassigned local holds, and the same
request stores at address 0 when the local holds 0 and at `0x1000` when it
holds `0xFFFFFFFF`. -/
theorem reserved_size_mask_unassigned :
    ccr_psize 0x311 = 3 ∧ ccr_msize 0xC01 = 3 ∧
    addr_mask 3 0 = 0 ∧ addr_mask 3 0xFFFFFFFF = 0xFFFFFFFF ∧
    (handle_dma_request reserved_size_state scenario_mem 0 1 0 0).map
        (fun r => (r.2 0, r.2 0x1000)) = some (1, 0) ∧
    (handle_dma_request reserved_size_state scenario_mem 0 1 0 0xFFFFFFFF).map
        (fun r => (r.2 0, r.2 0x1000)) = some (0, 1) := by
  refine ⟨by decide, by decide, by decide, by decide, by decide, by decide⟩

/-! ## Array bounds and the register decode -/

/-- C26: with `channel_count ≤ 7` no register read, register write or request
indexes the channel array outside its seven entries: each of the three
operations returns a result for every offset, value and request index. -/
theorem no_out_of_bounds (s : STM32F1XXDMAState) (hcc : s.channel_count ≤ 7) :
    (∀ addr, ∃ r, stm32f1xx_dma_read s addr = some r) ∧
    (∀ addr v, ∃ s1, stm32f1xx_dma_write s addr v = some s1) ∧
    (∀ (mem : Mem) (c level : Int) (mmask0 pmask0 : Nat),
      ∃ r, handle_dma_request s mem c level mmask0 pmask0 = some r) := by
  refine ⟨?_, ?_, ?_⟩
  · intro addr
    unfold stm32f1xx_dma_read
    by_cases h0 : DMA_ISR = addr
    · rw [if_pos h0]
      exact ⟨_, rfl⟩
    · rw [if_neg h0]
      by_cases h4 : DMA_IFCR = addr
      · rw [if_pos h4]
        exact ⟨_, rfl⟩
      · rw [if_neg h4]
        dsimp only
        by_cases hg : decode_chan_idx addr ≥ s.channel_count
        · rw [if_pos hg]
          exact ⟨_, rfl⟩
        · rw [if_neg hg, chan_lookup_lt s _ (by omega)]
          split_ifs <;> exact ⟨_, rfl⟩
  · intro addr v
    unfold stm32f1xx_dma_write
    dsimp only
    by_cases h0 : DMA_ISR = addr
    · rw [if_pos h0]
      exact ⟨_, rfl⟩
    · rw [if_neg h0]
      by_cases h4 : DMA_IFCR = addr
      · rw [if_pos h4]
        exact ⟨_, rfl⟩
      · rw [if_neg h4]
        by_cases hg : decode_chan_idx addr ≥ s.channel_count
        · rw [if_pos hg]
          exact ⟨_, rfl⟩
        · have hi : decode_chan_idx addr < 7 := by omega
          rw [if_neg hg, chan_lookup_lt s _ hi]
          simp only [Option.some_bind, chan_store_lt s _ hi]
          split_ifs <;> exact ⟨_, rfl⟩
  · intro mem c level mmask0 pmask0
    rw [handle_dma_request_eq_target]
    rcases h : request_target s c with _ | o
    · exact absurd h (request_target_ne_none s c hcc)
    · exact ⟨_, rfl⟩

/-- Witness of C26: a seven-channel controller. -/
theorem no_out_of_bounds_witness :
    (∀ addr, ∃ r, stm32f1xx_dma_read scenario_state addr = some r) ∧
    (∀ addr v, ∃ s1, stm32f1xx_dma_write scenario_state addr v = some s1) ∧
    (∀ (mem : Mem) (c level : Int) (mmask0 pmask0 : Nat),
      ∃ r, handle_dma_request scenario_state mem c level mmask0 pmask0 = some r) :=
  no_out_of_bounds scenario_state (by decide)

/-- C27: inside the mapped window (`8 ≤ offset < 0x400`) the 8-bit channel
index and sub-offset are the exact quotient `(offset - 8) / 20` (at most 50)
and remainder `(offset - 8) mod 20`.  For an offset in 1..7 other than 4 the
64-bit subtraction wraps, the decoded index is 204 (so at least 7), a read
returns 0 and a write returns the state unchanged. -/
theorem decode_exact (offset : Nat) :
    (8 ≤ offset → offset < 0x400 →
      decode_chan_idx offset = (offset - 8) / 20 ∧ (offset - 8) / 20 ≤ 50 ∧
      decode_reg_offset offset = (offset - 8) % 20) ∧
    (1 ≤ offset → offset ≤ 7 → offset ≠ 4 →
      decode_chan_idx offset = 204 ∧ 7 ≤ decode_chan_idx offset ∧
      ∀ (s : STM32F1XXDMAState) (v : Nat),
        stm32f1xx_dma_read s offset = some 0 ∧ stm32f1xx_dma_write s offset v = some s) := by
  constructor
  · intro h8 hw
    exact ⟨decode_chan_idx_window offset h8 hw, by omega, decode_reg_offset_window offset h8 hw⟩
  · intro h1 h7 h4
    have hidx : decode_chan_idx offset = 204 := by
      interval_cases offset <;> decide
    have hoff : decode_reg_offset offset = offset + 8 := by
      interval_cases offset <;> decide
    refine ⟨hidx, by omega, ?_⟩
    intro s v
    have e0 : ¬ DMA_ISR = offset := by
      show ¬ 0 = offset
      omega
    have e4 : ¬ DMA_IFCR = offset := by
      show ¬ 4 = offset
      omega
    have r0 : ¬ offset + 8 = DMA_CCR := by
      show ¬ offset + 8 = 0
      omega
    have r4 : ¬ offset + 8 = DMA_CNDTR := by
      show ¬ offset + 8 = 4
      omega
    have r8 : ¬ offset + 8 = DMA_CPAR := by
      show ¬ offset + 8 = 8
      omega
    have r12 : ¬ offset + 8 = DMA_CMAR := by
      show ¬ offset + 8 = 12
      omega
    constructor
    · unfold stm32f1xx_dma_read
      rw [if_neg e0, if_neg e4]
      dsimp only
      rw [hoff, if_neg r0, if_neg r4, if_neg r8, if_neg r12, ite_self]
    · unfold stm32f1xx_dma_write
      dsimp only
      rw [if_neg e0, if_neg e4, hoff, if_neg r0, if_neg r4, if_neg r8, if_neg r12, ite_self]

/-- Witness of C27: the last aligned offset of the window and the offset 3. -/
theorem decode_exact_witness :
    (decode_chan_idx 0x3FC = (0x3FC - 8) / 20 ∧ (0x3FC - 8) / 20 ≤ 50 ∧
      decode_reg_offset 0x3FC = (0x3FC - 8) % 20) ∧
    (decode_chan_idx 3 = 204 ∧ 7 ≤ decode_chan_idx 3 ∧
      ∀ (s : STM32F1XXDMAState) (v : Nat),
        stm32f1xx_dma_read s 3 = some 0 ∧ stm32f1xx_dma_write s 3 v = some s) :=
  ⟨(decode_exact 0x3FC).1 (by decide) (by decide),
    (decode_exact 3).2 (by decide) (by decide) (by decide)⟩

/-! ## The count never exceeds the reload value -/

theorem request_target_guards {s : STM32F1XXDMAState} {c : Int} {i : Fin 7}
    {ch : STM32F1XXDMAChan} (h : request_target s c = some (some (i, ch))) :
    ch.ccr &&& DMA_CCR_EN ≠ 0 ∧ ch.cndtr ≠ 0 := by
  unfold request_target at h
  by_cases hg : c < 0 ∨ c ≥ (s.channel_count : Int)
  · rw [if_pos hg] at h
    cases h
  · rw [if_neg hg] at h
    by_cases hi : c.toNat < 7
    · rw [dif_pos hi] at h
      by_cases hen : 0 = (s.chan_dma ⟨c.toNat, hi⟩).ccr &&& DMA_CCR_EN
      · rw [if_pos hen] at h
        cases h
      · rw [if_neg hen] at h
        by_cases hn : 0 = (s.chan_dma ⟨c.toNat, hi⟩).cndtr
        · rw [if_pos hn] at h
          cases h
        · rw [if_neg hn] at h
          cases h
          exact ⟨fun e => hen e.symm, fun e => hn e.symm⟩
    · rw [dif_neg hi] at h
      cases h

theorem advance_chan_cndtr_le (ch : STM32F1XXDMAChan) (hn : ch.cndtr ≠ 0)
    (hle : ch.cndtr ≤ ch.reload_cndtr) :
    (advance_chan ch).cndtr ≤ (advance_chan ch).reload_cndtr := by
  have hdec : sub_wrap 32 ch.cndtr 1 = ch.cndtr - 1 := by
    unfold sub_wrap
    rw [if_pos (by omega)]
  rw [advance_chan_reload_cndtr]
  unfold advance_chan
  simp only [hdec]
  split_ifs <;> omega

theorem cndtr_le_reload_set_chan (s : STM32F1XXDMAState) (i : Fin 7) (x : STM32F1XXDMAChan)
    (hs : cndtr_le_reload s) (hx : x.cndtr ≤ x.reload_cndtr) :
    cndtr_le_reload (set_chan s i x) := by
  intro j
  by_cases e : j = i
  · subst e
    rw [set_chan_same]
    exact hx
  · rw [set_chan_other s i j x e]
    exact hs j

theorem cndtr_le_reload_write (s s1 : STM32F1XXDMAState) (addr v : Nat)
    (hs : cndtr_le_reload s) (h : stm32f1xx_dma_write s addr v = some s1) :
    cndtr_le_reload s1 := by
  unfold stm32f1xx_dma_write at h
  dsimp only at h
  by_cases h0 : DMA_ISR = addr
  · rw [if_pos h0] at h
    cases h
    exact hs
  · rw [if_neg h0] at h
    by_cases h4 : DMA_IFCR = addr
    · rw [if_pos h4] at h
      cases h
      exact hs
    · rw [if_neg h4] at h
      by_cases hg : decode_chan_idx addr ≥ s.channel_count
      · rw [if_pos hg] at h
        cases h
        exact hs
      · rw [if_neg hg] at h
        by_cases hi : decode_chan_idx addr < 7
        · rw [chan_lookup_lt s _ hi] at h
          simp only [Option.some_bind, chan_store_lt s _ hi] at h
          have hc := hs ⟨decode_chan_idx addr, hi⟩
          split_ifs at h <;> cases h
          · exact cndtr_le_reload_set_chan s _ _ hs hc
          · exact cndtr_le_reload_set_chan s _ _ hs (le_refl _)
          · exact cndtr_le_reload_set_chan s _ _ hs hc
          · exact cndtr_le_reload_set_chan s _ _ hs hc
          · exact hs
        · have hnone : chan_lookup s (decode_chan_idx addr) = none := by
            unfold chan_lookup
            rw [dif_neg hi]
          rw [hnone] at h
          simp only [Option.none_bind] at h
          split_ifs at h
          cases h
          exact hs

theorem cndtr_le_reload_request (s s1 : STM32F1XXDMAState) (mem m1 : Mem) (c level : Int)
    (mmask0 pmask0 : Nat) (hs : cndtr_le_reload s)
    (h : handle_dma_request s mem c level mmask0 pmask0 = some (s1, m1)) :
    cndtr_le_reload s1 := by
  rw [handle_dma_request_eq_target] at h
  rcases ht : request_target s c with _ | (_ | ⟨i, ch⟩)
  · rw [ht] at h
    cases h
  · rw [ht] at h
    cases h
    exact hs
  · rw [ht] at h
    cases h
    obtain ⟨_, _, hch⟩ := request_target_accepted ht
    obtain ⟨_, hn⟩ := request_target_guards ht
    apply cndtr_le_reload_set_chan s i _ hs
    apply advance_chan_cndtr_le ch hn
    rw [hch]
    exact hs i

theorem cndtr_le_reload_run (ops : List DmaOp) :
    ∀ (x y : STM32F1XXDMAState × Mem), cndtr_le_reload x.1 → dma_run x ops = some y →
      cndtr_le_reload y.1 := by
  induction ops with
  | nil =>
    intro x y hx h
    cases h
    exact hx
  | cons op ops ih =>
    intro x y hx h
    unfold dma_run at h
    rcases hstep : dma_step x op with _ | z
    · rw [hstep] at h
      cases h
    · rw [hstep, Option.some_bind] at h
      apply ih z y _ h
      cases op with
      | write addr val =>
        dsimp only [dma_step] at hstep
        rcases hw : stm32f1xx_dma_write x.1 addr val with _ | s1
        · rw [hw] at hstep
          cases hstep
        · rw [hw] at hstep
          cases hstep
          exact cndtr_le_reload_write x.1 s1 addr val hx hw
      | request channel level mmask0 pmask0 =>
        dsimp only [dma_step] at hstep
        exact cndtr_le_reload_request x.1 z.1 x.2 z.2 channel level mmask0 pmask0 hx hstep
      | reset =>
        dsimp only [dma_step] at hstep
        cases hstep
        exact fun _ => le_refl _

/-- C25 (amended): in every state reached from a reset by register writes,
requests and resets, every channel slot has `cndtr ≤ reload_cndtr`.  Hence
whenever a request on a channel with the circular bit set is accepted, the
reload value is not 0 and `cndtr` is not 0 after that request. -/
theorem reachable_cndtr_le_reload (s0 s : STM32F1XXDMAState) (mem0 mem : Mem)
    (ops : List DmaOp)
    (h : dma_run (stm32f1xx_dma_reset s0, mem0) ops = some (s, mem)) :
    cndtr_le_reload s ∧
    ∀ (c level : Int) (mmask0 pmask0 : Nat) (ch : STM32F1XXDMAChan),
      0 ≤ c → c < (s.channel_count : Int) → chan_lookup s c.toNat = some ch →
      ch.ccr &&& DMA_CCR_EN ≠ 0 → ch.cndtr ≠ 0 → ch.ccr &&& DMA_CCR_CIRC ≠ 0 →
      ch.reload_cndtr ≠ 0 ∧
      ∃ s1 m1 ch1, handle_dma_request s mem c level mmask0 pmask0 = some (s1, m1) ∧
        chan_lookup s1 c.toNat = some ch1 ∧ ch1.cndtr ≠ 0 := by
  have hinv : cndtr_le_reload s :=
    cndtr_le_reload_run ops (stm32f1xx_dma_reset s0, mem0) (s, mem) (fun _ => le_refl _) h
  refine ⟨hinv, ?_⟩
  intro c level mmask0 pmask0 ch h0 hcc hl hen hn hcirc
  obtain ⟨hi, hch⟩ := chan_lookup_some hl
  have hle : ch.cndtr ≤ ch.reload_cndtr := by
    rw [hch]
    exact hinv _
  obtain ⟨hi2, hacc⟩ := handle_dma_request_accepted s mem c level mmask0 pmask0 ch h0 hcc hl hen hn
  refine ⟨by omega, _, _, advance_chan ch, hacc, chan_lookup_set_chan s _ hi2 _, ?_⟩
  have hdec : sub_wrap 32 ch.cndtr 1 = ch.cndtr - 1 := by
    unfold sub_wrap
    rw [if_pos (by omega)]
  unfold advance_chan
  simp only [hdec]
  split_ifs <;> omega

/-- Witness of C25 (amended): after reset, CNDTR of channel 0 written with 2
and CCR with enable and circular, then one request. -/
theorem reachable_cndtr_le_reload_witness :
    ∃ s mem,
      dma_run (stm32f1xx_dma_reset scenario_state, scenario_mem)
        [.write 12 2, .write 8 0x21, .request 0 1 0 0] = some (s, mem) ∧
      cndtr_le_reload s ∧
      ∀ (c level : Int) (mmask0 pmask0 : Nat) (ch : STM32F1XXDMAChan),
        0 ≤ c → c < (s.channel_count : Int) → chan_lookup s c.toNat = some ch →
        ch.ccr &&& DMA_CCR_EN ≠ 0 → ch.cndtr ≠ 0 → ch.ccr &&& DMA_CCR_CIRC ≠ 0 →
        ch.reload_cndtr ≠ 0 ∧
        ∃ s1 m1 ch1, handle_dma_request s mem c level mmask0 pmask0 = some (s1, m1) ∧
          chan_lookup s1 c.toNat = some ch1 ∧ ch1.cndtr ≠ 0 := by
  have hsome : (dma_run (stm32f1xx_dma_reset scenario_state, scenario_mem)
      [.write 12 2, .write 8 0x21, .request 0 1 0 0]).isSome = true := by decide
  rcases hrun : dma_run (stm32f1xx_dma_reset scenario_state, scenario_mem)
      [.write 12 2, .write 8 0x21, .request 0 1 0 0] with _ | ⟨s, mem⟩
  · rw [hrun] at hsome
    cases hsome
  · exact ⟨s, mem, rfl, reachable_cndtr_le_reload scenario_state s scenario_mem mem _ hrun⟩

/-- C25 (counterexample): after reset, write CNDTR = 1 and CCR = enable on
channel 0, one request (the count reaches 0), write CCR = enable + circular,
one more request.  Channel 0 is then enabled and circular, its CNDTR was
written with 1, and its `cndtr` is 0 after the request. -/
theorem circular_channel_rests_at_zero :
    (dma_run (stm32f1xx_dma_reset scenario_state, scenario_mem)
        [.write 12 1, .write 8 0x1, .request 0 1 0 0, .write 8 0x21, .request 0 1 0 0]).map
      (fun r => r.1.chan_dma 0) = some ⟨0x21, 0, 1, 0, 0⟩ ∧
    0x21 &&& DMA_CCR_EN ≠ 0 ∧ 0x21 &&& DMA_CCR_CIRC ≠ 0 := by
  refine ⟨by decide, by decide, by decide⟩

end Stm32f1xxDma

namespace Stm32f1xxGpio

/-! ## Output data register -/

/-- C28, evaluated with pins 3 and 9 at 1 before the write: a write of 5 at
the ODR offset sets pins 0, 1, 2 to bits 0, 1, 2 of 5 and stops; pins 3 and 9
keep the output 1 although bits 3 and 9 of 5 are 0. -/
theorem odr_write_stops_at_highest_bit :
    (stm32f1xx_gpio_write pins_3_9_state GPIO_ODR_ADDR 5).toOption.map (fun r => port_list r.1)
      = some [1, 0, 1, 1, 0, 0, 0, 0, 0, 1, 0, 0, 0, 0, 0, 0] ∧
    (List.range 16).map (fun i => (5 >>> i) &&& 1)
      = [1, 0, 1, 0, 0, 0, 0, 0, 0, 0, 0, 0, 0, 0, 0, 0] := by
  refine ⟨by decide, by decide⟩

/-- C29, evaluated on a value with bit 16 set: for every pin state a write of
`0x10000` at the ODR offset reaches `s->port[16]`, outside the 16-entry
array. -/
theorem odr_write_index_16 (s : STM32F1XXGPIOState) :
    fault_of (stm32f1xx_gpio_write s GPIO_ODR_ADDR 0x10000) = some (.out_of_bounds 16) := by
  rfl

/-- C30, evaluated with every pin output at 0: the value read at the ODR
offset is whatever the uninitialised local held, `0xFFFF0001` for the initial
content `0xFFFF0001`, where the claim gives 0. -/
theorem odr_read_keeps_initial_bits :
    stm32f1xx_gpio_read zero_pins_state GPIO_ODR_ADDR 0xFFFF0001 = 0xFFFF0001 ∧
    port_list zero_pins_state = [0, 0, 0, 0, 0, 0, 0, 0, 0, 0, 0, 0, 0, 0, 0, 0] := by
  refine ⟨by decide, by decide⟩

/-! ## Control registers CRL and CRH -/

theorem finRange_8 : List.finRange 8 = [0, 1, 2, 3, 4, 5, 6, 7] := by decide

theorem finRange_16 :
    List.finRange 16 = [0, 1, 2, 3, 4, 5, 6, 7, 8, 9, 10, 11, 12, 13, 14, 15] := by decide

theorem ctrl_index_val (isLow : Nat) (ii : Fin 8) :
    (ctrl_index isLow ii).val = if isLow ≠ 0 then ii.val else 8 + ii.val := by
  unfold ctrl_index
  split_ifs <;> rfl

theorem ctrl_index_inj (isLow : Nat) (ii jj : Fin 8) :
    ctrl_index isLow ii = ctrl_index isLow jj ↔ ii = jj := by
  constructor
  · intro h
    have h1 := congrArg Fin.val h
    rw [ctrl_index_val, ctrl_index_val] at h1
    apply Fin.ext
    split_ifs at h1 <;> omega
  · intro h
    rw [h]

theorem controlRegisterWrite_cnf_same (s : STM32F1XXGPIOState) (isLow v : Nat) (ii : Fin 8) :
    (controlRegisterWrite s isLow v).cnf (ctrl_index isLow ii) = (v >>> (ii.val * 4 + 0)) &&& 0x3 := by
  unfold controlRegisterWrite
  rw [finRange_8]
  simp only [List.foldl, Function.update_apply, ctrl_index_inj]
  fin_cases ii <;> simp <;> rfl

theorem controlRegisterWrite_mode_same (s : STM32F1XXGPIOState) (isLow v : Nat) (ii : Fin 8) :
    (controlRegisterWrite s isLow v).mode (ctrl_index isLow ii) = (v >>> (ii.val * 4 + 2)) &&& 0x3 := by
  unfold controlRegisterWrite
  rw [finRange_8]
  simp only [List.foldl, Function.update_apply, ctrl_index_inj]
  fin_cases ii <;> simp <;> rfl

theorem testBit_three (i : Nat) : Nat.testBit 3 i = decide (i < 2) :=
  Nat.testBit_two_pow_sub_one 2 i

theorem nibble_step (v n acc : Nat) (hn : n < 8) (hacc : acc = v % 2 ^ (n * 4)) :
    ((acc ||| (((v >>> (n * 4 + 0)) &&& 0x3) &&& 0x3) <<< (n * 4 + 0)) % 2 ^ 32
        ||| (((v >>> (n * 4 + 2)) &&& 0x3) &&& 0x3) <<< (n * 4 + 2)) % 2 ^ 32
      = v % 2 ^ ((n + 1) * 4) := by
  subst hacc
  apply Nat.eq_of_testBit_eq
  intro j
  simp only [Nat.testBit_mod_two_pow, Nat.testBit_or, Nat.testBit_shiftLeft, Nat.testBit_and,
    Nat.testBit_shiftRight, testBit_three, Nat.add_zero]
  have hcases : j < n * 4 ∨ (n * 4 ≤ j ∧ j < n * 4 + 2) ∨ (n * 4 + 2 ≤ j ∧ j < n * 4 + 4)
      ∨ n * 4 + 4 ≤ j := by omega
  rcases hcases with h | ⟨h, h'⟩ | ⟨h, h'⟩ | h
  · have a1 : j < 32 := by omega
    have a2 : ¬ (j ≥ n * 4) := by omega
    have a3 : ¬ (j ≥ n * 4 + 2) := by omega
    have a4 : j < (n + 1) * 4 := by omega
    simp [a1, a2, a3, a4, h]
  · have a1 : j < 32 := by omega
    have a3 : ¬ (j ≥ n * 4 + 2) := by omega
    have a4 : j < (n + 1) * 4 := by omega
    have a5 : ¬ (j < n * 4) := by omega
    have a6 : j - n * 4 < 2 := by omega
    have a7 : n * 4 + (j - n * 4) = j := by omega
    simp [a1, a3, a4, a5, a6, a7, h]
  · have a1 : j < 32 := by omega
    have a2 : j ≥ n * 4 := by omega
    have a4 : j < (n + 1) * 4 := by omega
    have a5 : ¬ (j < n * 4) := by omega
    have a6 : ¬ (j - n * 4 < 2) := by omega
    have a7 : n * 4 + 2 + (j - (n * 4 + 2)) = j := by omega
    have a8 : j - (n * 4 + 2) < 2 := by omega
    simp [a1, a2, a4, a5, a6, a7, a8, h]
  · have a2 : j ≥ n * 4 := by omega
    have a3 : j ≥ n * 4 + 2 := by omega
    have a4 : ¬ (j < (n + 1) * 4) := by omega
    have a5 : ¬ (j < n * 4) := by omega
    have a6 : ¬ (j - n * 4 < 2) := by omega
    have a8 : ¬ (j - (n * 4 + 2) < 2) := by omega
    simp [a2, a3, a4, a5, a6, a8]

theorem controlRegisterRead_of_fields (s : STM32F1XXGPIOState) (isLow v : Nat) (hv : v < 2 ^ 32)
    (hc : ∀ ii : Fin 8, s.cnf (ctrl_index isLow ii) = (v >>> (ii.val * 4 + 0)) &&& 0x3)
    (hm : ∀ ii : Fin 8, s.mode (ctrl_index isLow ii) = (v >>> (ii.val * 4 + 2)) &&& 0x3) :
    controlRegisterRead s isLow = v := by
  unfold controlRegisterRead
  rw [finRange_8]
  simp only [List.foldl, hc, hm]
  have e0 := nibble_step v ((0 : Fin 8) : Nat) 0 (by decide) (Nat.mod_one v).symm
  have e1 := nibble_step v ((1 : Fin 8) : Nat) _ (by decide) e0
  have e2 := nibble_step v ((2 : Fin 8) : Nat) _ (by decide) e1
  have e3 := nibble_step v ((3 : Fin 8) : Nat) _ (by decide) e2
  have e4 := nibble_step v ((4 : Fin 8) : Nat) _ (by decide) e3
  have e5 := nibble_step v ((5 : Fin 8) : Nat) _ (by decide) e4
  have e6 := nibble_step v ((6 : Fin 8) : Nat) _ (by decide) e5
  have e7 := nibble_step v ((7 : Fin 8) : Nat) _ (by decide) e6
  exact e7.trans (Nat.mod_eq_of_lt hv)

theorem controlRegisterWrite_cnf_other (s : STM32F1XXGPIOState) (isLow v : Nat) (i : Fin 16)
    (hi : ∀ ii : Fin 8, ctrl_index isLow ii ≠ i) :
    (controlRegisterWrite s isLow v).cnf i = s.cnf i := by
  unfold controlRegisterWrite
  rw [finRange_8]
  simp only [List.foldl, Function.update_apply]
  simp only [(hi _).symm, if_false]

theorem controlRegisterWrite_mode_other (s : STM32F1XXGPIOState) (isLow v : Nat) (i : Fin 16)
    (hi : ∀ ii : Fin 8, ctrl_index isLow ii ≠ i) :
    (controlRegisterWrite s isLow v).mode i = s.mode i := by
  unfold controlRegisterWrite
  rw [finRange_8]
  simp only [List.foldl, Function.update_apply]
  simp only [(hi _).symm, if_false]

theorem controlRegisterWrite_rest (s : STM32F1XXGPIOState) (isLow v : Nat) :
    (controlRegisterWrite s isLow v).port = s.port ∧
    (controlRegisterWrite s isLow v).idr = s.idr ∧
    (controlRegisterWrite s isLow v).lck = s.lck ∧
    (controlRegisterWrite s isLow v).lckk = s.lckk ∧
    (controlRegisterWrite s isLow v).port_id = s.port_id := by
  unfold controlRegisterWrite
  rw [finRange_8]
  exact ⟨rfl, rfl, rfl, rfl, rfl⟩

theorem controlRegisterRead_congr (s t : STM32F1XXGPIOState) (isLow : Nat)
    (hc : ∀ ii : Fin 8, s.cnf (ctrl_index isLow ii) = t.cnf (ctrl_index isLow ii))
    (hm : ∀ ii : Fin 8, s.mode (ctrl_index isLow ii) = t.mode (ctrl_index isLow ii)) :
    controlRegisterRead s isLow = controlRegisterRead t isLow := by
  unfold controlRegisterRead
  simp only [hc, hm]


/-! ## Bit set/reset registers BSRR and BRR -/

theorem testBit_mask16 (j : Nat) : Nat.testBit 0xFFFF j = decide (j < 16) :=
  Nat.testBit_two_pow_sub_one 16 j

theorem testBit_mask32 (j : Nat) : Nat.testBit 0xFFFFFFFF j = decide (j < 32) :=
  Nat.testBit_two_pow_sub_one 32 j

theorem low_bit_ne_zero (x : Nat) : (x &&& 1) % 2 ^ 8 ≠ 0 ↔ x.testBit 0 = true := by
  rw [Nat.and_one_is_mod, Nat.testBit_zero]
  have h2 : x % 2 < 2 := Nat.mod_lt _ (by decide)
  have h3 : x % 2 % 2 ^ 8 = x % 2 := Nat.mod_eq_of_lt (by omega)
  rw [h3, decide_eq_true_iff]
  omega

theorem writeSetReset_step_spec (s0 : STM32F1XXGPIOState) (r t k : Nat) (ii : Fin 16)
    (hk : ii.val = k) (acc : STM32F1XXGPIOState × List PinChange × Nat × Nat)
    (h : acc.2.2.1 = r >>> k ∧ acc.2.2.2 = t >>> k ∧
      ∀ i : Fin 16, acc.1.port i =
        if i.val < k then (if t.testBit i.val then 1 else if r.testBit i.val then 0 else s0.port i)
        else s0.port i) :
    (writeSetReset_step acc ii).2.2.1 = r >>> (k + 1) ∧
    (writeSetReset_step acc ii).2.2.2 = t >>> (k + 1) ∧
    ∀ i : Fin 16, (writeSetReset_step acc ii).1.port i =
      if i.val < k + 1 then (if t.testBit i.val then 1 else if r.testBit i.val then 0 else s0.port i)
      else s0.port i := by
  obtain ⟨h1, h2, h3⟩ := h
  have hset : (acc.2.2.2 &&& 1) % 2 ^ 8 ≠ 0 ↔ t.testBit k = true := by
    rw [low_bit_ne_zero, h2, Nat.testBit_shiftRight, Nat.add_zero]
  have hreset : (acc.2.2.1 &&& 1) % 2 ^ 8 ≠ 0 ↔ r.testBit k = true := by
    rw [low_bit_ne_zero, h1, Nat.testBit_shiftRight, Nat.add_zero]
  have hr1 : acc.2.2.1 >>> 1 = r >>> (k + 1) := by rw [h1, Nat.shiftRight_add]
  have ht1 : acc.2.2.2 >>> 1 = t >>> (k + 1) := by rw [h2, Nat.shiftRight_add]
  have hport : ∀ (p : Fin 16 → Nat) (x : Nat), (∀ i : Fin 16, i ≠ ii → p i = acc.1.port i) →
      p ii = x →
      (x = if t.testBit k then 1 else if r.testBit k then 0 else s0.port ii) →
      ∀ i : Fin 16, p i =
        if i.val < k + 1 then (if t.testBit i.val then 1 else if r.testBit i.val then 0 else s0.port i)
        else s0.port i := by
    intro p x hp hx hxv i
    by_cases hi : i = ii
    · rw [hi, if_pos (show ii.val < k + 1 by omega), hx, hxv, hk]
    · have hne : i.val ≠ k := fun e => hi (Fin.ext (e.trans hk.symm))
      rw [hp i hi, h3 i]
      by_cases hlt : i.val < k
      · rw [if_pos hlt, if_pos (show i.val < k + 1 by omega)]
      · rw [if_neg hlt, if_neg (show ¬ i.val < k + 1 by omega)]
  unfold writeSetReset_step
  dsimp only
  by_cases hs : t.testBit k = true
  · rw [if_pos (hset.mpr hs)]
    refine ⟨hr1, ht1, hport _ 1 (fun i hi => Function.update_noteq hi _ _)
      (Function.update_same _ _ _) ?_⟩
    rw [if_pos hs]
  · rw [if_neg (fun e => hs (hset.mp e))]
    by_cases hrs : r.testBit k = true
    · rw [if_pos (hreset.mpr hrs)]
      refine ⟨hr1, ht1, hport _ 0 (fun i hi => Function.update_noteq hi _ _)
        (Function.update_same _ _ _) ?_⟩
      rw [if_neg hs, if_pos hrs]
    · rw [if_neg (fun e => hrs (hreset.mp e))]
      refine ⟨hr1, ht1, hport _ (acc.1.port ii) (fun i hi => rfl) rfl ?_⟩
      rw [if_neg hs, if_neg hrs, h3 ii, if_neg (show ¬ ii.val < k by omega)]

theorem writeSetReset_port (s : STM32F1XXGPIOState) (reset set : Nat) (i : Fin 16) :
    (writeSetReset s reset set).1.port i =
      if (set % 2 ^ 16).testBit i.val then 1
      else if (reset % 2 ^ 16).testBit i.val then 0 else s.port i := by
  unfold writeSetReset
  rw [finRange_16]
  simp only [List.foldl]
  have h0 : ((s, ([] : List PinChange), reset % 2 ^ 16, set % 2 ^ 16) :
        STM32F1XXGPIOState × List PinChange × Nat × Nat).2.2.1 = (reset % 2 ^ 16) >>> 0 ∧
      ((s, ([] : List PinChange), reset % 2 ^ 16, set % 2 ^ 16) :
        STM32F1XXGPIOState × List PinChange × Nat × Nat).2.2.2 = (set % 2 ^ 16) >>> 0 ∧
      ∀ i : Fin 16, ((s, ([] : List PinChange), reset % 2 ^ 16, set % 2 ^ 16) :
        STM32F1XXGPIOState × List PinChange × Nat × Nat).1.port i =
        if i.val < 0 then
          (if (set % 2 ^ 16).testBit i.val then 1
            else if (reset % 2 ^ 16).testBit i.val then 0 else s.port i)
        else s.port i :=
    ⟨rfl, rfl, fun i => (if_neg (Nat.not_lt_zero _)).symm⟩
  have e1 := writeSetReset_step_spec s _ _ 0 0 rfl _ h0
  have e2 := writeSetReset_step_spec s _ _ 1 1 rfl _ e1
  have e3 := writeSetReset_step_spec s _ _ 2 2 rfl _ e2
  have e4 := writeSetReset_step_spec s _ _ 3 3 rfl _ e3
  have e5 := writeSetReset_step_spec s _ _ 4 4 rfl _ e4
  have e6 := writeSetReset_step_spec s _ _ 5 5 rfl _ e5
  have e7 := writeSetReset_step_spec s _ _ 6 6 rfl _ e6
  have e8 := writeSetReset_step_spec s _ _ 7 7 rfl _ e7
  have e9 := writeSetReset_step_spec s _ _ 8 8 rfl _ e8
  have e10 := writeSetReset_step_spec s _ _ 9 9 rfl _ e9
  have e11 := writeSetReset_step_spec s _ _ 10 10 rfl _ e10
  have e12 := writeSetReset_step_spec s _ _ 11 11 rfl _ e11
  have e13 := writeSetReset_step_spec s _ _ 12 12 rfl _ e12
  have e14 := writeSetReset_step_spec s _ _ 13 13 rfl _ e13
  have e15 := writeSetReset_step_spec s _ _ 14 14 rfl _ e14
  have e16 := writeSetReset_step_spec s _ _ 15 15 rfl _ e15
  rw [e16.2.2 i, if_pos i.isLt]

/-- C31: for every pin state and every value `w`, after a write of `w` at
BSRR pin `i` is 1 if bit `i` of `w` is set, otherwise 0 if bit `16 + i` is
set, otherwise unchanged; after a write of `w` at BRR pin `i` is 0 if bit `i`
of `w` is set and unchanged otherwise. -/
theorem set_reset_write (s : STM32F1XXGPIOState) (w : Nat) (i : Fin 16) :
    (∃ r, stm32f1xx_gpio_write s GPIO_BSRR_ADDR w = .ok r ∧
      r.1.port i =
        if w.testBit i.val then 1 else if w.testBit (16 + i.val) then 0 else s.port i) ∧
    (∃ r, stm32f1xx_gpio_write s GPIO_BRR_ADDR w = .ok r ∧
      r.1.port i = if w.testBit i.val then 0 else s.port i) := by
  have hi := i.isLt
  have hlow : ∀ x : Nat, (x % 2 ^ 16).testBit i.val = x.testBit i.val := by
    intro x
    rw [Nat.testBit_mod_two_pow, decide_eq_true hi, Bool.true_and]
  have hset : (((w &&& 0xFFFFFFFF) >>> 0) &&& 0xFFFF).testBit i.val = w.testBit i.val := by
    rw [Nat.testBit_and, Nat.testBit_shiftRight, Nat.testBit_and, testBit_mask16,
      testBit_mask32, Nat.zero_add, decide_eq_true hi, decide_eq_true (show i.val < 32 by omega),
      Bool.and_true, Bool.and_true]
  have hreset : (((w &&& 0xFFFFFFFF) >>> 16) &&& 0xFFFF).testBit i.val
      = w.testBit (16 + i.val) := by
    rw [Nat.testBit_and, Nat.testBit_shiftRight, Nat.testBit_and, testBit_mask16,
      testBit_mask32, decide_eq_true hi, decide_eq_true (show 16 + i.val < 32 by omega),
      Bool.and_true, Bool.and_true]
  have hzero : (0 : Nat).testBit i.val = false := Nat.zero_testBit _
  constructor
  · refine ⟨_, rfl, ?_⟩
    rw [writeSetReset_port, hlow, hlow, hset, hreset]
  · refine ⟨_, rfl, ?_⟩
    rw [writeSetReset_port, hlow, hlow, hset, hzero]
    simp only [Bool.false_eq_true, if_false]


/-! ## Round trip of the control registers -/

theorem and_mask32_of_lt (v : Nat) (h : v < 2 ^ 32) : v &&& 0xFFFFFFFF = v :=
  Nat.and_pow_two_sub_one_of_lt_two_pow (n := 32) h

theorem ctrl_index_low_lt (ii : Fin 8) : (ctrl_index 1 ii).val < 8 := by
  rw [ctrl_index_val, if_pos (by decide)]
  exact ii.isLt

theorem ctrl_index_high_ge (ii : Fin 8) : 8 ≤ (ctrl_index 0 ii).val := by
  rw [ctrl_index_val, if_neg (by decide)]
  omega

/-- C32: for every 32-bit `v`, a write of `v` at CRL followed by a read of CRL
gives `v`, leaves the `cnf` and `mode` entries of pins 8 to 15 and all other
registers as they were, and does not change the value read at CRH; the same
holds for CRH, with pins 0 to 7 and the value read at CRL untouched. -/
theorem control_registers_roundtrip (s : STM32F1XXGPIOState) (v value0 : Nat)
    (hv : v < 2 ^ 32) :
    (∃ s1, stm32f1xx_gpio_write s GPIO_CRL_ADDR v = .ok (s1, []) ∧
      stm32f1xx_gpio_read s1 GPIO_CRL_ADDR value0 = v ∧
      stm32f1xx_gpio_read s1 GPIO_CRH_ADDR value0 = stm32f1xx_gpio_read s GPIO_CRH_ADDR value0 ∧
      (∀ i : Fin 16, 8 ≤ i.val → s1.cnf i = s.cnf i ∧ s1.mode i = s.mode i) ∧
      s1.port = s.port ∧ s1.idr = s.idr ∧ s1.lck = s.lck ∧ s1.lckk = s.lckk) ∧
    (∃ s2, stm32f1xx_gpio_write s GPIO_CRH_ADDR v = .ok (s2, []) ∧
      stm32f1xx_gpio_read s2 GPIO_CRH_ADDR value0 = v ∧
      stm32f1xx_gpio_read s2 GPIO_CRL_ADDR value0 = stm32f1xx_gpio_read s GPIO_CRL_ADDR value0 ∧
      (∀ i : Fin 16, i.val < 8 → s2.cnf i = s.cnf i ∧ s2.mode i = s.mode i) ∧
      s2.port = s.port ∧ s2.idr = s.idr ∧ s2.lck = s.lck ∧ s2.lckk = s.lckk) := by
  have hmask := and_mask32_of_lt v hv
  have hlow : ∀ (i : Fin 16), 8 ≤ i.val → ∀ ii : Fin 8, ctrl_index 1 ii ≠ i := by
    intro i hi ii e
    have := ctrl_index_low_lt ii
    rw [e] at this
    omega
  have hhigh : ∀ (i : Fin 16), i.val < 8 → ∀ ii : Fin 8, ctrl_index 0 ii ≠ i := by
    intro i hi ii e
    have := ctrl_index_high_ge ii
    rw [e] at this
    omega
  have hrest1 := controlRegisterWrite_rest s 1 v
  have hrest0 := controlRegisterWrite_rest s 0 v
  constructor
  · refine ⟨controlRegisterWrite s 1 v, ?_, ?_, ?_, ?_, hrest1.1, hrest1.2.1, hrest1.2.2.1,
      hrest1.2.2.2.1⟩
    · show Except.ok (controlRegisterWrite s 1 (v &&& 0xFFFFFFFF), []) = _
      rw [hmask]
    · show controlRegisterRead (controlRegisterWrite s 1 v) 1 = v
      exact controlRegisterRead_of_fields _ 1 v hv
        (controlRegisterWrite_cnf_same s 1 v) (controlRegisterWrite_mode_same s 1 v)
    · show controlRegisterRead (controlRegisterWrite s 1 v) 0 = controlRegisterRead s 0
      exact controlRegisterRead_congr _ _ 0
        (fun ii => controlRegisterWrite_cnf_other s 1 v _
          (hlow _ (ctrl_index_high_ge ii)))
        (fun ii => controlRegisterWrite_mode_other s 1 v _
          (hlow _ (ctrl_index_high_ge ii)))
    · intro i hi
      exact ⟨controlRegisterWrite_cnf_other s 1 v i (hlow i hi),
        controlRegisterWrite_mode_other s 1 v i (hlow i hi)⟩
  · refine ⟨controlRegisterWrite s 0 v, ?_, ?_, ?_, ?_, hrest0.1, hrest0.2.1, hrest0.2.2.1,
      hrest0.2.2.2.1⟩
    · show Except.ok (controlRegisterWrite s 0 (v &&& 0xFFFFFFFF), []) = _
      rw [hmask]
    · show controlRegisterRead (controlRegisterWrite s 0 v) 0 = v
      exact controlRegisterRead_of_fields _ 0 v hv
        (controlRegisterWrite_cnf_same s 0 v) (controlRegisterWrite_mode_same s 0 v)
    · show controlRegisterRead (controlRegisterWrite s 0 v) 1 = controlRegisterRead s 1
      exact controlRegisterRead_congr _ _ 1
        (fun ii => controlRegisterWrite_cnf_other s 0 v _
          (hhigh _ (ctrl_index_low_lt ii)))
        (fun ii => controlRegisterWrite_mode_other s 0 v _
          (hhigh _ (ctrl_index_low_lt ii)))
    · intro i hi
      exact ⟨controlRegisterWrite_cnf_other s 0 v i (hhigh i hi),
        controlRegisterWrite_mode_other s 0 v i (hhigh i hi)⟩

/-- Witness of C32: the word `0x12345678` written on a port with pins 3 and 9
high. -/
theorem control_registers_roundtrip_witness :
    (0x12345678 : Nat) < 2 ^ 32 ∧
    (∃ s1, stm32f1xx_gpio_write pins_3_9_state GPIO_CRL_ADDR 0x12345678 = .ok (s1, []) ∧
      stm32f1xx_gpio_read s1 GPIO_CRL_ADDR 0 = 0x12345678 ∧
      stm32f1xx_gpio_read s1 GPIO_CRH_ADDR 0 = stm32f1xx_gpio_read pins_3_9_state GPIO_CRH_ADDR 0 ∧
      (∀ i : Fin 16, 8 ≤ i.val →
        s1.cnf i = pins_3_9_state.cnf i ∧ s1.mode i = pins_3_9_state.mode i) ∧
      s1.port = pins_3_9_state.port ∧ s1.idr = pins_3_9_state.idr ∧
      s1.lck = pins_3_9_state.lck ∧ s1.lckk = pins_3_9_state.lckk) ∧
    (∃ s2, stm32f1xx_gpio_write pins_3_9_state GPIO_CRH_ADDR 0x12345678 = .ok (s2, []) ∧
      stm32f1xx_gpio_read s2 GPIO_CRH_ADDR 0 = 0x12345678 ∧
      stm32f1xx_gpio_read s2 GPIO_CRL_ADDR 0 = stm32f1xx_gpio_read pins_3_9_state GPIO_CRL_ADDR 0 ∧
      (∀ i : Fin 16, i.val < 8 →
        s2.cnf i = pins_3_9_state.cnf i ∧ s2.mode i = pins_3_9_state.mode i) ∧
      s2.port = pins_3_9_state.port ∧ s2.idr = pins_3_9_state.idr ∧
      s2.lck = pins_3_9_state.lck ∧ s2.lckk = pins_3_9_state.lckk) :=
  ⟨by decide, control_registers_roundtrip pins_3_9_state 0x12345678 0 (by decide)⟩

/-- Evaluation on the port with pins 3 and 9 high: the word `0x12345678`
read back from CRL with CRH at its old value, and a BSRR write setting pins 0
and 1 and resetting pins 1 and 3. -/
theorem control_and_set_reset_example :
    (stm32f1xx_gpio_write pins_3_9_state GPIO_CRL_ADDR 0x12345678).toOption.map
      (fun r => (stm32f1xx_gpio_read r.1 GPIO_CRL_ADDR 0, stm32f1xx_gpio_read r.1 GPIO_CRH_ADDR 0))
      = some (0x12345678, 0x11111111) ∧
    (stm32f1xx_gpio_write pins_3_9_state GPIO_BSRR_ADDR 0x000A0003).toOption.map
      (fun r => port_list r.1) = some [1, 1, 0, 0, 0, 0, 0, 0, 0, 1, 0, 0, 0, 0, 0, 0] := by
  refine ⟨by decide, by decide⟩

end Stm32f1xxGpio

namespace Stm32f1xxRcc

/-! ## Bit-field access -/

theorem testBit_u32_mask (j : Nat) : Nat.testBit 0xFFFFFFFF j = decide (j < 32) :=
  Nat.testBit_two_pow_sub_one 32 j

theorem bitfield_read_testBit (value off width j : Nat) :
    (bitfield_read value off width).testBit j = (value.testBit (off + j) && decide (j < width)) := by
  unfold bitfield_read
  rw [Nat.testBit_and, Nat.testBit_shiftRight, Nat.testBit_two_pow_sub_one]

theorem bitfield_write_testBit (value off width x j : Nat) (hv : value < 2 ^ 32)
    (hw : off + width ≤ 32) :
    (bitfield_write value off width x).testBit j =
      if off ≤ j ∧ j < off + width then x.testBit (j - off) else value.testBit j := by
  unfold bitfield_write
  rw [Nat.testBit_or, Nat.testBit_and, Nat.testBit_xor, testBit_u32_mask, Nat.testBit_shiftLeft,
    Nat.testBit_shiftLeft, Nat.testBit_and, Nat.testBit_two_pow_sub_one]
  by_cases h1 : off ≤ j
  · by_cases h2 : j < off + width
    · have a1 : j - off < width := by omega
      have a2 : j < 32 := by omega
      simp [h1, h2, a1, a2]
    · have a1 : ¬ (j - off < width) := by omega
      by_cases a2 : j < 32
      · simp [h1, h2, a1, a2]
      · have hz : value.testBit j = false :=
          Nat.testBit_lt_two_pow (lt_of_lt_of_le hv (Nat.pow_le_pow_right (by decide) (by omega)))
        simp [h1, h2, a1, a2, hz]
  · have a2 : j < 32 := by omega
    simp [h1, a2]

theorem bitfield_write_lt (value off width x : Nat) (hv : value < 2 ^ 32)
    (hw : off + width ≤ 32) : bitfield_write value off width x < 2 ^ 32 := by
  apply Nat.lt_pow_two_of_testBit
  intro j hj
  rw [bitfield_write_testBit value off width x j hv hw, if_neg (by omega)]
  exact Nat.testBit_lt_two_pow (lt_of_lt_of_le hv (Nat.pow_le_pow_right (by decide) hj))


theorem and_u32 (v : Nat) (h : v < 2 ^ 32) : v &&& 0xFFFFFFFF = v :=
  Nat.and_pow_two_sub_one_of_lt_two_pow (n := 32) h

theorem mirror_bit (c src dst j : Nat) (hc : c < 2 ^ 32) (hdst : dst + 1 ≤ 32) :
    (bitfield_write c dst 1 (bitfield_read c src 1)).testBit j =
      if j = dst then c.testBit src else c.testBit j := by
  rw [bitfield_write_testBit c dst 1 _ j hc hdst, bitfield_read_testBit]
  by_cases h : j = dst
  · subst h
    rw [if_pos ⟨Nat.le_refl _, Nat.lt_succ_self _⟩, if_pos rfl, Nat.sub_self, Nat.add_zero]
    simp
  · rw [if_neg (fun hh => h (by omega)), if_neg h]

theorem mirror_pair (c j : Nat) (hc : c < 2 ^ 32) :
    (bitfield_write c 2 2 (bitfield_read c 0 2)).testBit j =
      if j = 2 then c.testBit 0 else if j = 3 then c.testBit 1 else c.testBit j := by
  rw [bitfield_write_testBit c 2 2 _ j hc (by decide), bitfield_read_testBit]
  by_cases h2 : j = 2
  · subst h2
    simp
  · by_cases h3 : j = 3
    · subst h3
      simp
    · rw [if_neg (fun hh => by omega), if_neg h2, if_neg h3]

/-! ## Status mirroring -/

/-- C33: for every 32-bit `v`, a read of `RCC_CR` after a write of `v` gives
`v` with bit 1 taken from bit 0, bit 17 from bit 16 and bit 25 from bit 24; a
read of `RCC_CFGR` after a write of `v` gives `v` with bits 2 and 3 taken from
bits 0 and 1; each of the eight other registers reads back `v`. -/
theorem status_mirroring (s : STM32F1XXRCCState) (v : Nat) (hv : v < 2 ^ 32) :
    (∀ j : Nat, (stm32f1xx_rcc_read (stm32f1xx_rcc_write s RCC_CR v) RCC_CR).testBit j =
      if j = 1 then v.testBit 0 else if j = 17 then v.testBit 16
      else if j = 25 then v.testBit 24 else v.testBit j) ∧
    (∀ j : Nat, (stm32f1xx_rcc_read (stm32f1xx_rcc_write s RCC_CFGR v) RCC_CFGR).testBit j =
      if j = 2 then v.testBit 0 else if j = 3 then v.testBit 1 else v.testBit j) ∧
    (∀ offset ∈ plain_registers,
      stm32f1xx_rcc_read (stm32f1xx_rcc_write s offset v) offset = v) := by
  refine ⟨?_, ?_, ?_⟩
  · intro j
    have e : stm32f1xx_rcc_read (stm32f1xx_rcc_write s RCC_CR v) RCC_CR =
        bitfield_write
          (bitfield_write
            (bitfield_write (v &&& 0xFFFFFFFF) 1 1 (bitfield_read (v &&& 0xFFFFFFFF) 0 1))
            17 1
            (bitfield_read
              (bitfield_write (v &&& 0xFFFFFFFF) 1 1 (bitfield_read (v &&& 0xFFFFFFFF) 0 1))
              16 1))
          25 1
          (bitfield_read
            (bitfield_write
              (bitfield_write (v &&& 0xFFFFFFFF) 1 1 (bitfield_read (v &&& 0xFFFFFFFF) 0 1))
              17 1
              (bitfield_read
                (bitfield_write (v &&& 0xFFFFFFFF) 1 1 (bitfield_read (v &&& 0xFFFFFFFF) 0 1))
                16 1))
            24 1) := rfl
    rw [e, and_u32 v hv]
    have b1 := bitfield_write_lt v 1 1 (bitfield_read v 0 1) hv (by decide)
    have b2 := bitfield_write_lt _ 17 1
      (bitfield_read (bitfield_write v 1 1 (bitfield_read v 0 1)) 16 1) b1 (by decide)
    rw [mirror_bit _ 24 25 j b2 (by decide), mirror_bit _ 16 17 24 b1 (by decide),
      mirror_bit _ 16 17 j b1 (by decide), mirror_bit v 0 1 24 hv (by decide),
      mirror_bit v 0 1 16 hv (by decide), mirror_bit v 0 1 j hv (by decide)]
    by_cases h25 : j = 25
    · subst h25
      simp
    · by_cases h17 : j = 17
      · subst h17
        simp
      · simp [h25, h17]
  · intro j
    have e : stm32f1xx_rcc_read (stm32f1xx_rcc_write s RCC_CFGR v) RCC_CFGR =
        bitfield_write (v &&& 0xFFFFFFFF) 2 2 (bitfield_read (v &&& 0xFFFFFFFF) 0 2) := rfl
    rw [e, and_u32 v hv]
    exact mirror_pair v j hv
  · intro offset hmem
    have e := and_u32 v hv
    simp only [plain_registers, List.mem_cons, List.mem_singleton, List.not_mem_nil,
      or_false] at hmem
    rcases hmem with h | h | h | h | h | h | h | h <;> subst h <;> exact e

/-- Witness of C33: the word with the three `on` bits set, on the reset
state. -/
theorem status_mirroring_witness :
    (0x01010001 : Nat) < 2 ^ 32 ∧
    (∀ j : Nat,
      (stm32f1xx_rcc_read (stm32f1xx_rcc_write rcc_reset_state RCC_CR 0x01010001) RCC_CR).testBit j =
      if j = 1 then Nat.testBit 0x01010001 0 else if j = 17 then Nat.testBit 0x01010001 16
      else if j = 25 then Nat.testBit 0x01010001 24 else Nat.testBit 0x01010001 j) ∧
    (∀ j : Nat,
      (stm32f1xx_rcc_read (stm32f1xx_rcc_write rcc_reset_state RCC_CFGR 0x01010001)
        RCC_CFGR).testBit j =
      if j = 2 then Nat.testBit 0x01010001 0 else if j = 3 then Nat.testBit 0x01010001 1
      else Nat.testBit 0x01010001 j) ∧
    (∀ offset ∈ plain_registers,
      stm32f1xx_rcc_read (stm32f1xx_rcc_write rcc_reset_state offset 0x01010001) offset
        = 0x01010001) :=
  ⟨by decide, status_mirroring rcc_reset_state 0x01010001 (by decide)⟩

/-- Evaluation on the reset state: the `on` bits are copied to the `rdy`
bits, written `rdy` bits without their `on` bit read back as 0, and `sws`
follows `sw`. -/
theorem status_mirroring_example :
    stm32f1xx_rcc_read (stm32f1xx_rcc_write rcc_reset_state RCC_CR 0x01010001) RCC_CR = 0x03030003 ∧
    stm32f1xx_rcc_read (stm32f1xx_rcc_write rcc_reset_state RCC_CR 0xFFFFFFFF) RCC_CR = 0xFFFFFFFF ∧
    stm32f1xx_rcc_read (stm32f1xx_rcc_write rcc_reset_state RCC_CR 0x02020002) RCC_CR = 0 ∧
    stm32f1xx_rcc_read (stm32f1xx_rcc_write rcc_reset_state RCC_CFGR 0xF6) RCC_CFGR = 0xFA := by
  decide

end Stm32f1xxRcc
